import Mathlib

/-!
# ObjectStore: the transaction log and its default dispatcher

A shallow embedding of `src/os/ObjectStore.h`: the `Transaction` operand queues, its
builder methods, `encode` / `decode`, the default `apply_transaction` and the default
`zero`, followed by the properties established about them.

Conventions of the embedding.

* Object ids, collection ids and pointers (output handles, completions) are natural
  numbers; the null pointer is `0`.
* A `bufferlist` is the list of its bytes; an attribute name is a string.
* Machine integers are mathematical integers, with the conversions of an LP64 target
  (`int8_t`, `int64_t`, `off_t`, `size_t`) written out where the source converts.
* `front()` / `pop_front()` on an empty `std::list` is undefined behaviour in the source;
  the embedding stops there with `Fault.undefined`.  `assert(0)` stops with `Fault.bad_op`.
* The state outside of the Transaction (backend state and the caller's memory behind the
  output handles) is a type parameter `σ`; a backend is an interpretation of the
  interface methods on `σ`.
-/

namespace ObjectStore

/-! ## Basic types -/

abbrev coll_t := Nat
abbrev pobject_t := Nat
abbrev Ptr := Nat
abbrev bufferlist := List Nat

/-- Conversion to `int8_t` (two's complement, 8 bits). -/
def int8_t (x : Int) : Int := (x + 128) % 256 - 128

/-- Conversion to `int64_t` (two's complement, 64 bits). -/
def int64_t (x : Int) : Int := (x + 9223372036854775808) % 18446744073709551616 - 9223372036854775808

/-- Conversion to `off_t` (a signed 64 bit integer). -/
def off_t (x : Int) : Int := int64_t x

/-- Conversion to `size_t` (an unsigned 64 bit integer). -/
def size_t (x : Int) : Nat := (x % 18446744073709551616).toNat

/-- Conversion to `unsigned` (32 bits), the length type of `bufferlist::append`. -/
def unsigned (x : Int) : Nat := (x % 4294967296).toNat

/-- Conversion to `int` (two's complement, 32 bits). -/
def int_t (x : Int) : Int := (x + 2147483648) % 4294967296 - 2147483648

/-- Ways in which a run of the dispatcher stops without returning. -/
inductive Fault where
  | bad_op (op : Int)
  | undefined
  | out_of_fuel
  deriving DecidableEq, Repr

/-! ## Transaction -/

/-- The operand queues of `class Transaction` (head of the list = front of the queue). -/
structure Transaction where
  ops : List Int := []
  bls : List bufferlist := []
  oids : List pobject_t := []
  cids : List coll_t := []
  lengths : List Int := []
  attrnames : List String := []
  attrnames2 : List String := []
  pbls : List Ptr := []
  psts : List Ptr := []
  pattrvals : List (Ptr × Ptr) := []
  pattrsets : List Ptr := []
  deriving DecidableEq, Repr

namespace Transaction

abbrev OP_READ : Int := 1
abbrev OP_STAT : Int := 2
abbrev OP_GETATTR : Int := 3
abbrev OP_GETATTRS : Int := 4
abbrev OP_WRITE : Int := 10
abbrev OP_ZERO : Int := 11
abbrev OP_TRUNCATE : Int := 12
abbrev OP_REMOVE : Int := 13
abbrev OP_SETATTR : Int := 14
abbrev OP_SETATTRS : Int := 15
abbrev OP_RMATTR : Int := 16
abbrev OP_CLONE : Int := 17
abbrev OP_TRIMCACHE : Int := 18
abbrev OP_MKCOLL : Int := 20
abbrev OP_RMCOLL : Int := 21
abbrev OP_COLL_ADD : Int := 22
abbrev OP_COLL_REMOVE : Int := 23
abbrev OP_COLL_SETATTR : Int := 24
abbrev OP_COLL_RMATTR : Int := 25
abbrev OP_COLL_SETATTRS : Int := 26

def have_op (t : Transaction) : Bool := !t.ops.isEmpty

def get_num_ops (t : Transaction) : Int := int_t t.ops.length

/-- The `front()` then `pop_front()` of a queue; `none` is the undefined behaviour on an
empty one. -/
def pop {α : Type} (q : List α) : Option (α × List α) :=
  match q with
  | [] => none
  | x :: rest => some (x, rest)

def get_op (t : Transaction) : Option (Int × Transaction) :=
  (pop t.ops).map fun (op, rest) => (op, { t with ops := rest })

def get_bl (t : Transaction) : Option (bufferlist × Transaction) :=
  (pop t.bls).map fun (bl, rest) => (bl, { t with bls := rest })

def get_oid (t : Transaction) : Option (pobject_t × Transaction) :=
  (pop t.oids).map fun (oid, rest) => (oid, { t with oids := rest })

def get_cid (t : Transaction) : Option (coll_t × Transaction) :=
  (pop t.cids).map fun (cid, rest) => (cid, { t with cids := rest })

def get_length (t : Transaction) : Option (Int × Transaction) :=
  (pop t.lengths).map fun (len, rest) => (off_t len, { t with lengths := rest })

def get_attrname (t : Transaction) : Option (String × Transaction) :=
  (pop t.attrnames).map fun (p, rest) => (p, { t with attrnames := rest })

def get_pbl (t : Transaction) : Option (Ptr × Transaction) :=
  (pop t.pbls).map fun (pbl, rest) => (pbl, { t with pbls := rest })

def get_pstat (t : Transaction) : Option (Ptr × Transaction) :=
  (pop t.psts).map fun (pst, rest) => (pst, { t with psts := rest })

def get_pattrval (t : Transaction) : Option ((Ptr × Ptr) × Transaction) :=
  (pop t.pattrvals).map fun (p, rest) => (p, { t with pattrvals := rest })

def get_pattrset (t : Transaction) : Option (Ptr × Transaction) :=
  (pop t.pattrsets).map fun (ps, rest) => (ps, { t with pattrsets := rest })

/-! ### Builder methods -/

def read (t : Transaction) (cid : coll_t) (oid : pobject_t) (off : Int) (len : Nat) (pbl : Ptr) :
    Transaction :=
  { t with
    ops := t.ops ++ [int8_t OP_READ]
    cids := t.cids ++ [cid]
    oids := t.oids ++ [oid]
    lengths := t.lengths ++ [int64_t off] ++ [int64_t len]
    pbls := t.pbls ++ [pbl] }

def stat (t : Transaction) (cid : coll_t) (oid : pobject_t) (st : Ptr) : Transaction :=
  { t with
    ops := t.ops ++ [int8_t OP_STAT]
    cids := t.cids ++ [cid]
    oids := t.oids ++ [oid]
    psts := t.psts ++ [st] }

def getattr (t : Transaction) (cid : coll_t) (oid : pobject_t) (name : String) (val : Ptr)
    (plen : Ptr) : Transaction :=
  { t with
    ops := t.ops ++ [int8_t OP_GETATTR]
    cids := t.cids ++ [cid]
    oids := t.oids ++ [oid]
    attrnames := t.attrnames ++ [name]
    pattrvals := t.pattrvals ++ [(val, plen)] }

def getattrs (t : Transaction) (cid : coll_t) (oid : pobject_t) (aset : Ptr) : Transaction :=
  { t with
    ops := t.ops ++ [int8_t OP_GETATTRS]
    cids := t.cids ++ [cid]
    oids := t.oids ++ [oid]
    pattrsets := t.pattrsets ++ [aset] }

def write (t : Transaction) (cid : coll_t) (oid : pobject_t) (off : Int) (len : Nat)
    (bl : bufferlist) : Transaction :=
  { t with
    ops := t.ops ++ [int8_t OP_WRITE]
    cids := t.cids ++ [cid]
    oids := t.oids ++ [oid]
    lengths := t.lengths ++ [int64_t off] ++ [int64_t len]
    bls := t.bls ++ [bl] }

def zero (t : Transaction) (cid : coll_t) (oid : pobject_t) (off : Int) (len : Nat) :
    Transaction :=
  { t with
    ops := t.ops ++ [int8_t OP_ZERO]
    cids := t.cids ++ [cid]
    oids := t.oids ++ [oid]
    lengths := t.lengths ++ [int64_t off] ++ [int64_t len] }

def trim_from_cache (t : Transaction) (cid : coll_t) (oid : pobject_t) (off : Int) (len : Nat) :
    Transaction :=
  { t with
    ops := t.ops ++ [int8_t OP_TRIMCACHE]
    cids := t.cids ++ [cid]
    oids := t.oids ++ [oid]
    lengths := t.lengths ++ [int64_t off] ++ [int64_t len] }

def truncate (t : Transaction) (cid : coll_t) (oid : pobject_t) (off : Int) : Transaction :=
  { t with
    ops := t.ops ++ [int8_t OP_TRUNCATE]
    cids := t.cids ++ [cid]
    oids := t.oids ++ [oid]
    lengths := t.lengths ++ [int64_t off] }

def remove (t : Transaction) (cid : coll_t) (oid : pobject_t) : Transaction :=
  { t with
    ops := t.ops ++ [int8_t OP_REMOVE]
    cids := t.cids ++ [cid]
    oids := t.oids ++ [oid] }

/-- The builder `setattr`; `val` is the content of the caller's memory at the pointer `val`,
of which `bl.append((char*)val, len)` copies the first `len` bytes. -/
def setattr (t : Transaction) (cid : coll_t) (oid : pobject_t) (name : String)
    (val : List Nat) (len : Int) : Transaction :=
  { t with
    ops := t.ops ++ [int8_t OP_SETATTR]
    cids := t.cids ++ [cid]
    oids := t.oids ++ [oid]
    attrnames := t.attrnames ++ [name]
    bls := t.bls ++ [val.take (unsigned len)] }

def setattrs (t : Transaction) (cid : coll_t) (oid : pobject_t) (attrset : Ptr) : Transaction :=
  { t with
    ops := t.ops ++ [int8_t OP_SETATTRS]
    cids := t.cids ++ [cid]
    oids := t.oids ++ [oid]
    pattrsets := t.pattrsets ++ [attrset] }

def rmattr (t : Transaction) (cid : coll_t) (oid : pobject_t) (name : String) : Transaction :=
  { t with
    ops := t.ops ++ [int8_t OP_RMATTR]
    cids := t.cids ++ [cid]
    oids := t.oids ++ [oid]
    attrnames := t.attrnames ++ [name] }

def clone (t : Transaction) (cid : coll_t) (oid : pobject_t) (noid : pobject_t) : Transaction :=
  { t with
    ops := t.ops ++ [int8_t OP_CLONE]
    cids := t.cids ++ [cid]
    oids := t.oids ++ [oid] ++ [noid] }

def create_collection (t : Transaction) (cid : coll_t) : Transaction :=
  { t with
    ops := t.ops ++ [int8_t OP_MKCOLL]
    cids := t.cids ++ [cid] }

def remove_collection (t : Transaction) (cid : coll_t) : Transaction :=
  { t with
    ops := t.ops ++ [int8_t OP_RMCOLL]
    cids := t.cids ++ [cid] }

def collection_add (t : Transaction) (cid : coll_t) (ocid : coll_t) (oid : pobject_t) :
    Transaction :=
  { t with
    ops := t.ops ++ [int8_t OP_COLL_ADD]
    cids := t.cids ++ [cid] ++ [ocid]
    oids := t.oids ++ [oid] }

def collection_remove (t : Transaction) (cid : coll_t) (oid : pobject_t) : Transaction :=
  { t with
    ops := t.ops ++ [int8_t OP_COLL_REMOVE]
    cids := t.cids ++ [cid]
    oids := t.oids ++ [oid] }

def collection_setattr (t : Transaction) (cid : coll_t) (name : String) (val : List Nat)
    (len : Int) : Transaction :=
  { t with
    ops := t.ops ++ [int8_t OP_COLL_SETATTR]
    cids := t.cids ++ [cid]
    attrnames := t.attrnames ++ [name]
    bls := t.bls ++ [val.take (unsigned len)] }

def collection_rmattr (t : Transaction) (cid : coll_t) (name : String) : Transaction :=
  { t with
    ops := t.ops ++ [int8_t OP_COLL_RMATTR]
    cids := t.cids ++ [cid]
    attrnames := t.attrnames ++ [name] }

def collection_setattrs (t : Transaction) (cid : coll_t) (aset : Ptr) : Transaction :=
  { t with
    ops := t.ops ++ [int8_t OP_COLL_SETATTRS]
    cids := t.cids ++ [cid]
    pattrsets := t.pattrsets ++ [aset] }

end Transaction

/-! ## The storage interface -/

/-- An invocation of one of the virtual methods of `class ObjectStore` that the default
dispatcher and the default method bodies use, with its arguments.  Pointer and reference
arguments are the handle itself; the `value` of `setattr` is the `size` bytes behind the
pointer that is passed. -/
inductive Call where
  | transaction_start
  | transaction_end (id : Int)
  | read (cid : coll_t) (oid : pobject_t) (offset : Int) (len : Nat) (bl : Ptr)
  | stat (cid : coll_t) (oid : pobject_t) (st : Ptr)
  | getattr (cid : coll_t) (oid : pobject_t) (name : String) (value : Ptr) (size : Nat)
  | getattrs (cid : coll_t) (oid : pobject_t) (aset : Ptr)
  | write (cid : coll_t) (oid : pobject_t) (offset : Int) (len : Nat) (bl : bufferlist)
      (onsafe : Ptr)
  | zero (cid : coll_t) (oid : pobject_t) (offset : Int) (len : Nat) (onsafe : Ptr)
  | trim_from_cache (cid : coll_t) (oid : pobject_t) (offset : Int) (len : Nat)
  | truncate (cid : coll_t) (oid : pobject_t) (size : Int) (onsafe : Ptr)
  | remove (cid : coll_t) (oid : pobject_t) (onsafe : Ptr)
  | setattr (cid : coll_t) (oid : pobject_t) (name : String) (value : bufferlist) (size : Nat)
      (onsafe : Ptr)
  | setattrs (cid : coll_t) (oid : pobject_t) (aset : Ptr) (onsafe : Ptr)
  | rmattr (cid : coll_t) (oid : pobject_t) (name : String) (onsafe : Ptr)
  | clone (cid : coll_t) (oid : pobject_t) (noid : pobject_t)
  | create_collection (c : coll_t) (onsafe : Ptr)
  | destroy_collection (c : coll_t) (onsafe : Ptr)
  | collection_add (c : coll_t) (ocid : coll_t) (o : pobject_t) (onsafe : Ptr)
  | collection_remove (c : coll_t) (o : pobject_t) (onsafe : Ptr)
  | collection_setattr (cid : coll_t) (name : String) (value : bufferlist) (size : Nat)
      (onsafe : Ptr)
  | collection_rmattr (cid : coll_t) (name : String) (onsafe : Ptr)
  | collection_setattrs (cid : coll_t) (aset : Ptr)
  | sync (onsync : Ptr)
  deriving DecidableEq, Repr

end ObjectStore

/-- A backend: what each virtual method does to the state `σ` outside of the Transaction and
the `int` it returns (ignored for the `void` methods), together with access to the `int`
cells of the caller's memory that live in `σ` (the in/out length of `getattr`). -/
structure ObjectStore (σ : Type) where
  invoke : ObjectStore.Call → σ → Int × σ
  load : σ → ObjectStore.Ptr → Int
  store : σ → ObjectStore.Ptr → Int → σ

namespace ObjectStore

open Transaction

variable {σ : Type}

/-- An operand fetched from the Transaction, or the undefined behaviour of an empty queue. -/
def fetched {α β : Type} (o : Option α) (s : σ) (k : α → Except (Fault × σ) β) :
    Except (Fault × σ) β :=
  match o with
  | none => .error (Fault.undefined, s)
  | some a => k a

/-- The block of `case Transaction::OP_READ:`. -/
def case_OP_READ (S : ObjectStore σ) (t : Transaction) (s : σ) :
    Except (Fault × σ) (Transaction × σ) :=
  fetched t.get_cid s fun (cid, t) =>
  fetched t.get_oid s fun (oid, t) =>
  fetched t.get_length s fun (offset, t) =>
  fetched t.get_length s fun (len, t) =>
  fetched t.get_pbl s fun (pbl, t) =>
  .ok (t, (S.invoke (.read cid oid offset (size_t len) pbl) s).2)

/-- The block of `case Transaction::OP_STAT:`. -/
def case_OP_STAT (S : ObjectStore σ) (t : Transaction) (s : σ) :
    Except (Fault × σ) (Transaction × σ) :=
  fetched t.get_cid s fun (cid, t) =>
  fetched t.get_oid s fun (oid, t) =>
  fetched t.get_pstat s fun (st, t) =>
  .ok (t, (S.invoke (.stat cid oid st) s).2)

/-- The block of `case Transaction::OP_GETATTR:`. -/
def case_OP_GETATTR (S : ObjectStore σ) (t : Transaction) (s : σ) :
    Except (Fault × σ) (Transaction × σ) :=
  fetched t.get_cid s fun (cid, t) =>
  fetched t.get_oid s fun (oid, t) =>
  fetched t.get_attrname s fun (attrname, t) =>
  fetched t.get_pattrval s fun (pattrval, t) =>
  let r := S.invoke (.getattr cid oid attrname pattrval.1 (size_t (S.load s pattrval.2))) s
  .ok (t, S.store r.2 pattrval.2 r.1)

/-- The block of `case Transaction::OP_GETATTRS:`. -/
def case_OP_GETATTRS (S : ObjectStore σ) (t : Transaction) (s : σ) :
    Except (Fault × σ) (Transaction × σ) :=
  fetched t.get_cid s fun (cid, t) =>
  fetched t.get_oid s fun (oid, t) =>
  fetched t.get_pattrset s fun (pset, t) =>
  .ok (t, (S.invoke (.getattrs cid oid pset) s).2)

/-- The block of `case Transaction::OP_WRITE:`. -/
def case_OP_WRITE (S : ObjectStore σ) (t : Transaction) (s : σ) :
    Except (Fault × σ) (Transaction × σ) :=
  fetched t.get_cid s fun (cid, t) =>
  fetched t.get_oid s fun (oid, t) =>
  fetched t.get_length s fun (offset, t) =>
  fetched t.get_length s fun (len, t) =>
  fetched t.get_bl s fun (bl, t) =>
  .ok (t, (S.invoke (.write cid oid offset (size_t len) bl 0) s).2)

/-- The block of `case Transaction::OP_ZERO:`. -/
def case_OP_ZERO (S : ObjectStore σ) (t : Transaction) (s : σ) :
    Except (Fault × σ) (Transaction × σ) :=
  fetched t.get_cid s fun (cid, t) =>
  fetched t.get_oid s fun (oid, t) =>
  fetched t.get_length s fun (offset, t) =>
  fetched t.get_length s fun (len, t) =>
  .ok (t, (S.invoke (.zero cid oid offset (size_t len) 0) s).2)

/-- The block of `case Transaction::OP_TRIMCACHE:`. -/
def case_OP_TRIMCACHE (S : ObjectStore σ) (t : Transaction) (s : σ) :
    Except (Fault × σ) (Transaction × σ) :=
  fetched t.get_cid s fun (cid, t) =>
  fetched t.get_oid s fun (oid, t) =>
  fetched t.get_length s fun (offset, t) =>
  fetched t.get_length s fun (len, t) =>
  .ok (t, (S.invoke (.trim_from_cache cid oid offset (size_t len)) s).2)

/-- The block of `case Transaction::OP_TRUNCATE:`. -/
def case_OP_TRUNCATE (S : ObjectStore σ) (t : Transaction) (s : σ) :
    Except (Fault × σ) (Transaction × σ) :=
  fetched t.get_cid s fun (cid, t) =>
  fetched t.get_oid s fun (oid, t) =>
  fetched t.get_length s fun (len, t) =>
  .ok (t, (S.invoke (.truncate cid oid len 0) s).2)

/-- The block of `case Transaction::OP_REMOVE:`. -/
def case_OP_REMOVE (S : ObjectStore σ) (t : Transaction) (s : σ) :
    Except (Fault × σ) (Transaction × σ) :=
  fetched t.get_cid s fun (cid, t) =>
  fetched t.get_oid s fun (oid, t) =>
  .ok (t, (S.invoke (.remove cid oid 0) s).2)

/-- The block of `case Transaction::OP_SETATTR:`. -/
def case_OP_SETATTR (S : ObjectStore σ) (t : Transaction) (s : σ) :
    Except (Fault × σ) (Transaction × σ) :=
  fetched t.get_cid s fun (cid, t) =>
  fetched t.get_oid s fun (oid, t) =>
  fetched t.get_attrname s fun (attrname, t) =>
  fetched t.get_bl s fun (bl, t) =>
  .ok (t, (S.invoke (.setattr cid oid attrname bl bl.length 0) s).2)

/-- The block of `case Transaction::OP_SETATTRS:`. -/
def case_OP_SETATTRS (S : ObjectStore σ) (t : Transaction) (s : σ) :
    Except (Fault × σ) (Transaction × σ) :=
  fetched t.get_cid s fun (cid, t) =>
  fetched t.get_oid s fun (oid, t) =>
  fetched t.get_pattrset s fun (pattrset, t) =>
  .ok (t, (S.invoke (.setattrs cid oid pattrset 0) s).2)

/-- The block of `case Transaction::OP_RMATTR:`. -/
def case_OP_RMATTR (S : ObjectStore σ) (t : Transaction) (s : σ) :
    Except (Fault × σ) (Transaction × σ) :=
  fetched t.get_cid s fun (cid, t) =>
  fetched t.get_oid s fun (oid, t) =>
  fetched t.get_attrname s fun (attrname, t) =>
  .ok (t, (S.invoke (.rmattr cid oid attrname 0) s).2)

/-- The block of `case Transaction::OP_CLONE:`. -/
def case_OP_CLONE (S : ObjectStore σ) (t : Transaction) (s : σ) :
    Except (Fault × σ) (Transaction × σ) :=
  fetched t.get_cid s fun (cid, t) =>
  fetched t.get_oid s fun (oid, t) =>
  fetched t.get_oid s fun (noid, t) =>
  .ok (t, (S.invoke (.clone cid oid noid) s).2)

/-- The block of `case Transaction::OP_MKCOLL:`. -/
def case_OP_MKCOLL (S : ObjectStore σ) (t : Transaction) (s : σ) :
    Except (Fault × σ) (Transaction × σ) :=
  fetched t.get_cid s fun (cid, t) =>
  .ok (t, (S.invoke (.create_collection cid 0) s).2)

/-- The block of `case Transaction::OP_RMCOLL:`. -/
def case_OP_RMCOLL (S : ObjectStore σ) (t : Transaction) (s : σ) :
    Except (Fault × σ) (Transaction × σ) :=
  fetched t.get_cid s fun (cid, t) =>
  .ok (t, (S.invoke (.destroy_collection cid 0) s).2)

/-- The block of `case Transaction::OP_COLL_ADD:`. -/
def case_OP_COLL_ADD (S : ObjectStore σ) (t : Transaction) (s : σ) :
    Except (Fault × σ) (Transaction × σ) :=
  fetched t.get_cid s fun (cid, t) =>
  fetched t.get_cid s fun (ocid, t) =>
  fetched t.get_oid s fun (oid, t) =>
  .ok (t, (S.invoke (.collection_add cid ocid oid 0) s).2)

/-- The block of `case Transaction::OP_COLL_REMOVE:`. -/
def case_OP_COLL_REMOVE (S : ObjectStore σ) (t : Transaction) (s : σ) :
    Except (Fault × σ) (Transaction × σ) :=
  fetched t.get_cid s fun (cid, t) =>
  fetched t.get_oid s fun (oid, t) =>
  .ok (t, (S.invoke (.collection_remove cid oid 0) s).2)

/-- The block of `case Transaction::OP_COLL_SETATTR:`. -/
def case_OP_COLL_SETATTR (S : ObjectStore σ) (t : Transaction) (s : σ) :
    Except (Fault × σ) (Transaction × σ) :=
  fetched t.get_cid s fun (cid, t) =>
  fetched t.get_attrname s fun (attrname, t) =>
  fetched t.get_bl s fun (bl, t) =>
  .ok (t, (S.invoke (.collection_setattr cid attrname bl bl.length 0) s).2)

/-- The block of `case Transaction::OP_COLL_RMATTR:`. -/
def case_OP_COLL_RMATTR (S : ObjectStore σ) (t : Transaction) (s : σ) :
    Except (Fault × σ) (Transaction × σ) :=
  fetched t.get_cid s fun (cid, t) =>
  fetched t.get_attrname s fun (attrname, t) =>
  .ok (t, (S.invoke (.collection_rmattr cid attrname 0) s).2)

/-- One iteration of the `switch (op)` of `apply_transaction`, after `get_op`; the `default:`
block prints the code and fails the assertion. -/
def dispatch_op (S : ObjectStore σ) (op : Int) (t : Transaction) (s : σ) :
    Except (Fault × σ) (Transaction × σ) :=
  if op = OP_READ then case_OP_READ S t s
  else if op = OP_STAT then case_OP_STAT S t s
  else if op = OP_GETATTR then case_OP_GETATTR S t s
  else if op = OP_GETATTRS then case_OP_GETATTRS S t s
  else if op = OP_WRITE then case_OP_WRITE S t s
  else if op = OP_ZERO then case_OP_ZERO S t s
  else if op = OP_TRIMCACHE then case_OP_TRIMCACHE S t s
  else if op = OP_TRUNCATE then case_OP_TRUNCATE S t s
  else if op = OP_REMOVE then case_OP_REMOVE S t s
  else if op = OP_SETATTR then case_OP_SETATTR S t s
  else if op = OP_SETATTRS then case_OP_SETATTRS S t s
  else if op = OP_RMATTR then case_OP_RMATTR S t s
  else if op = OP_CLONE then case_OP_CLONE S t s
  else if op = OP_MKCOLL then case_OP_MKCOLL S t s
  else if op = OP_RMCOLL then case_OP_RMCOLL S t s
  else if op = OP_COLL_ADD then case_OP_COLL_ADD S t s
  else if op = OP_COLL_REMOVE then case_OP_COLL_REMOVE S t s
  else if op = OP_COLL_SETATTR then case_OP_COLL_SETATTR S t s
  else if op = OP_COLL_RMATTR then case_OP_COLL_RMATTR S t s
  else .error (Fault.bad_op op, s)

/-- The loop `while (t.have_op()) { int op = t.get_op(); switch (op) ... }`, run for at most
`fuel` iterations. -/
def while_have_op (S : ObjectStore σ) : Nat → Transaction → σ →
    Except (Fault × σ) (Transaction × σ)
  | 0, t, s => if t.have_op then .error (Fault.out_of_fuel, s) else .ok (t, s)
  | fuel + 1, t, s =>
    if t.have_op then
      fetched t.get_op s fun (op, t) =>
      match dispatch_op S op t s with
      | .error e => .error e
      | .ok (t, s) => while_have_op S fuel t s
    else .ok (t, s)

/-- The default `apply_transaction(Transaction& t, Context *onsafe)`: the value returned, the
Transaction as the run leaves it and the state outside, or the fault that stopped the run
with the state at that point.  One unit of fuel per queued code is enough for the loop. -/
def apply_transaction (S : ObjectStore σ) (t : Transaction) (onsafe : Ptr) (s : σ) :
    Except (Fault × σ) (Nat × Transaction × σ) :=
  let r := S.invoke .transaction_start s
  let id := r.1
  match while_have_op S t.ops.length t r.2 with
  | .error e => .error e
  | .ok (t, s) =>
    let s := (S.invoke (.transaction_end id) s).2
    let s := if onsafe ≠ 0 then (S.invoke (.sync onsafe) s).2 else s
    .ok (0, t, s)

/-- Modelled from the spec: `bufferptr(len)` of `include/buffer.h`, which is not part of the
sources; the spec has the default `zero` materialize a zero-filled byte-block of the
requested length. -/
def bufferptr (len : Nat) : bufferlist := List.replicate len 0

/-- The default body of `zero(cid, oid, offset, len, onsafe)`. -/
def zero (S : ObjectStore σ) (cid : coll_t) (oid : pobject_t) (offset : Int) (len : Nat)
    (onsafe : Ptr) (s : σ) : Int × σ :=
  let bp := bufferptr len
  let bl : bufferlist := [] ++ bp
  S.invoke (.write cid oid offset len bl onsafe) s

/-- The default body of `clone(cid, oid, noid)`. -/
def clone (_S : ObjectStore σ) (_cid : coll_t) (_oid : pobject_t) (_noid : pobject_t) (s : σ) :
    Int × σ :=
  (-1, s)

/-- The default body of `transaction_start()`. -/
def transaction_start (_S : ObjectStore σ) (s : σ) : Int × σ := (0, s)

/-- The default body of `transaction_end(id)`. -/
def transaction_end (_S : ObjectStore σ) (_id : Int) (s : σ) : Int × σ := (0, s)

/-- The default body of `sync(onsync)`. -/
def sync (_S : ObjectStore σ) (_onsync : Ptr) (s : σ) : Int × σ := (0, s)

/-! ## Serialization -/

/-- An encoder and a decoder for values of `α`: `enc` gives the bytes that `::encode`
appends, `dec` reads a value from the front of the remaining bytes (`none`: the decoder
throws). -/
structure Codec (α : Type) where
  enc : α → List Nat
  dec : List Nat → Option (α × List Nat)

/-- The codec `c` reads back `x` from the bytes it wrote for it, whatever follows. -/
def Codec.RoundTrip {α : Type} (c : Codec α) (x : α) : Prop :=
  ∀ rest : List Nat, c.dec (c.enc x ++ rest) = some (x, rest)

/-- The list codecs of `include/encoding.h` that `encode` and `decode` call, one for each
serialized queue (`::encode(ops, bl)` and `::decode(ops, bl)`, and so on).  They are not
part of the sources and stay parameters.  Attribute names are written from
`list<const char*>` and read back as `list<string>`. -/
structure Encoding where
  ops : Codec (List Int)
  bls : Codec (List bufferlist)
  oids : Codec (List pobject_t)
  cids : Codec (List coll_t)
  lengths : Codec (List Int)
  attrnames : Codec (List String)

/-- The list codecs read back the six serialized queues of `t`. -/
def Encoding.RoundTrips (E : Encoding) (t : Transaction) : Prop :=
  E.ops.RoundTrip t.ops ∧ E.bls.RoundTrip t.bls ∧ E.oids.RoundTrip t.oids
    ∧ E.cids.RoundTrip t.cids ∧ E.lengths.RoundTrip t.lengths
    ∧ E.attrnames.RoundTrip t.attrnames

/-- The bytes of the elements of a list, one after the other. -/
def encode_elems {α : Type} (c : Codec α) : List α → List Nat
  | [] => []
  | x :: ls => c.enc x ++ encode_elems c ls

/-- Reads `k` elements. -/
def decode_elems {α : Type} (c : Codec α) : Nat → List Nat → Option (List α × List Nat)
  | 0, p => some ([], p)
  | k + 1, p =>
    match c.dec p with
    | none => none
    | some (v, p) =>
      match decode_elems c k p with
      | none => none
      | some (vs, p) => some (v :: vs, p)

/-- Modelled from the spec: the codec of a list in `include/encoding.h`, which is not part of
the sources; the spec has each list length-prefixed: the number of elements (codec `n`),
then the elements (codec `c`). -/
def length_prefixed {α : Type} (n : Codec Nat) (c : Codec α) : Codec (List α) where
  enc ls := n.enc ls.length ++ encode_elems c ls
  dec p :=
    match n.dec p with
    | none => none
    | some (k, p) => decode_elems c k p

namespace Transaction

/-- The method `encode(bufferlist& bl) const`: the content of `bl` afterwards; each
`::encode(queue, bl)` appends the bytes of the queue. -/
def encode (E : Encoding) (t : Transaction) (bl : List Nat) : List Nat :=
  let bl := bl ++ E.ops.enc t.ops
  let bl := bl ++ E.bls.enc t.bls
  let bl := bl ++ E.oids.enc t.oids
  let bl := bl ++ E.cids.enc t.cids
  let bl := bl ++ E.lengths.enc t.lengths
  bl ++ E.attrnames.enc t.attrnames

/-- The method `decode(bufferlist::iterator &bl)`: `bl` is what is left to read at the
iterator; the result is the Transaction afterwards and what is then left to read.  Each
`::decode(queue, bl)` gives the queue the decoded content; the loop then appends the
decoded names to `attrnames`. -/
def decode (E : Encoding) (t : Transaction) (bl : List Nat) : Option (Transaction × List Nat) :=
  match E.ops.dec bl with
  | none => none
  | some (ops, bl) =>
  match E.bls.dec bl with
  | none => none
  | some (bls, bl) =>
  match E.oids.dec bl with
  | none => none
  | some (oids, bl) =>
  match E.cids.dec bl with
  | none => none
  | some (cids, bl) =>
  match E.lengths.dec bl with
  | none => none
  | some (lengths, bl) =>
  match E.attrnames.dec bl with
  | none => none
  | some (attrnames2, bl) =>
    some ({ t with
            ops := ops
            bls := bls
            oids := oids
            cids := cids
            lengths := lengths
            attrnames2 := attrnames2
            attrnames := t.attrnames ++ attrnames2 }, bl)

/-- The constructor `Transaction(bufferlist &bl)`: decodes from the beginning of `bl` into a
freshly constructed Transaction. -/
def from_bufferlist (E : Encoding) (bl : List Nat) : Option Transaction :=
  (decode E {} bl).map fun r => r.1

end Transaction

/-! ## Scripts of builder calls -/

/-- One call of a builder method of `Transaction`, with its arguments. -/
inductive Builder where
  | read (cid : coll_t) (oid : pobject_t) (off : Int) (len : Nat) (pbl : Ptr)
  | stat (cid : coll_t) (oid : pobject_t) (st : Ptr)
  | getattr (cid : coll_t) (oid : pobject_t) (name : String) (val : Ptr) (plen : Ptr)
  | getattrs (cid : coll_t) (oid : pobject_t) (aset : Ptr)
  | write (cid : coll_t) (oid : pobject_t) (off : Int) (len : Nat) (bl : bufferlist)
  | zero (cid : coll_t) (oid : pobject_t) (off : Int) (len : Nat)
  | trim_from_cache (cid : coll_t) (oid : pobject_t) (off : Int) (len : Nat)
  | truncate (cid : coll_t) (oid : pobject_t) (off : Int)
  | remove (cid : coll_t) (oid : pobject_t)
  | setattr (cid : coll_t) (oid : pobject_t) (name : String) (val : List Nat) (len : Int)
  | setattrs (cid : coll_t) (oid : pobject_t) (attrset : Ptr)
  | rmattr (cid : coll_t) (oid : pobject_t) (name : String)
  | clone (cid : coll_t) (oid : pobject_t) (noid : pobject_t)
  | create_collection (cid : coll_t)
  | remove_collection (cid : coll_t)
  | collection_add (cid : coll_t) (ocid : coll_t) (oid : pobject_t)
  | collection_remove (cid : coll_t) (oid : pobject_t)
  | collection_setattr (cid : coll_t) (name : String) (val : List Nat) (len : Int)
  | collection_rmattr (cid : coll_t) (name : String)
  | collection_setattrs (cid : coll_t) (aset : Ptr)
  deriving DecidableEq, Repr

namespace Builder

/-- Makes the builder call on `t`. -/
def apply (t : Transaction) : Builder → Transaction
  | read cid oid off len pbl => t.read cid oid off len pbl
  | stat cid oid st => t.stat cid oid st
  | getattr cid oid name val plen => t.getattr cid oid name val plen
  | getattrs cid oid aset => t.getattrs cid oid aset
  | write cid oid off len bl => t.write cid oid off len bl
  | zero cid oid off len => t.zero cid oid off len
  | trim_from_cache cid oid off len => t.trim_from_cache cid oid off len
  | truncate cid oid off => t.truncate cid oid off
  | remove cid oid => t.remove cid oid
  | setattr cid oid name val len => t.setattr cid oid name val len
  | setattrs cid oid attrset => t.setattrs cid oid attrset
  | rmattr cid oid name => t.rmattr cid oid name
  | clone cid oid noid => t.clone cid oid noid
  | create_collection cid => t.create_collection cid
  | remove_collection cid => t.remove_collection cid
  | collection_add cid ocid oid => t.collection_add cid ocid oid
  | collection_remove cid oid => t.collection_remove cid oid
  | collection_setattr cid name val len => t.collection_setattr cid name val len
  | collection_rmattr cid name => t.collection_rmattr cid name
  | collection_setattrs cid aset => t.collection_setattrs cid aset

/-- The builder's code has a `case` in the `switch` of `apply_transaction`. -/
def has_case : Builder → Bool
  | collection_setattrs _ _ => false
  | _ => true

/-- Every operand the builder queues is written by `encode` (no output handle, no
attribute-set reference). -/
def serialized : Builder → Bool
  | read .. => false
  | stat .. => false
  | getattr .. => false
  | getattrs .. => false
  | setattrs .. => false
  | collection_setattrs .. => false
  | _ => true

/-- An offset fits `off_t`. -/
def off_ok (off : Int) : Prop := -9223372036854775808 ≤ off ∧ off < 9223372036854775808

/-- A length fits `size_t`. -/
def len_ok (len : Nat) : Prop := len < 18446744073709551616

/-- The (pointer, length) pair of an attribute value: a non-negative `int` and at least
that many bytes behind the pointer. -/
def val_ok (val : List Nat) (len : Int) : Prop := 0 ≤ len ∧ len < 2147483648 ∧ len ≤ val.length

instance (off : Int) : Decidable (off_ok off) := by unfold off_ok; infer_instance
instance (len : Nat) : Decidable (len_ok len) := by unfold len_ok; infer_instance
instance (val : List Nat) (len : Int) : Decidable (val_ok val len) := by
  unfold val_ok; infer_instance

/-- The arguments of the call are values of the C++ parameter types. -/
def wf : Builder → Prop
  | read _ _ off len _ => off_ok off ∧ len_ok len
  | write _ _ off len _ => off_ok off ∧ len_ok len
  | zero _ _ off len => off_ok off ∧ len_ok len
  | trim_from_cache _ _ off len => off_ok off ∧ len_ok len
  | truncate _ _ off => off_ok off
  | setattr _ _ _ val len => val_ok val len
  | collection_setattr _ _ val len => val_ok val len
  | _ => True

instance (c : Builder) : Decidable c.wf := by
  cases c <;> unfold wf <;> infer_instance

end Builder

/-- The Transaction obtained from a freshly constructed one by the builder calls `cs`, made
in that order. -/
def build (cs : List Builder) : Transaction := cs.foldl Builder.apply {}

/-- The interface method that matches a builder call, invoked directly on the backend with
the operand values of the builder call and a null completion.  For `getattr` the size is
the `int` behind `plen`, which then receives the result. -/
def direct (S : ObjectStore σ) (c : Builder) (s : σ) : σ :=
  match c with
  | .read cid oid off len pbl => (S.invoke (.read cid oid off len pbl) s).2
  | .stat cid oid st => (S.invoke (.stat cid oid st) s).2
  | .getattr cid oid name val plen =>
    let r := S.invoke (.getattr cid oid name val (size_t (S.load s plen))) s
    S.store r.2 plen r.1
  | .getattrs cid oid aset => (S.invoke (.getattrs cid oid aset) s).2
  | .write cid oid off len bl => (S.invoke (.write cid oid off len bl 0) s).2
  | .zero cid oid off len => (S.invoke (.zero cid oid off len 0) s).2
  | .trim_from_cache cid oid off len => (S.invoke (.trim_from_cache cid oid off len) s).2
  | .truncate cid oid off => (S.invoke (.truncate cid oid off 0) s).2
  | .remove cid oid => (S.invoke (.remove cid oid 0) s).2
  | .setattr cid oid name val len =>
    (S.invoke (.setattr cid oid name (val.take len.toNat) len.toNat 0) s).2
  | .setattrs cid oid attrset => (S.invoke (.setattrs cid oid attrset 0) s).2
  | .rmattr cid oid name => (S.invoke (.rmattr cid oid name 0) s).2
  | .clone cid oid noid => (S.invoke (.clone cid oid noid) s).2
  | .create_collection cid => (S.invoke (.create_collection cid 0) s).2
  | .remove_collection cid => (S.invoke (.destroy_collection cid 0) s).2
  | .collection_add cid ocid oid => (S.invoke (.collection_add cid ocid oid 0) s).2
  | .collection_remove cid oid => (S.invoke (.collection_remove cid oid 0) s).2
  | .collection_setattr cid name val len =>
    (S.invoke (.collection_setattr cid name (val.take len.toNat) len.toNat 0) s).2
  | .collection_rmattr cid name => (S.invoke (.collection_rmattr cid name 0) s).2
  | .collection_setattrs cid aset => (S.invoke (.collection_setattrs cid aset) s).2

/-- The builder calls `cs` replayed one after the other by `direct`. -/
def direct_all (S : ObjectStore σ) (cs : List Builder) (s : σ) : σ :=
  cs.foldl (fun s c => direct S c s) s

/-! ## Operand signatures of the dispatcher -/

/-- How many entries of each queue one `case` of the dispatcher removes. -/
structure Arity where
  bls : Nat := 0
  oids : Nat := 0
  cids : Nat := 0
  lengths : Nat := 0
  attrnames : Nat := 0
  pbls : Nat := 0
  psts : Nat := 0
  pattrvals : Nat := 0
  pattrsets : Nat := 0
  deriving DecidableEq, Repr

open Transaction in
/-- The operands that the `case` of a code removes; `none` for a code without a `case`. -/
def arity (op : Int) : Option Arity :=
  if op = OP_READ then some { cids := 1, oids := 1, lengths := 2, pbls := 1 }
  else if op = OP_STAT then some { cids := 1, oids := 1, psts := 1 }
  else if op = OP_GETATTR then some { cids := 1, oids := 1, attrnames := 1, pattrvals := 1 }
  else if op = OP_GETATTRS then some { cids := 1, oids := 1, pattrsets := 1 }
  else if op = OP_WRITE then some { cids := 1, oids := 1, lengths := 2, bls := 1 }
  else if op = OP_ZERO then some { cids := 1, oids := 1, lengths := 2 }
  else if op = OP_TRIMCACHE then some { cids := 1, oids := 1, lengths := 2 }
  else if op = OP_TRUNCATE then some { cids := 1, oids := 1, lengths := 1 }
  else if op = OP_REMOVE then some { cids := 1, oids := 1 }
  else if op = OP_SETATTR then some { cids := 1, oids := 1, attrnames := 1, bls := 1 }
  else if op = OP_SETATTRS then some { cids := 1, oids := 1, pattrsets := 1 }
  else if op = OP_RMATTR then some { cids := 1, oids := 1, attrnames := 1 }
  else if op = OP_CLONE then some { cids := 1, oids := 2 }
  else if op = OP_MKCOLL then some { cids := 1 }
  else if op = OP_RMCOLL then some { cids := 1 }
  else if op = OP_COLL_ADD then some { cids := 2, oids := 1 }
  else if op = OP_COLL_REMOVE then some { cids := 1, oids := 1 }
  else if op = OP_COLL_SETATTR then some { cids := 1, attrnames := 1, bls := 1 }
  else if op = OP_COLL_RMATTR then some { cids := 1, attrnames := 1 }
  else none

/-- The code has a `case` in the `switch` of `apply_transaction`. -/
def recognized (op : Int) : Bool := (arity op).isSome

namespace Transaction

/-- The queues hold at least the operands counted by `a`. -/
def holds (t : Transaction) (a : Arity) : Bool :=
  decide (a.bls ≤ t.bls.length) && decide (a.oids ≤ t.oids.length)
    && decide (a.cids ≤ t.cids.length) && decide (a.lengths ≤ t.lengths.length)
    && decide (a.attrnames ≤ t.attrnames.length) && decide (a.pbls ≤ t.pbls.length)
    && decide (a.psts ≤ t.psts.length) && decide (a.pattrvals ≤ t.pattrvals.length)
    && decide (a.pattrsets ≤ t.pattrsets.length)

/-- The queues without the operands counted by `a`. -/
def drop (t : Transaction) (a : Arity) : Transaction :=
  { t with
    bls := t.bls.drop a.bls
    oids := t.oids.drop a.oids
    cids := t.cids.drop a.cids
    lengths := t.lengths.drop a.lengths
    attrnames := t.attrnames.drop a.attrnames
    pbls := t.pbls.drop a.pbls
    psts := t.psts.drop a.psts
    pattrvals := t.pattrvals.drop a.pattrvals
    pattrsets := t.pattrsets.drop a.pattrsets }

/-- Queue by queue concatenation: the entries of `a` in front of the entries of `b`. -/
def append (a b : Transaction) : Transaction :=
  { ops := a.ops ++ b.ops
    bls := a.bls ++ b.bls
    oids := a.oids ++ b.oids
    cids := a.cids ++ b.cids
    lengths := a.lengths ++ b.lengths
    attrnames := a.attrnames ++ b.attrnames
    attrnames2 := a.attrnames2 ++ b.attrnames2
    pbls := a.pbls ++ b.pbls
    psts := a.psts ++ b.psts
    pattrvals := a.pattrvals ++ b.pattrvals
    pattrsets := a.pattrsets ++ b.pattrsets }

end Transaction

/-- The operand queues of `t` hold, for each code of `codes` in turn, the operands that the
`case` of that code removes (every code of `codes` has a `case`). -/
def operands_available : List Int → Transaction → Bool
  | [], _ => true
  | op :: codes, t =>
    match arity op with
    | none => false
    | some a => t.holds a && operands_available codes (t.drop a)

/-- The state in which one iteration of the `switch` leaves the outside of the Transaction;
it does not depend on the codes still queued. -/
def effect (S : ObjectStore σ) (op : Int) (t : Transaction) (s : σ) : σ :=
  match dispatch_op S op { t with ops := [] } s with
  | .ok r => r.2
  | .error e => e.2

/-! ## Backends used to observe the dispatcher -/

/-- The state of the recording backend: the calls received so far, oldest first, and the
`int` cells of the caller's memory that have been written. -/
structure Recorder where
  log : List Call := []
  cells : List (Ptr × Int) := []
  deriving DecidableEq, Repr

/-- The content of an `int` cell (`0` until it is written). -/
def Recorder.load (s : Recorder) (p : Ptr) : Int :=
  match s.cells.lookup p with
  | some v => v
  | none => 0

/-- A backend that records every call it receives and answers it with `ret`, a function of
the calls received so far (the current one included). -/
def recorder (ret : List Call → Int) : ObjectStore Recorder where
  invoke k s := (ret (s.log ++ [k]), { s with log := s.log ++ [k] })
  load s p := s.load p
  store s p v := { s with cells := (p, v) :: s.cells }

/-- The backend `S` with the atomic-group hooks left as `ObjectStore` defines them. -/
def default_hooks (S : ObjectStore σ) : ObjectStore σ :=
  { S with
    invoke := fun k s =>
      match k with
      | .transaction_start => transaction_start S s
      | .transaction_end id => transaction_end S id s
      | k => S.invoke k s }

/-- The backend `S` with `zero` left as `ObjectStore` defines it. -/
def default_zero (S : ObjectStore σ) : ObjectStore σ :=
  { S with
    invoke := fun k s =>
      match k with
      | .zero cid oid offset len onsafe => zero S cid oid offset len onsafe s
      | k => S.invoke k s }

/-- The calls that a run against the recording backend has made, whether it returned or
stopped on a fault. -/
def calls_of : Except (Fault × Recorder) (Nat × Transaction × Recorder) → List Call
  | .ok r => r.2.2.log
  | .error e => e.2.log

namespace Call

/-- The call without the `size` argument of `getattr`. -/
def erase_size : Call → Call
  | getattr cid oid name value _ => getattr cid oid name value 0
  | k => k

/-- The completion passed with the call, for the methods that take one. -/
def completion : Call → Option Ptr
  | write _ _ _ _ _ onsafe => some onsafe
  | zero _ _ _ _ onsafe => some onsafe
  | truncate _ _ _ onsafe => some onsafe
  | remove _ _ onsafe => some onsafe
  | setattr _ _ _ _ _ onsafe => some onsafe
  | setattrs _ _ _ onsafe => some onsafe
  | rmattr _ _ _ onsafe => some onsafe
  | create_collection _ onsafe => some onsafe
  | destroy_collection _ onsafe => some onsafe
  | collection_add _ _ _ onsafe => some onsafe
  | collection_remove _ _ onsafe => some onsafe
  | collection_setattr _ _ _ _ onsafe => some onsafe
  | collection_rmattr _ _ onsafe => some onsafe
  | sync onsync => some onsync
  | _ => none

/-- The call is one of the per-operation calls of the dispatcher (not a hook, not `sync`). -/
def is_operation : Call → Bool
  | transaction_start => false
  | transaction_end _ => false
  | sync _ => false
  | _ => true

/-- A per-operation call that carries no completion or the null completion. -/
def plain (k : Call) : Prop :=
  k.is_operation = true ∧ (k.completion = none ∨ k.completion = some 0)

end Call

/-- The call of the interface that matches a builder call when the `int` behind `plen` holds
`size`. -/
def Builder.call (c : Builder) (size : Nat) : Call :=
  match c with
  | .read cid oid off len pbl => .read cid oid off len pbl
  | .stat cid oid st => .stat cid oid st
  | .getattr cid oid name val _ => .getattr cid oid name val size
  | .getattrs cid oid aset => .getattrs cid oid aset
  | .write cid oid off len bl => .write cid oid off len bl 0
  | .zero cid oid off len => .zero cid oid off len 0
  | .trim_from_cache cid oid off len => .trim_from_cache cid oid off len
  | .truncate cid oid off => .truncate cid oid off 0
  | .remove cid oid => .remove cid oid 0
  | .setattr cid oid name val len => .setattr cid oid name (val.take len.toNat) len.toNat 0
  | .setattrs cid oid attrset => .setattrs cid oid attrset 0
  | .rmattr cid oid name => .rmattr cid oid name 0
  | .clone cid oid noid => .clone cid oid noid
  | .create_collection cid => .create_collection cid 0
  | .remove_collection cid => .destroy_collection cid 0
  | .collection_add cid ocid oid => .collection_add cid ocid oid 0
  | .collection_remove cid oid => .collection_remove cid oid 0
  | .collection_setattr cid name val len =>
    .collection_setattr cid name (val.take len.toNat) len.toNat 0
  | .collection_rmattr cid name => .collection_rmattr cid name 0
  | .collection_setattrs cid aset => .collection_setattrs cid aset

/-- An in-memory backend state: the content of the objects (latest entry first) and the
`int` cells of the caller's memory. -/
structure MemStore where
  objects : List ((coll_t × pobject_t) × bufferlist) := []
  cells : List (Ptr × Int) := []
  deriving DecidableEq, Repr

/-- The content of an object (empty when it has never been written). -/
def MemStore.content (s : MemStore) (cid : coll_t) (oid : pobject_t) : bufferlist :=
  match s.objects.lookup (cid, oid) with
  | some data => data
  | none => []

/-- The bytes of `data` with the range starting at `offset` overwritten by `bl`; a gap
between the end of `data` and `offset` reads as zeros. -/
def overwrite (data : bufferlist) (offset : Nat) (bl : bufferlist) : bufferlist :=
  (data ++ List.replicate (offset - data.length) 0).take offset ++ bl
    ++ data.drop (offset + bl.length)

/-- A reference backend whose `write` overwrites the byte range and whose other methods do
nothing and return `0`. -/
def memstore_write : ObjectStore MemStore where
  invoke k s :=
    match k with
    | .write cid oid offset len bl _ =>
      (0, { s with
            objects :=
              ((cid, oid), overwrite (s.content cid oid) offset.toNat (bl.take len))
                :: s.objects })
    | _ => (0, s)
  load s p :=
    match s.cells.lookup p with
    | some v => v
    | none => 0
  store s p v := { s with cells := (p, v) :: s.cells }

/-- The reference backend, which does not override `zero`. -/
def memstore : ObjectStore MemStore := default_zero memstore_write

/-! ## A reference encoding

Little-endian fixed-width integers and length-prefixed byte strings, used to show that the
assumptions made on the list codecs can be met. -/

/-- The `w` low bytes of `n`, least significant first. -/
def le_bytes : Nat → Nat → List Nat
  | 0, _ => []
  | w + 1, n => n % 256 :: le_bytes w (n / 256)

/-- The number written by little-endian bytes. -/
def le_value : List Nat → Nat
  | [] => 0
  | b :: bs => b + 256 * le_value bs

/-- Splits off the first `w` bytes. -/
def take_bytes : Nat → List Nat → Option (List Nat × List Nat)
  | 0, p => some ([], p)
  | _ + 1, [] => none
  | w + 1, b :: p =>
    match take_bytes w p with
    | none => none
    | some (bs, p) => some (b :: bs, p)

/-- An unsigned integer of `w` bytes. -/
def le_codec (w : Nat) : Codec Nat where
  enc n := le_bytes w n
  dec p :=
    match take_bytes w p with
    | none => none
    | some (bs, p) => some (le_value bs, p)

/-- A byte string behind a 32 bit length. -/
def bytes_codec : Codec bufferlist where
  enc bl := le_bytes 4 bl.length ++ bl
  dec p :=
    match take_bytes 4 p with
    | none => none
    | some (bs, p) => take_bytes (le_value bs) p

/-- A signed integer of one byte. -/
def int8_codec : Codec Int where
  enc x := le_bytes 1 (x % 256).toNat
  dec p :=
    match take_bytes 1 p with
    | none => none
    | some (bs, p) => some (int8_t (le_value bs), p)

/-- A signed integer of eight bytes. -/
def int64_codec : Codec Int where
  enc x := le_bytes 8 (x % 18446744073709551616).toNat
  dec p :=
    match take_bytes 8 p with
    | none => none
    | some (bs, p) => some (int64_t (le_value bs), p)

/-- A string as its characters behind a 32 bit length. -/
def string_codec : Codec String where
  enc x := bytes_codec.enc (x.toList.map Char.toNat)
  dec p :=
    match bytes_codec.dec p with
    | none => none
    | some (bs, p) => some (String.mk (bs.map Char.ofNat), p)

/-- The reference encoding: every queue behind a 32 bit count of its elements. -/
def reference_encoding : Encoding where
  ops := length_prefixed (le_codec 4) int8_codec
  bls := length_prefixed (le_codec 4) bytes_codec
  oids := length_prefixed (le_codec 4) (le_codec 8)
  cids := length_prefixed (le_codec 4) (le_codec 8)
  lengths := length_prefixed (le_codec 4) int64_codec
  attrnames := length_prefixed (le_codec 4) string_codec

end ObjectStore

namespace ObjectStore

open Transaction

variable {σ : Type}

/-! ## Iteration, sealing and signatures -/

/-- The number of iterations that the loop of `apply_transaction` makes (one `get_op()` call
each), run for at most `fuel` iterations; an iteration that stops the run is counted. -/
def iterations (S : ObjectStore σ) : Nat → Transaction → σ → Nat
  | 0, _, _ => 0
  | fuel + 1, t, s =>
    if t.have_op then
      match t.get_op with
      | none => 0
      | some (op, t) =>
        match dispatch_op S op t s with
        | .error _ => 1
        | .ok (t, s) => 1 + iterations S fuel t s
    else 0

/-- The number of iterations of the loop in a run of `apply_transaction`. -/
def apply_iterations (S : ObjectStore σ) (t : Transaction) (s : σ) : Nat :=
  iterations S t.ops.length t (S.invoke .transaction_start s).2

/-- The backend `S` with `clone` left as `ObjectStore` defines it. -/
def default_clone (S : ObjectStore σ) : ObjectStore σ :=
  { S with
    invoke := fun k s =>
      match k with
      | .clone cid oid noid => clone S cid oid noid s
      | k => S.invoke k s }

namespace Transaction

/-- The method `encode` seen as a step on the Transaction and the buffer: it is declared
`const` and has no access to the queues but reading them, so the Transaction is afterwards
what it was. -/
def after_encode (E : Encoding) (t : Transaction) (bl : List Nat) : Transaction × List Nat :=
  (t, t.encode E bl)

/-- The codes returned by `n` successive `get_op()` calls, oldest first, and the Transaction
afterwards. -/
def get_ops : Nat → Transaction → Option (List Int × Transaction)
  | 0, t => some ([], t)
  | n + 1, t =>
    match t.get_op with
    | none => none
    | some (op, t) =>
      match get_ops n t with
      | none => none
      | some (ops, t) => some (op :: ops, t)

/-- The number of entries of each operand queue. -/
def counts (t : Transaction) : Arity :=
  { bls := t.bls.length
    oids := t.oids.length
    cids := t.cids.length
    lengths := t.lengths.length
    attrnames := t.attrnames.length
    pbls := t.pbls.length
    psts := t.psts.length
    pattrvals := t.pattrvals.length
    pattrsets := t.pattrsets.length }

end Transaction

namespace Builder

/-- The `OP_*` constant of the builder method. -/
def code : Builder → Int
  | read .. => OP_READ
  | stat .. => OP_STAT
  | getattr .. => OP_GETATTR
  | getattrs .. => OP_GETATTRS
  | write .. => OP_WRITE
  | zero .. => OP_ZERO
  | trim_from_cache .. => OP_TRIMCACHE
  | truncate .. => OP_TRUNCATE
  | remove .. => OP_REMOVE
  | setattr .. => OP_SETATTR
  | setattrs .. => OP_SETATTRS
  | rmattr .. => OP_RMATTR
  | clone .. => OP_CLONE
  | create_collection .. => OP_MKCOLL
  | remove_collection .. => OP_RMCOLL
  | collection_add .. => OP_COLL_ADD
  | collection_remove .. => OP_COLL_REMOVE
  | collection_setattr .. => OP_COLL_SETATTR
  | collection_rmattr .. => OP_COLL_RMATTR
  | collection_setattrs .. => OP_COLL_SETATTRS

/-- The operand signature of the builder method: how many entries it appends to each
operand queue. -/
def signature : Builder → Arity
  | read .. => { cids := 1, oids := 1, lengths := 2, pbls := 1 }
  | stat .. => { cids := 1, oids := 1, psts := 1 }
  | getattr .. => { cids := 1, oids := 1, attrnames := 1, pattrvals := 1 }
  | getattrs .. => { cids := 1, oids := 1, pattrsets := 1 }
  | write .. => { cids := 1, oids := 1, lengths := 2, bls := 1 }
  | zero .. => { cids := 1, oids := 1, lengths := 2 }
  | trim_from_cache .. => { cids := 1, oids := 1, lengths := 2 }
  | truncate .. => { cids := 1, oids := 1, lengths := 1 }
  | remove .. => { cids := 1, oids := 1 }
  | setattr .. => { cids := 1, oids := 1, attrnames := 1, bls := 1 }
  | setattrs .. => { cids := 1, oids := 1, pattrsets := 1 }
  | rmattr .. => { cids := 1, oids := 1, attrnames := 1 }
  | clone .. => { cids := 1, oids := 2 }
  | create_collection .. => { cids := 1 }
  | remove_collection .. => { cids := 1 }
  | collection_add .. => { cids := 2, oids := 1 }
  | collection_remove .. => { cids := 1, oids := 1 }
  | collection_setattr .. => { cids := 1, attrnames := 1, bls := 1 }
  | collection_rmattr .. => { cids := 1, attrnames := 1 }
  | collection_setattrs .. => { cids := 1, pattrsets := 1 }

end Builder

end ObjectStore
/-! # Lemmas -/

namespace ObjectStore

open Transaction

variable {σ : Type}

/-! ## Conversions -/

theorem int64_t_of_ok (off : Int) (h : Builder.off_ok off) : int64_t off = off := by
  unfold Builder.off_ok at h
  unfold int64_t
  omega

theorem int64_t_idem (x : Int) : int64_t (int64_t x) = int64_t x := by
  unfold int64_t
  omega

theorem size_t_int64_t (len : Nat) (h : Builder.len_ok len) :
    size_t (int64_t (len : Int)) = len := by
  unfold Builder.len_ok at h
  unfold size_t int64_t
  omega

theorem unsigned_of_ok (val : List Nat) (len : Int) (h : Builder.val_ok val len) :
    unsigned len = len.toNat := by
  unfold Builder.val_ok at h
  unfold unsigned
  omega

theorem take_length_of_ok (val : List Nat) (len : Int) (h : Builder.val_ok val len) :
    (val.take len.toNat).length = len.toNat := by
  unfold Builder.val_ok at h
  rw [List.length_take]
  omega

/-! ## Builder calls append to the queues -/

theorem Transaction.append_empty (t : Transaction) : t.append {} = t := by
  simp [Transaction.append]

theorem Transaction.empty_append (t : Transaction) : Transaction.append {} t = t := by
  simp [Transaction.append]

theorem Transaction.append_assoc (a b c : Transaction) :
    (a.append b).append c = a.append (b.append c) := by
  simp [Transaction.append]

theorem apply_eq_append (t : Transaction) (c : Builder) :
    Builder.apply t c = t.append (Builder.apply {} c) := by
  cases c <;> simp [Builder.apply, Transaction.append, Transaction.read, Transaction.stat,
    Transaction.getattr, Transaction.getattrs, Transaction.write, Transaction.zero,
    Transaction.trim_from_cache, Transaction.truncate, Transaction.remove, Transaction.setattr,
    Transaction.setattrs, Transaction.rmattr, Transaction.clone, Transaction.create_collection,
    Transaction.remove_collection, Transaction.collection_add, Transaction.collection_remove,
    Transaction.collection_setattr, Transaction.collection_rmattr,
    Transaction.collection_setattrs]

theorem foldl_apply_append (cs : List Builder) (t : Transaction) :
    cs.foldl Builder.apply t = t.append (build cs) := by
  induction cs generalizing t with
  | nil => simp [build, Transaction.append_empty]
  | cons c cs ih =>
    have h1 : build (c :: cs) = (Builder.apply {} c).append (build cs) := by
      simp only [build, List.foldl_cons]
      exact ih _
    rw [List.foldl_cons, ih, h1, apply_eq_append t c, Transaction.append_assoc]

theorem build_cons (c : Builder) (cs : List Builder) :
    build (c :: cs) = (Builder.apply {} c).append (build cs) := by
  simp only [build, List.foldl_cons]
  exact foldl_apply_append cs _

theorem build_append (cs ds : List Builder) : build (cs ++ ds) = (build cs).append (build ds) := by
  simp only [build, List.foldl_append]
  exact foldl_apply_append ds _

theorem apply_ops_length (c : Builder) : (Builder.apply {} c).ops.length = 1 := by
  cases c <;> rfl

theorem build_ops_length (cs : List Builder) : (build cs).ops.length = cs.length := by
  induction cs with
  | nil => rfl
  | cons c cs ih =>
    rw [build_cons]
    simp [Transaction.append, apply_ops_length, ih]
    omega

/-! ## The dispatcher on one queued builder call -/

theorem dispatch_READ (S : ObjectStore σ) (t : Transaction) (s : σ) :
    dispatch_op S (int8_t OP_READ) t s = case_OP_READ S t s := rfl

theorem dispatch_STAT (S : ObjectStore σ) (t : Transaction) (s : σ) :
    dispatch_op S (int8_t OP_STAT) t s = case_OP_STAT S t s := rfl

theorem dispatch_GETATTR (S : ObjectStore σ) (t : Transaction) (s : σ) :
    dispatch_op S (int8_t OP_GETATTR) t s = case_OP_GETATTR S t s := rfl

theorem dispatch_GETATTRS (S : ObjectStore σ) (t : Transaction) (s : σ) :
    dispatch_op S (int8_t OP_GETATTRS) t s = case_OP_GETATTRS S t s := rfl

theorem dispatch_WRITE (S : ObjectStore σ) (t : Transaction) (s : σ) :
    dispatch_op S (int8_t OP_WRITE) t s = case_OP_WRITE S t s := rfl

theorem dispatch_ZERO (S : ObjectStore σ) (t : Transaction) (s : σ) :
    dispatch_op S (int8_t OP_ZERO) t s = case_OP_ZERO S t s := rfl

theorem dispatch_TRUNCATE (S : ObjectStore σ) (t : Transaction) (s : σ) :
    dispatch_op S (int8_t OP_TRUNCATE) t s = case_OP_TRUNCATE S t s := rfl

theorem dispatch_REMOVE (S : ObjectStore σ) (t : Transaction) (s : σ) :
    dispatch_op S (int8_t OP_REMOVE) t s = case_OP_REMOVE S t s := rfl

theorem dispatch_SETATTR (S : ObjectStore σ) (t : Transaction) (s : σ) :
    dispatch_op S (int8_t OP_SETATTR) t s = case_OP_SETATTR S t s := rfl

theorem dispatch_SETATTRS (S : ObjectStore σ) (t : Transaction) (s : σ) :
    dispatch_op S (int8_t OP_SETATTRS) t s = case_OP_SETATTRS S t s := rfl

theorem dispatch_RMATTR (S : ObjectStore σ) (t : Transaction) (s : σ) :
    dispatch_op S (int8_t OP_RMATTR) t s = case_OP_RMATTR S t s := rfl

theorem dispatch_CLONE (S : ObjectStore σ) (t : Transaction) (s : σ) :
    dispatch_op S (int8_t OP_CLONE) t s = case_OP_CLONE S t s := rfl

theorem dispatch_TRIMCACHE (S : ObjectStore σ) (t : Transaction) (s : σ) :
    dispatch_op S (int8_t OP_TRIMCACHE) t s = case_OP_TRIMCACHE S t s := rfl

theorem dispatch_MKCOLL (S : ObjectStore σ) (t : Transaction) (s : σ) :
    dispatch_op S (int8_t OP_MKCOLL) t s = case_OP_MKCOLL S t s := rfl

theorem dispatch_RMCOLL (S : ObjectStore σ) (t : Transaction) (s : σ) :
    dispatch_op S (int8_t OP_RMCOLL) t s = case_OP_RMCOLL S t s := rfl

theorem dispatch_COLL_ADD (S : ObjectStore σ) (t : Transaction) (s : σ) :
    dispatch_op S (int8_t OP_COLL_ADD) t s = case_OP_COLL_ADD S t s := rfl

theorem dispatch_COLL_REMOVE (S : ObjectStore σ) (t : Transaction) (s : σ) :
    dispatch_op S (int8_t OP_COLL_REMOVE) t s = case_OP_COLL_REMOVE S t s := rfl

theorem dispatch_COLL_SETATTR (S : ObjectStore σ) (t : Transaction) (s : σ) :
    dispatch_op S (int8_t OP_COLL_SETATTR) t s = case_OP_COLL_SETATTR S t s := rfl

theorem dispatch_COLL_RMATTR (S : ObjectStore σ) (t : Transaction) (s : σ) :
    dispatch_op S (int8_t OP_COLL_RMATTR) t s = case_OP_COLL_RMATTR S t s := rfl

theorem dispatch_COLL_SETATTRS (S : ObjectStore σ) (t : Transaction) (s : σ) :
    dispatch_op S (int8_t OP_COLL_SETATTRS) t s = .error (Fault.bad_op 26, s) := rfl

/-- One iteration of the loop on a Transaction that starts with the entries of a builder
call whose code has a `case` makes the matching call. -/
theorem while_have_op_step (S : ObjectStore σ) (c : Builder) (n : Nat) (t : Transaction) (s : σ)
    (hc : c.has_case = true) (hw : c.wf) :
    while_have_op S (n + 1) ((Builder.apply {} c).append t) s
      = while_have_op S n t (direct S c s) := by
  rw [while_have_op]
  cases c <;> first | (simp [Builder.has_case] at hc; done) | skip
  all_goals simp only [Builder.apply, Transaction.append, Transaction.read, Transaction.stat,
    Transaction.getattr, Transaction.getattrs, Transaction.write, Transaction.zero,
    Transaction.trim_from_cache, Transaction.truncate, Transaction.remove, Transaction.setattr,
    Transaction.setattrs, Transaction.rmattr, Transaction.clone, Transaction.create_collection,
    Transaction.remove_collection, Transaction.collection_add, Transaction.collection_remove,
    Transaction.collection_setattr, Transaction.collection_rmattr,
    Transaction.collection_setattrs, List.nil_append, List.cons_append, have_op,
    List.isEmpty_cons, get_op, pop, Option.map, fetched]
  all_goals simp only [Builder.wf] at hw
  all_goals simp only [dispatch_READ, dispatch_STAT, dispatch_GETATTR, dispatch_GETATTRS, dispatch_WRITE, dispatch_ZERO, dispatch_TRUNCATE, dispatch_REMOVE, dispatch_SETATTR, dispatch_SETATTRS, dispatch_RMATTR, dispatch_CLONE, dispatch_TRIMCACHE, dispatch_MKCOLL, dispatch_RMCOLL, dispatch_COLL_ADD, dispatch_COLL_REMOVE, dispatch_COLL_SETATTR, dispatch_COLL_RMATTR]
  all_goals simp only [case_OP_READ, case_OP_STAT, case_OP_GETATTR,
    case_OP_GETATTRS, case_OP_WRITE, case_OP_ZERO, case_OP_TRIMCACHE, case_OP_TRUNCATE,
    case_OP_REMOVE, case_OP_SETATTR, case_OP_SETATTRS, case_OP_RMATTR, case_OP_CLONE,
    case_OP_MKCOLL, case_OP_RMCOLL, case_OP_COLL_ADD, case_OP_COLL_REMOVE, case_OP_COLL_SETATTR,
    case_OP_COLL_RMATTR, get_cid, get_oid, get_length, get_bl, get_attrname, get_pbl, get_pstat,
    get_pattrval, get_pattrset, pop, fetched, direct, off_t, Option.map]
  all_goals first
    | rw [unsigned_of_ok _ _ hw, take_length_of_ok _ _ hw]; simp
    | simp [int64_t_idem, int64_t_of_ok, size_t_int64_t, hw]

/-- The loop on a Transaction that starts with the entries of a builder call without a
`case` stops on the bad-op assertion before any call. -/
theorem while_have_op_no_case (S : ObjectStore σ) (c : Builder) (n : Nat) (t : Transaction)
    (s : σ) (hc : c.has_case = false) :
    while_have_op S (n + 1) ((Builder.apply {} c).append t) s = .error (Fault.bad_op 26, s) := by
  rw [while_have_op]
  cases c <;> first | (simp [Builder.has_case] at hc; done) | skip
  simp only [Builder.apply, Transaction.append, Transaction.collection_setattrs,
    List.nil_append, List.cons_append, have_op, List.isEmpty_cons, get_op, pop, Option.map,
    fetched, dispatch_COLL_SETATTRS]
  simp

/-- The loop replays a queued script of builder calls, each by its matching call, and goes on
with what is queued behind it. -/
theorem while_have_op_build (S : ObjectStore σ) (cs : List Builder) (m : Nat) (t : Transaction)
    (s : σ) (hc : ∀ c ∈ cs, c.has_case = true) (hw : ∀ c ∈ cs, c.wf) :
    while_have_op S (cs.length + m) ((build cs).append t) s
      = while_have_op S m t (direct_all S cs s) := by
  induction cs generalizing s with
  | nil => simp [build, Transaction.empty_append, direct_all]
  | cons c cs ih =>
    have e : (c :: cs).length + m = (cs.length + m) + 1 := by simp; omega
    rw [e, build_cons, Transaction.append_assoc,
      while_have_op_step S c _ _ s (hc c (List.mem_cons_self _ _)) (hw c (List.mem_cons_self _ _)),
      ih _ (fun c h => hc c (List.mem_cons_of_mem _ h)) (fun c h => hw c (List.mem_cons_of_mem _ h))]
    simp [direct_all]

theorem while_have_op_empty (S : ObjectStore σ) (m : Nat) (t : Transaction) (s : σ)
    (h : t.ops = []) : while_have_op S m t s = .ok (t, s) := by
  cases m <;> simp [while_have_op, have_op, h]

/-- The whole run on a built Transaction followed by entries without codes. -/
theorem apply_transaction_build (S : ObjectStore σ) (cs : List Builder) (t : Transaction)
    (onsafe : Ptr) (s : σ) (ht : t.ops = [])
    (hc : ∀ c ∈ cs, c.has_case = true) (hw : ∀ c ∈ cs, c.wf) :
    apply_transaction S ((build cs).append t) onsafe s
      = .ok (0, t,
          let r := S.invoke .transaction_start s
          let s2 := (S.invoke (.transaction_end r.1) (direct_all S cs r.2)).2
          if onsafe ≠ 0 then (S.invoke (.sync onsafe) s2).2 else s2) := by
  have e : ((build cs).append t).ops.length = cs.length + 0 := by
    simp [Transaction.append, ht, build_ops_length]
  unfold apply_transaction
  simp only [e]
  rw [while_have_op_build S cs 0 t _ hc hw, while_have_op_empty S 0 t _ ht]

/-! ## The recording backend -/

theorem recorder_direct_log (ret : List Call → Int) (c : Builder) (s : Recorder) :
    ∃ size, (direct (recorder ret) c s).log = s.log ++ [c.call size] := by
  cases c <;> first
    | exact ⟨0, rfl⟩
    | exact ⟨_, rfl⟩

theorem recorder_direct_all_log (ret : List Call → Int) (cs : List Builder) (s : Recorder) :
    ∃ calls, (direct_all (recorder ret) cs s).log = s.log ++ calls
      ∧ List.Forall₂ (fun c k => ∃ size, k = c.call size) cs calls := by
  induction cs generalizing s with
  | nil => exact ⟨[], by simp [direct_all], List.Forall₂.nil⟩
  | cons c cs ih =>
    obtain ⟨size, h1⟩ := recorder_direct_log ret c s
    obtain ⟨calls, h2, h3⟩ := ih (direct (recorder ret) c s)
    refine ⟨c.call size :: calls, ?_, List.Forall₂.cons ⟨size, rfl⟩ h3⟩
    simp only [direct_all, List.foldl_cons] at h2 ⊢
    rw [h2, h1]
    simp

/-! ## Serialization round trip -/

theorem decode_elems_encode_elems {α : Type} (c : Codec α) (ls : List α) (rest : List Nat)
    (h : ∀ x ∈ ls, c.RoundTrip x) :
    decode_elems c ls.length (encode_elems c ls ++ rest) = some (ls, rest) := by
  induction ls with
  | nil => rfl
  | cons x ls ih =>
    simp only [List.length_cons, encode_elems, decode_elems, List.append_assoc]
    rw [h x (List.mem_cons_self _ _)]
    simp only []
    rw [ih (fun y hy => h y (List.mem_cons_of_mem _ hy))]

/-- The length-prefixed codec of a list reads the list back when the codec of the length
and the codec of the elements read back its length and its elements. -/
theorem length_prefixed_round_trip {α : Type} (n : Codec Nat) (c : Codec α) (ls : List α)
    (hn : n.RoundTrip ls.length) (hc : ∀ x ∈ ls, c.RoundTrip x) :
    (length_prefixed n c).RoundTrip ls := by
  intro rest
  simp only [length_prefixed, List.append_assoc]
  rw [hn]
  simp only []
  rw [decode_elems_encode_elems c ls rest hc]

theorem encode_eq (E : Encoding) (t : Transaction) (b : List Nat) :
    t.encode E b = b ++ (E.ops.enc t.ops ++ (E.bls.enc t.bls ++ (E.oids.enc t.oids
      ++ (E.cids.enc t.cids ++ (E.lengths.enc t.lengths ++ E.attrnames.enc t.attrnames))))) := by
  simp [Transaction.encode]

/-- Decoding the bytes that `encode` wrote for `t`, into a Transaction `t0`: the six
serialized queues are replaced by those of `t`, except that the decoded names are appended
to the names `t0` already holds. -/
theorem decode_encode (E : Encoding) (t t0 : Transaction) (rest : List Nat)
    (h : E.RoundTrips t) :
    Transaction.decode E t0 (t.encode E [] ++ rest)
      = some ({ t0 with
                ops := t.ops
                bls := t.bls
                oids := t.oids
                cids := t.cids
                lengths := t.lengths
                attrnames2 := t.attrnames
                attrnames := t0.attrnames ++ t.attrnames }, rest) := by
  obtain ⟨h1, h2, h3, h4, h5, h6⟩ := h
  rw [encode_eq]
  simp only [List.nil_append, List.append_assoc, Transaction.decode]
  rw [h1]
  simp only []
  rw [h2]
  simp only []
  rw [h3]
  simp only []
  rw [h4]
  simp only []
  rw [h5]
  simp only []
  rw [h6]

/-- The reference encoding reads back the queues of a Transaction holding a write and a
setattr. -/
theorem reference_encoding_round_trips_example :
    reference_encoding.RoundTrips
      (build [.write 1 2 0 4 [65, 65, 65, 65], .setattr 1 2 "a" [7, 8] 1]) :=
  ⟨fun _ => rfl, fun _ => rfl, fun _ => rfl, fun _ => rfl, fun _ => rfl, fun _ => rfl⟩

theorem serialized_has_case (c : Builder) (h : c.serialized = true) : c.has_case = true := by
  cases c <;> first | rfl | (simp [Builder.serialized] at h)

/-- A Transaction built by builder calls whose operands are all serialized holds no output
handle and no decoded name. -/
theorem build_serialized_handles (cs : List Builder) (h : ∀ c ∈ cs, c.serialized = true) :
    (build cs).pbls = [] ∧ (build cs).psts = [] ∧ (build cs).pattrvals = []
      ∧ (build cs).pattrsets = [] ∧ (build cs).attrnames2 = [] := by
  induction cs with
  | nil => exact ⟨rfl, rfl, rfl, rfl, rfl⟩
  | cons c cs ih =>
    obtain ⟨h1, h2, h3, h4, h5⟩ := ih (fun c hc => h c (List.mem_cons_of_mem _ hc))
    have hc := h c (List.mem_cons_self _ _)
    rw [build_cons]
    simp only [Transaction.append, h1, h2, h3, h4, h5, List.append_nil]
    cases c <;> first | (simp [Builder.serialized] at hc; done) | exact ⟨rfl, rfl, rfl, rfl, rfl⟩

/-! ## The dispatcher on queues that hold the operands -/

theorem dispatch_of_holds_READ (S : ObjectStore σ) (t : Transaction) (s : σ)
    (hh : t.holds { cids := 1, oids := 1, lengths := 2, pbls := 1 } = true) :
    dispatch_op S OP_READ t s
      = .ok (t.drop { cids := 1, oids := 1, lengths := 2, pbls := 1 }, effect S OP_READ t s) := by
  obtain ⟨ops, bls, oids, cids, lengths, attrnames, attrnames2, pbls, psts, pattrvals,
    pattrsets⟩ := t
  rcases cids with _ | ⟨x, cids⟩ <;>
    rcases oids with _ | ⟨x, oids⟩ <;>
    rcases lengths with _ | ⟨x, _ | ⟨y, lengths⟩⟩ <;>
    rcases pbls with _ | ⟨x, pbls⟩ <;>
    first | (simp [Transaction.holds] at hh; done) | rfl

theorem dispatch_of_holds_STAT (S : ObjectStore σ) (t : Transaction) (s : σ)
    (hh : t.holds { cids := 1, oids := 1, psts := 1 } = true) :
    dispatch_op S OP_STAT t s
      = .ok (t.drop { cids := 1, oids := 1, psts := 1 }, effect S OP_STAT t s) := by
  obtain ⟨ops, bls, oids, cids, lengths, attrnames, attrnames2, pbls, psts, pattrvals,
    pattrsets⟩ := t
  rcases cids with _ | ⟨x, cids⟩ <;>
    rcases oids with _ | ⟨x, oids⟩ <;>
    rcases psts with _ | ⟨x, psts⟩ <;>
    first | (simp [Transaction.holds] at hh; done) | rfl

theorem dispatch_of_holds_GETATTR (S : ObjectStore σ) (t : Transaction) (s : σ)
    (hh : t.holds { cids := 1, oids := 1, attrnames := 1, pattrvals := 1 } = true) :
    dispatch_op S OP_GETATTR t s
      = .ok (t.drop { cids := 1, oids := 1, attrnames := 1, pattrvals := 1 }, effect S OP_GETATTR t s) := by
  obtain ⟨ops, bls, oids, cids, lengths, attrnames, attrnames2, pbls, psts, pattrvals,
    pattrsets⟩ := t
  rcases cids with _ | ⟨x, cids⟩ <;>
    rcases oids with _ | ⟨x, oids⟩ <;>
    rcases attrnames with _ | ⟨x, attrnames⟩ <;>
    rcases pattrvals with _ | ⟨x, pattrvals⟩ <;>
    first | (simp [Transaction.holds] at hh; done) | rfl

theorem dispatch_of_holds_GETATTRS (S : ObjectStore σ) (t : Transaction) (s : σ)
    (hh : t.holds { cids := 1, oids := 1, pattrsets := 1 } = true) :
    dispatch_op S OP_GETATTRS t s
      = .ok (t.drop { cids := 1, oids := 1, pattrsets := 1 }, effect S OP_GETATTRS t s) := by
  obtain ⟨ops, bls, oids, cids, lengths, attrnames, attrnames2, pbls, psts, pattrvals,
    pattrsets⟩ := t
  rcases cids with _ | ⟨x, cids⟩ <;>
    rcases oids with _ | ⟨x, oids⟩ <;>
    rcases pattrsets with _ | ⟨x, pattrsets⟩ <;>
    first | (simp [Transaction.holds] at hh; done) | rfl

theorem dispatch_of_holds_WRITE (S : ObjectStore σ) (t : Transaction) (s : σ)
    (hh : t.holds { cids := 1, oids := 1, lengths := 2, bls := 1 } = true) :
    dispatch_op S OP_WRITE t s
      = .ok (t.drop { cids := 1, oids := 1, lengths := 2, bls := 1 }, effect S OP_WRITE t s) := by
  obtain ⟨ops, bls, oids, cids, lengths, attrnames, attrnames2, pbls, psts, pattrvals,
    pattrsets⟩ := t
  rcases cids with _ | ⟨x, cids⟩ <;>
    rcases oids with _ | ⟨x, oids⟩ <;>
    rcases lengths with _ | ⟨x, _ | ⟨y, lengths⟩⟩ <;>
    rcases bls with _ | ⟨x, bls⟩ <;>
    first | (simp [Transaction.holds] at hh; done) | rfl

theorem dispatch_of_holds_ZERO (S : ObjectStore σ) (t : Transaction) (s : σ)
    (hh : t.holds { cids := 1, oids := 1, lengths := 2 } = true) :
    dispatch_op S OP_ZERO t s
      = .ok (t.drop { cids := 1, oids := 1, lengths := 2 }, effect S OP_ZERO t s) := by
  obtain ⟨ops, bls, oids, cids, lengths, attrnames, attrnames2, pbls, psts, pattrvals,
    pattrsets⟩ := t
  rcases cids with _ | ⟨x, cids⟩ <;>
    rcases oids with _ | ⟨x, oids⟩ <;>
    rcases lengths with _ | ⟨x, _ | ⟨y, lengths⟩⟩ <;>
    first | (simp [Transaction.holds] at hh; done) | rfl

theorem dispatch_of_holds_TRIMCACHE (S : ObjectStore σ) (t : Transaction) (s : σ)
    (hh : t.holds { cids := 1, oids := 1, lengths := 2 } = true) :
    dispatch_op S OP_TRIMCACHE t s
      = .ok (t.drop { cids := 1, oids := 1, lengths := 2 }, effect S OP_TRIMCACHE t s) := by
  obtain ⟨ops, bls, oids, cids, lengths, attrnames, attrnames2, pbls, psts, pattrvals,
    pattrsets⟩ := t
  rcases cids with _ | ⟨x, cids⟩ <;>
    rcases oids with _ | ⟨x, oids⟩ <;>
    rcases lengths with _ | ⟨x, _ | ⟨y, lengths⟩⟩ <;>
    first | (simp [Transaction.holds] at hh; done) | rfl

theorem dispatch_of_holds_TRUNCATE (S : ObjectStore σ) (t : Transaction) (s : σ)
    (hh : t.holds { cids := 1, oids := 1, lengths := 1 } = true) :
    dispatch_op S OP_TRUNCATE t s
      = .ok (t.drop { cids := 1, oids := 1, lengths := 1 }, effect S OP_TRUNCATE t s) := by
  obtain ⟨ops, bls, oids, cids, lengths, attrnames, attrnames2, pbls, psts, pattrvals,
    pattrsets⟩ := t
  rcases cids with _ | ⟨x, cids⟩ <;>
    rcases oids with _ | ⟨x, oids⟩ <;>
    rcases lengths with _ | ⟨x, lengths⟩ <;>
    first | (simp [Transaction.holds] at hh; done) | rfl

theorem dispatch_of_holds_REMOVE (S : ObjectStore σ) (t : Transaction) (s : σ)
    (hh : t.holds { cids := 1, oids := 1 } = true) :
    dispatch_op S OP_REMOVE t s
      = .ok (t.drop { cids := 1, oids := 1 }, effect S OP_REMOVE t s) := by
  obtain ⟨ops, bls, oids, cids, lengths, attrnames, attrnames2, pbls, psts, pattrvals,
    pattrsets⟩ := t
  rcases cids with _ | ⟨x, cids⟩ <;>
    rcases oids with _ | ⟨x, oids⟩ <;>
    first | (simp [Transaction.holds] at hh; done) | rfl

theorem dispatch_of_holds_SETATTR (S : ObjectStore σ) (t : Transaction) (s : σ)
    (hh : t.holds { cids := 1, oids := 1, attrnames := 1, bls := 1 } = true) :
    dispatch_op S OP_SETATTR t s
      = .ok (t.drop { cids := 1, oids := 1, attrnames := 1, bls := 1 }, effect S OP_SETATTR t s) := by
  obtain ⟨ops, bls, oids, cids, lengths, attrnames, attrnames2, pbls, psts, pattrvals,
    pattrsets⟩ := t
  rcases cids with _ | ⟨x, cids⟩ <;>
    rcases oids with _ | ⟨x, oids⟩ <;>
    rcases attrnames with _ | ⟨x, attrnames⟩ <;>
    rcases bls with _ | ⟨x, bls⟩ <;>
    first | (simp [Transaction.holds] at hh; done) | rfl

theorem dispatch_of_holds_SETATTRS (S : ObjectStore σ) (t : Transaction) (s : σ)
    (hh : t.holds { cids := 1, oids := 1, pattrsets := 1 } = true) :
    dispatch_op S OP_SETATTRS t s
      = .ok (t.drop { cids := 1, oids := 1, pattrsets := 1 }, effect S OP_SETATTRS t s) := by
  obtain ⟨ops, bls, oids, cids, lengths, attrnames, attrnames2, pbls, psts, pattrvals,
    pattrsets⟩ := t
  rcases cids with _ | ⟨x, cids⟩ <;>
    rcases oids with _ | ⟨x, oids⟩ <;>
    rcases pattrsets with _ | ⟨x, pattrsets⟩ <;>
    first | (simp [Transaction.holds] at hh; done) | rfl

theorem dispatch_of_holds_RMATTR (S : ObjectStore σ) (t : Transaction) (s : σ)
    (hh : t.holds { cids := 1, oids := 1, attrnames := 1 } = true) :
    dispatch_op S OP_RMATTR t s
      = .ok (t.drop { cids := 1, oids := 1, attrnames := 1 }, effect S OP_RMATTR t s) := by
  obtain ⟨ops, bls, oids, cids, lengths, attrnames, attrnames2, pbls, psts, pattrvals,
    pattrsets⟩ := t
  rcases cids with _ | ⟨x, cids⟩ <;>
    rcases oids with _ | ⟨x, oids⟩ <;>
    rcases attrnames with _ | ⟨x, attrnames⟩ <;>
    first | (simp [Transaction.holds] at hh; done) | rfl

theorem dispatch_of_holds_CLONE (S : ObjectStore σ) (t : Transaction) (s : σ)
    (hh : t.holds { cids := 1, oids := 2 } = true) :
    dispatch_op S OP_CLONE t s
      = .ok (t.drop { cids := 1, oids := 2 }, effect S OP_CLONE t s) := by
  obtain ⟨ops, bls, oids, cids, lengths, attrnames, attrnames2, pbls, psts, pattrvals,
    pattrsets⟩ := t
  rcases cids with _ | ⟨x, cids⟩ <;>
    rcases oids with _ | ⟨x, _ | ⟨y, oids⟩⟩ <;>
    first | (simp [Transaction.holds] at hh; done) | rfl

theorem dispatch_of_holds_MKCOLL (S : ObjectStore σ) (t : Transaction) (s : σ)
    (hh : t.holds { cids := 1 } = true) :
    dispatch_op S OP_MKCOLL t s
      = .ok (t.drop { cids := 1 }, effect S OP_MKCOLL t s) := by
  obtain ⟨ops, bls, oids, cids, lengths, attrnames, attrnames2, pbls, psts, pattrvals,
    pattrsets⟩ := t
  rcases cids with _ | ⟨x, cids⟩ <;>
    first | (simp [Transaction.holds] at hh; done) | rfl

theorem dispatch_of_holds_RMCOLL (S : ObjectStore σ) (t : Transaction) (s : σ)
    (hh : t.holds { cids := 1 } = true) :
    dispatch_op S OP_RMCOLL t s
      = .ok (t.drop { cids := 1 }, effect S OP_RMCOLL t s) := by
  obtain ⟨ops, bls, oids, cids, lengths, attrnames, attrnames2, pbls, psts, pattrvals,
    pattrsets⟩ := t
  rcases cids with _ | ⟨x, cids⟩ <;>
    first | (simp [Transaction.holds] at hh; done) | rfl

theorem dispatch_of_holds_COLL_ADD (S : ObjectStore σ) (t : Transaction) (s : σ)
    (hh : t.holds { cids := 2, oids := 1 } = true) :
    dispatch_op S OP_COLL_ADD t s
      = .ok (t.drop { cids := 2, oids := 1 }, effect S OP_COLL_ADD t s) := by
  obtain ⟨ops, bls, oids, cids, lengths, attrnames, attrnames2, pbls, psts, pattrvals,
    pattrsets⟩ := t
  rcases cids with _ | ⟨x, _ | ⟨y, cids⟩⟩ <;>
    rcases oids with _ | ⟨x, oids⟩ <;>
    first | (simp [Transaction.holds] at hh; done) | rfl

theorem dispatch_of_holds_COLL_REMOVE (S : ObjectStore σ) (t : Transaction) (s : σ)
    (hh : t.holds { cids := 1, oids := 1 } = true) :
    dispatch_op S OP_COLL_REMOVE t s
      = .ok (t.drop { cids := 1, oids := 1 }, effect S OP_COLL_REMOVE t s) := by
  obtain ⟨ops, bls, oids, cids, lengths, attrnames, attrnames2, pbls, psts, pattrvals,
    pattrsets⟩ := t
  rcases cids with _ | ⟨x, cids⟩ <;>
    rcases oids with _ | ⟨x, oids⟩ <;>
    first | (simp [Transaction.holds] at hh; done) | rfl

theorem dispatch_of_holds_COLL_SETATTR (S : ObjectStore σ) (t : Transaction) (s : σ)
    (hh : t.holds { cids := 1, attrnames := 1, bls := 1 } = true) :
    dispatch_op S OP_COLL_SETATTR t s
      = .ok (t.drop { cids := 1, attrnames := 1, bls := 1 }, effect S OP_COLL_SETATTR t s) := by
  obtain ⟨ops, bls, oids, cids, lengths, attrnames, attrnames2, pbls, psts, pattrvals,
    pattrsets⟩ := t
  rcases cids with _ | ⟨x, cids⟩ <;>
    rcases attrnames with _ | ⟨x, attrnames⟩ <;>
    rcases bls with _ | ⟨x, bls⟩ <;>
    first | (simp [Transaction.holds] at hh; done) | rfl

theorem dispatch_of_holds_COLL_RMATTR (S : ObjectStore σ) (t : Transaction) (s : σ)
    (hh : t.holds { cids := 1, attrnames := 1 } = true) :
    dispatch_op S OP_COLL_RMATTR t s
      = .ok (t.drop { cids := 1, attrnames := 1 }, effect S OP_COLL_RMATTR t s) := by
  obtain ⟨ops, bls, oids, cids, lengths, attrnames, attrnames2, pbls, psts, pattrvals,
    pattrsets⟩ := t
  rcases cids with _ | ⟨x, cids⟩ <;>
    rcases attrnames with _ | ⟨x, attrnames⟩ <;>
    first | (simp [Transaction.holds] at hh; done) | rfl

/-- With the operands of its case in the queues, one iteration of the `switch` removes
exactly these operands and makes its call. -/
theorem dispatch_op_of_holds (S : ObjectStore σ) (op : Int) (a : Arity) (t : Transaction)
    (s : σ) (ha : arity op = some a) (hh : t.holds a = true) :
    dispatch_op S op t s = .ok (t.drop a, effect S op t s) := by
  by_cases h0 : op = OP_READ
  · subst h0
    cases ha
    exact dispatch_of_holds_READ S t s hh
  by_cases h1 : op = OP_STAT
  · subst h1
    cases ha
    exact dispatch_of_holds_STAT S t s hh
  by_cases h2 : op = OP_GETATTR
  · subst h2
    cases ha
    exact dispatch_of_holds_GETATTR S t s hh
  by_cases h3 : op = OP_GETATTRS
  · subst h3
    cases ha
    exact dispatch_of_holds_GETATTRS S t s hh
  by_cases h4 : op = OP_WRITE
  · subst h4
    cases ha
    exact dispatch_of_holds_WRITE S t s hh
  by_cases h5 : op = OP_ZERO
  · subst h5
    cases ha
    exact dispatch_of_holds_ZERO S t s hh
  by_cases h6 : op = OP_TRIMCACHE
  · subst h6
    cases ha
    exact dispatch_of_holds_TRIMCACHE S t s hh
  by_cases h7 : op = OP_TRUNCATE
  · subst h7
    cases ha
    exact dispatch_of_holds_TRUNCATE S t s hh
  by_cases h8 : op = OP_REMOVE
  · subst h8
    cases ha
    exact dispatch_of_holds_REMOVE S t s hh
  by_cases h9 : op = OP_SETATTR
  · subst h9
    cases ha
    exact dispatch_of_holds_SETATTR S t s hh
  by_cases h10 : op = OP_SETATTRS
  · subst h10
    cases ha
    exact dispatch_of_holds_SETATTRS S t s hh
  by_cases h11 : op = OP_RMATTR
  · subst h11
    cases ha
    exact dispatch_of_holds_RMATTR S t s hh
  by_cases h12 : op = OP_CLONE
  · subst h12
    cases ha
    exact dispatch_of_holds_CLONE S t s hh
  by_cases h13 : op = OP_MKCOLL
  · subst h13
    cases ha
    exact dispatch_of_holds_MKCOLL S t s hh
  by_cases h14 : op = OP_RMCOLL
  · subst h14
    cases ha
    exact dispatch_of_holds_RMCOLL S t s hh
  by_cases h15 : op = OP_COLL_ADD
  · subst h15
    cases ha
    exact dispatch_of_holds_COLL_ADD S t s hh
  by_cases h16 : op = OP_COLL_REMOVE
  · subst h16
    cases ha
    exact dispatch_of_holds_COLL_REMOVE S t s hh
  by_cases h17 : op = OP_COLL_SETATTR
  · subst h17
    cases ha
    exact dispatch_of_holds_COLL_SETATTR S t s hh
  by_cases h18 : op = OP_COLL_RMATTR
  · subst h18
    cases ha
    exact dispatch_of_holds_COLL_RMATTR S t s hh
  simp only [arity, h0, h1, h2, h3, h4, h5, h6, h7, h8, h9, h10, h11, h12, h13, h14, h15, h16, h17, h18, if_false] at ha
  exact absurd ha (by simp)

/-- A code without a case stops the run on the bad-op assertion, before any call. -/
theorem dispatch_op_of_unrecognized (S : ObjectStore σ) (op : Int) (t : Transaction) (s : σ)
    (h : recognized op = false) : dispatch_op S op t s = .error (Fault.bad_op op, s) := by
  by_cases h0 : op = OP_READ
  · subst h0
    exact absurd h (by decide)
  by_cases h1 : op = OP_STAT
  · subst h1
    exact absurd h (by decide)
  by_cases h2 : op = OP_GETATTR
  · subst h2
    exact absurd h (by decide)
  by_cases h3 : op = OP_GETATTRS
  · subst h3
    exact absurd h (by decide)
  by_cases h4 : op = OP_WRITE
  · subst h4
    exact absurd h (by decide)
  by_cases h5 : op = OP_ZERO
  · subst h5
    exact absurd h (by decide)
  by_cases h6 : op = OP_TRIMCACHE
  · subst h6
    exact absurd h (by decide)
  by_cases h7 : op = OP_TRUNCATE
  · subst h7
    exact absurd h (by decide)
  by_cases h8 : op = OP_REMOVE
  · subst h8
    exact absurd h (by decide)
  by_cases h9 : op = OP_SETATTR
  · subst h9
    exact absurd h (by decide)
  by_cases h10 : op = OP_SETATTRS
  · subst h10
    exact absurd h (by decide)
  by_cases h11 : op = OP_RMATTR
  · subst h11
    exact absurd h (by decide)
  by_cases h12 : op = OP_CLONE
  · subst h12
    exact absurd h (by decide)
  by_cases h13 : op = OP_MKCOLL
  · subst h13
    exact absurd h (by decide)
  by_cases h14 : op = OP_RMCOLL
  · subst h14
    exact absurd h (by decide)
  by_cases h15 : op = OP_COLL_ADD
  · subst h15
    exact absurd h (by decide)
  by_cases h16 : op = OP_COLL_REMOVE
  · subst h16
    exact absurd h (by decide)
  by_cases h17 : op = OP_COLL_SETATTR
  · subst h17
    exact absurd h (by decide)
  by_cases h18 : op = OP_COLL_RMATTR
  · subst h18
    exact absurd h (by decide)
  simp only [dispatch_op, h0, h1, h2, h3, h4, h5, h6, h7, h8, h9, h10, h11, h12, h13, h14, h15, h16, h17, h18, if_false]

/-! ## The outcomes of one iteration -/

theorem dispatch_outcome_READ (S : ObjectStore σ) (t : Transaction) (s : σ) :
    (∃ t' s', dispatch_op S OP_READ t s = .ok (t', s') ∧ t'.ops = t.ops)
      ∨ dispatch_op S OP_READ t s = .error (Fault.undefined, s) := by
  obtain ⟨ops, bls, oids, cids, lengths, attrnames, attrnames2, pbls, psts, pattrvals,
    pattrsets⟩ := t
  rcases cids with _ | ⟨x, cids⟩ <;>
    rcases oids with _ | ⟨x, oids⟩ <;>
    rcases lengths with _ | ⟨x, _ | ⟨y, lengths⟩⟩ <;>
    rcases pbls with _ | ⟨x, pbls⟩ <;>
    first
      | exact Or.inr rfl
      | exact Or.inl ⟨_, _, rfl, rfl⟩

theorem dispatch_outcome_STAT (S : ObjectStore σ) (t : Transaction) (s : σ) :
    (∃ t' s', dispatch_op S OP_STAT t s = .ok (t', s') ∧ t'.ops = t.ops)
      ∨ dispatch_op S OP_STAT t s = .error (Fault.undefined, s) := by
  obtain ⟨ops, bls, oids, cids, lengths, attrnames, attrnames2, pbls, psts, pattrvals,
    pattrsets⟩ := t
  rcases cids with _ | ⟨x, cids⟩ <;>
    rcases oids with _ | ⟨x, oids⟩ <;>
    rcases psts with _ | ⟨x, psts⟩ <;>
    first
      | exact Or.inr rfl
      | exact Or.inl ⟨_, _, rfl, rfl⟩

theorem dispatch_outcome_GETATTR (S : ObjectStore σ) (t : Transaction) (s : σ) :
    (∃ t' s', dispatch_op S OP_GETATTR t s = .ok (t', s') ∧ t'.ops = t.ops)
      ∨ dispatch_op S OP_GETATTR t s = .error (Fault.undefined, s) := by
  obtain ⟨ops, bls, oids, cids, lengths, attrnames, attrnames2, pbls, psts, pattrvals,
    pattrsets⟩ := t
  rcases cids with _ | ⟨x, cids⟩ <;>
    rcases oids with _ | ⟨x, oids⟩ <;>
    rcases attrnames with _ | ⟨x, attrnames⟩ <;>
    rcases pattrvals with _ | ⟨x, pattrvals⟩ <;>
    first
      | exact Or.inr rfl
      | exact Or.inl ⟨_, _, rfl, rfl⟩

theorem dispatch_outcome_GETATTRS (S : ObjectStore σ) (t : Transaction) (s : σ) :
    (∃ t' s', dispatch_op S OP_GETATTRS t s = .ok (t', s') ∧ t'.ops = t.ops)
      ∨ dispatch_op S OP_GETATTRS t s = .error (Fault.undefined, s) := by
  obtain ⟨ops, bls, oids, cids, lengths, attrnames, attrnames2, pbls, psts, pattrvals,
    pattrsets⟩ := t
  rcases cids with _ | ⟨x, cids⟩ <;>
    rcases oids with _ | ⟨x, oids⟩ <;>
    rcases pattrsets with _ | ⟨x, pattrsets⟩ <;>
    first
      | exact Or.inr rfl
      | exact Or.inl ⟨_, _, rfl, rfl⟩

theorem dispatch_outcome_WRITE (S : ObjectStore σ) (t : Transaction) (s : σ) :
    (∃ t' s', dispatch_op S OP_WRITE t s = .ok (t', s') ∧ t'.ops = t.ops)
      ∨ dispatch_op S OP_WRITE t s = .error (Fault.undefined, s) := by
  obtain ⟨ops, bls, oids, cids, lengths, attrnames, attrnames2, pbls, psts, pattrvals,
    pattrsets⟩ := t
  rcases cids with _ | ⟨x, cids⟩ <;>
    rcases oids with _ | ⟨x, oids⟩ <;>
    rcases lengths with _ | ⟨x, _ | ⟨y, lengths⟩⟩ <;>
    rcases bls with _ | ⟨x, bls⟩ <;>
    first
      | exact Or.inr rfl
      | exact Or.inl ⟨_, _, rfl, rfl⟩

theorem dispatch_outcome_ZERO (S : ObjectStore σ) (t : Transaction) (s : σ) :
    (∃ t' s', dispatch_op S OP_ZERO t s = .ok (t', s') ∧ t'.ops = t.ops)
      ∨ dispatch_op S OP_ZERO t s = .error (Fault.undefined, s) := by
  obtain ⟨ops, bls, oids, cids, lengths, attrnames, attrnames2, pbls, psts, pattrvals,
    pattrsets⟩ := t
  rcases cids with _ | ⟨x, cids⟩ <;>
    rcases oids with _ | ⟨x, oids⟩ <;>
    rcases lengths with _ | ⟨x, _ | ⟨y, lengths⟩⟩ <;>
    first
      | exact Or.inr rfl
      | exact Or.inl ⟨_, _, rfl, rfl⟩

theorem dispatch_outcome_TRIMCACHE (S : ObjectStore σ) (t : Transaction) (s : σ) :
    (∃ t' s', dispatch_op S OP_TRIMCACHE t s = .ok (t', s') ∧ t'.ops = t.ops)
      ∨ dispatch_op S OP_TRIMCACHE t s = .error (Fault.undefined, s) := by
  obtain ⟨ops, bls, oids, cids, lengths, attrnames, attrnames2, pbls, psts, pattrvals,
    pattrsets⟩ := t
  rcases cids with _ | ⟨x, cids⟩ <;>
    rcases oids with _ | ⟨x, oids⟩ <;>
    rcases lengths with _ | ⟨x, _ | ⟨y, lengths⟩⟩ <;>
    first
      | exact Or.inr rfl
      | exact Or.inl ⟨_, _, rfl, rfl⟩

theorem dispatch_outcome_TRUNCATE (S : ObjectStore σ) (t : Transaction) (s : σ) :
    (∃ t' s', dispatch_op S OP_TRUNCATE t s = .ok (t', s') ∧ t'.ops = t.ops)
      ∨ dispatch_op S OP_TRUNCATE t s = .error (Fault.undefined, s) := by
  obtain ⟨ops, bls, oids, cids, lengths, attrnames, attrnames2, pbls, psts, pattrvals,
    pattrsets⟩ := t
  rcases cids with _ | ⟨x, cids⟩ <;>
    rcases oids with _ | ⟨x, oids⟩ <;>
    rcases lengths with _ | ⟨x, lengths⟩ <;>
    first
      | exact Or.inr rfl
      | exact Or.inl ⟨_, _, rfl, rfl⟩

theorem dispatch_outcome_REMOVE (S : ObjectStore σ) (t : Transaction) (s : σ) :
    (∃ t' s', dispatch_op S OP_REMOVE t s = .ok (t', s') ∧ t'.ops = t.ops)
      ∨ dispatch_op S OP_REMOVE t s = .error (Fault.undefined, s) := by
  obtain ⟨ops, bls, oids, cids, lengths, attrnames, attrnames2, pbls, psts, pattrvals,
    pattrsets⟩ := t
  rcases cids with _ | ⟨x, cids⟩ <;>
    rcases oids with _ | ⟨x, oids⟩ <;>
    first
      | exact Or.inr rfl
      | exact Or.inl ⟨_, _, rfl, rfl⟩

theorem dispatch_outcome_SETATTR (S : ObjectStore σ) (t : Transaction) (s : σ) :
    (∃ t' s', dispatch_op S OP_SETATTR t s = .ok (t', s') ∧ t'.ops = t.ops)
      ∨ dispatch_op S OP_SETATTR t s = .error (Fault.undefined, s) := by
  obtain ⟨ops, bls, oids, cids, lengths, attrnames, attrnames2, pbls, psts, pattrvals,
    pattrsets⟩ := t
  rcases cids with _ | ⟨x, cids⟩ <;>
    rcases oids with _ | ⟨x, oids⟩ <;>
    rcases attrnames with _ | ⟨x, attrnames⟩ <;>
    rcases bls with _ | ⟨x, bls⟩ <;>
    first
      | exact Or.inr rfl
      | exact Or.inl ⟨_, _, rfl, rfl⟩

theorem dispatch_outcome_SETATTRS (S : ObjectStore σ) (t : Transaction) (s : σ) :
    (∃ t' s', dispatch_op S OP_SETATTRS t s = .ok (t', s') ∧ t'.ops = t.ops)
      ∨ dispatch_op S OP_SETATTRS t s = .error (Fault.undefined, s) := by
  obtain ⟨ops, bls, oids, cids, lengths, attrnames, attrnames2, pbls, psts, pattrvals,
    pattrsets⟩ := t
  rcases cids with _ | ⟨x, cids⟩ <;>
    rcases oids with _ | ⟨x, oids⟩ <;>
    rcases pattrsets with _ | ⟨x, pattrsets⟩ <;>
    first
      | exact Or.inr rfl
      | exact Or.inl ⟨_, _, rfl, rfl⟩

theorem dispatch_outcome_RMATTR (S : ObjectStore σ) (t : Transaction) (s : σ) :
    (∃ t' s', dispatch_op S OP_RMATTR t s = .ok (t', s') ∧ t'.ops = t.ops)
      ∨ dispatch_op S OP_RMATTR t s = .error (Fault.undefined, s) := by
  obtain ⟨ops, bls, oids, cids, lengths, attrnames, attrnames2, pbls, psts, pattrvals,
    pattrsets⟩ := t
  rcases cids with _ | ⟨x, cids⟩ <;>
    rcases oids with _ | ⟨x, oids⟩ <;>
    rcases attrnames with _ | ⟨x, attrnames⟩ <;>
    first
      | exact Or.inr rfl
      | exact Or.inl ⟨_, _, rfl, rfl⟩

theorem dispatch_outcome_CLONE (S : ObjectStore σ) (t : Transaction) (s : σ) :
    (∃ t' s', dispatch_op S OP_CLONE t s = .ok (t', s') ∧ t'.ops = t.ops)
      ∨ dispatch_op S OP_CLONE t s = .error (Fault.undefined, s) := by
  obtain ⟨ops, bls, oids, cids, lengths, attrnames, attrnames2, pbls, psts, pattrvals,
    pattrsets⟩ := t
  rcases cids with _ | ⟨x, cids⟩ <;>
    rcases oids with _ | ⟨x, _ | ⟨y, oids⟩⟩ <;>
    first
      | exact Or.inr rfl
      | exact Or.inl ⟨_, _, rfl, rfl⟩

theorem dispatch_outcome_MKCOLL (S : ObjectStore σ) (t : Transaction) (s : σ) :
    (∃ t' s', dispatch_op S OP_MKCOLL t s = .ok (t', s') ∧ t'.ops = t.ops)
      ∨ dispatch_op S OP_MKCOLL t s = .error (Fault.undefined, s) := by
  obtain ⟨ops, bls, oids, cids, lengths, attrnames, attrnames2, pbls, psts, pattrvals,
    pattrsets⟩ := t
  rcases cids with _ | ⟨x, cids⟩ <;>
    first
      | exact Or.inr rfl
      | exact Or.inl ⟨_, _, rfl, rfl⟩

theorem dispatch_outcome_RMCOLL (S : ObjectStore σ) (t : Transaction) (s : σ) :
    (∃ t' s', dispatch_op S OP_RMCOLL t s = .ok (t', s') ∧ t'.ops = t.ops)
      ∨ dispatch_op S OP_RMCOLL t s = .error (Fault.undefined, s) := by
  obtain ⟨ops, bls, oids, cids, lengths, attrnames, attrnames2, pbls, psts, pattrvals,
    pattrsets⟩ := t
  rcases cids with _ | ⟨x, cids⟩ <;>
    first
      | exact Or.inr rfl
      | exact Or.inl ⟨_, _, rfl, rfl⟩

theorem dispatch_outcome_COLL_ADD (S : ObjectStore σ) (t : Transaction) (s : σ) :
    (∃ t' s', dispatch_op S OP_COLL_ADD t s = .ok (t', s') ∧ t'.ops = t.ops)
      ∨ dispatch_op S OP_COLL_ADD t s = .error (Fault.undefined, s) := by
  obtain ⟨ops, bls, oids, cids, lengths, attrnames, attrnames2, pbls, psts, pattrvals,
    pattrsets⟩ := t
  rcases cids with _ | ⟨x, _ | ⟨y, cids⟩⟩ <;>
    rcases oids with _ | ⟨x, oids⟩ <;>
    first
      | exact Or.inr rfl
      | exact Or.inl ⟨_, _, rfl, rfl⟩

theorem dispatch_outcome_COLL_REMOVE (S : ObjectStore σ) (t : Transaction) (s : σ) :
    (∃ t' s', dispatch_op S OP_COLL_REMOVE t s = .ok (t', s') ∧ t'.ops = t.ops)
      ∨ dispatch_op S OP_COLL_REMOVE t s = .error (Fault.undefined, s) := by
  obtain ⟨ops, bls, oids, cids, lengths, attrnames, attrnames2, pbls, psts, pattrvals,
    pattrsets⟩ := t
  rcases cids with _ | ⟨x, cids⟩ <;>
    rcases oids with _ | ⟨x, oids⟩ <;>
    first
      | exact Or.inr rfl
      | exact Or.inl ⟨_, _, rfl, rfl⟩

theorem dispatch_outcome_COLL_SETATTR (S : ObjectStore σ) (t : Transaction) (s : σ) :
    (∃ t' s', dispatch_op S OP_COLL_SETATTR t s = .ok (t', s') ∧ t'.ops = t.ops)
      ∨ dispatch_op S OP_COLL_SETATTR t s = .error (Fault.undefined, s) := by
  obtain ⟨ops, bls, oids, cids, lengths, attrnames, attrnames2, pbls, psts, pattrvals,
    pattrsets⟩ := t
  rcases cids with _ | ⟨x, cids⟩ <;>
    rcases attrnames with _ | ⟨x, attrnames⟩ <;>
    rcases bls with _ | ⟨x, bls⟩ <;>
    first
      | exact Or.inr rfl
      | exact Or.inl ⟨_, _, rfl, rfl⟩

theorem dispatch_outcome_COLL_RMATTR (S : ObjectStore σ) (t : Transaction) (s : σ) :
    (∃ t' s', dispatch_op S OP_COLL_RMATTR t s = .ok (t', s') ∧ t'.ops = t.ops)
      ∨ dispatch_op S OP_COLL_RMATTR t s = .error (Fault.undefined, s) := by
  obtain ⟨ops, bls, oids, cids, lengths, attrnames, attrnames2, pbls, psts, pattrvals,
    pattrsets⟩ := t
  rcases cids with _ | ⟨x, cids⟩ <;>
    rcases attrnames with _ | ⟨x, attrnames⟩ <;>
    first
      | exact Or.inr rfl
      | exact Or.inl ⟨_, _, rfl, rfl⟩

/-- One iteration of the `switch` either completes and leaves the queued codes alone, or
stops before any call: on the removal from an empty queue, or on the bad-op assertion. -/
theorem dispatch_outcome (S : ObjectStore σ) (op : Int) (t : Transaction) (s : σ) :
    (∃ t' s', dispatch_op S op t s = .ok (t', s') ∧ t'.ops = t.ops)
      ∨ dispatch_op S op t s = .error (Fault.undefined, s)
      ∨ dispatch_op S op t s = .error (Fault.bad_op op, s) := by
  by_cases h0 : op = OP_READ
  · subst h0
    rcases dispatch_outcome_READ S t s with h | h
    · exact Or.inl h
    · exact Or.inr (Or.inl h)
  by_cases h1 : op = OP_STAT
  · subst h1
    rcases dispatch_outcome_STAT S t s with h | h
    · exact Or.inl h
    · exact Or.inr (Or.inl h)
  by_cases h2 : op = OP_GETATTR
  · subst h2
    rcases dispatch_outcome_GETATTR S t s with h | h
    · exact Or.inl h
    · exact Or.inr (Or.inl h)
  by_cases h3 : op = OP_GETATTRS
  · subst h3
    rcases dispatch_outcome_GETATTRS S t s with h | h
    · exact Or.inl h
    · exact Or.inr (Or.inl h)
  by_cases h4 : op = OP_WRITE
  · subst h4
    rcases dispatch_outcome_WRITE S t s with h | h
    · exact Or.inl h
    · exact Or.inr (Or.inl h)
  by_cases h5 : op = OP_ZERO
  · subst h5
    rcases dispatch_outcome_ZERO S t s with h | h
    · exact Or.inl h
    · exact Or.inr (Or.inl h)
  by_cases h6 : op = OP_TRIMCACHE
  · subst h6
    rcases dispatch_outcome_TRIMCACHE S t s with h | h
    · exact Or.inl h
    · exact Or.inr (Or.inl h)
  by_cases h7 : op = OP_TRUNCATE
  · subst h7
    rcases dispatch_outcome_TRUNCATE S t s with h | h
    · exact Or.inl h
    · exact Or.inr (Or.inl h)
  by_cases h8 : op = OP_REMOVE
  · subst h8
    rcases dispatch_outcome_REMOVE S t s with h | h
    · exact Or.inl h
    · exact Or.inr (Or.inl h)
  by_cases h9 : op = OP_SETATTR
  · subst h9
    rcases dispatch_outcome_SETATTR S t s with h | h
    · exact Or.inl h
    · exact Or.inr (Or.inl h)
  by_cases h10 : op = OP_SETATTRS
  · subst h10
    rcases dispatch_outcome_SETATTRS S t s with h | h
    · exact Or.inl h
    · exact Or.inr (Or.inl h)
  by_cases h11 : op = OP_RMATTR
  · subst h11
    rcases dispatch_outcome_RMATTR S t s with h | h
    · exact Or.inl h
    · exact Or.inr (Or.inl h)
  by_cases h12 : op = OP_CLONE
  · subst h12
    rcases dispatch_outcome_CLONE S t s with h | h
    · exact Or.inl h
    · exact Or.inr (Or.inl h)
  by_cases h13 : op = OP_MKCOLL
  · subst h13
    rcases dispatch_outcome_MKCOLL S t s with h | h
    · exact Or.inl h
    · exact Or.inr (Or.inl h)
  by_cases h14 : op = OP_RMCOLL
  · subst h14
    rcases dispatch_outcome_RMCOLL S t s with h | h
    · exact Or.inl h
    · exact Or.inr (Or.inl h)
  by_cases h15 : op = OP_COLL_ADD
  · subst h15
    rcases dispatch_outcome_COLL_ADD S t s with h | h
    · exact Or.inl h
    · exact Or.inr (Or.inl h)
  by_cases h16 : op = OP_COLL_REMOVE
  · subst h16
    rcases dispatch_outcome_COLL_REMOVE S t s with h | h
    · exact Or.inl h
    · exact Or.inr (Or.inl h)
  by_cases h17 : op = OP_COLL_SETATTR
  · subst h17
    rcases dispatch_outcome_COLL_SETATTR S t s with h | h
    · exact Or.inl h
    · exact Or.inr (Or.inl h)
  by_cases h18 : op = OP_COLL_RMATTR
  · subst h18
    rcases dispatch_outcome_COLL_RMATTR S t s with h | h
    · exact Or.inl h
    · exact Or.inr (Or.inl h)
  exact Or.inr (Or.inr (by simp only [dispatch_op, h0, h1, h2, h3, h4, h5, h6, h7, h8, h9, h10, h11, h12, h13, h14, h15, h16, h17, h18, if_false]))

/-- One unit of fuel per queued code is enough: the loop never stops for lack of fuel. -/
theorem while_have_op_fuel (S : ObjectStore σ) (n : Nat) (t : Transaction) (s : σ)
    (hn : t.ops.length ≤ n) :
    ∀ s', while_have_op S n t s ≠ .error (Fault.out_of_fuel, s') := by
  induction n generalizing t s with
  | zero =>
    intro s' h
    have e : t.ops = [] := List.length_eq_zero.1 (Nat.le_zero.1 hn)
    simp [while_have_op, have_op, e] at h
  | succ n ih =>
    intro s' h
    rw [while_have_op] at h
    split_ifs at h with hop
    obtain ⟨ops, bls, oids, cids, lengths, attrnames, attrnames2, pbls, psts, pattrvals,
      pattrsets⟩ := t
    rcases ops with _ | ⟨op, ops⟩
    · simp [have_op] at hop
    · simp only [get_op, pop, Option.map, fetched] at h
      rcases dispatch_outcome S op
        { ops := ops, bls := bls, oids := oids, cids := cids, lengths := lengths,
          attrnames := attrnames, attrnames2 := attrnames2, pbls := pbls, psts := psts,
          pattrvals := pattrvals, pattrsets := pattrsets } s with ⟨t1, s1, hd, ho⟩ | hd | hd
      · rw [hd] at h
        refine ih t1 s1 ?_ s' h
        rw [ho]
        simpa using hn
      · rw [hd] at h
        cases h
      · rw [hd] at h
        cases h

/-- The run of `apply_transaction` never stops for lack of fuel. -/
theorem apply_transaction_fuel (S : ObjectStore σ) (t : Transaction) (onsafe : Ptr) (s : σ) :
    ∀ s', apply_transaction S t onsafe s ≠ .error (Fault.out_of_fuel, s') := by
  intro s' h
  unfold apply_transaction at h
  dsimp only at h
  split at h
  · rename_i e he
    cases h
    exact while_have_op_fuel S _ t _ (Nat.le_refl _) s' he
  · cases h

/-! ## What one iteration adds to the log of the recording backend -/

theorem recorder_dispatch_READ (ret : List Call → Int) (t t' : Transaction) (s s' : Recorder)
    (h : dispatch_op (recorder ret) OP_READ t s = .ok (t', s')) :
    ∃ k, s'.log = s.log ++ [k] ∧ k.plain ∧ t'.ops = t.ops := by
  obtain ⟨ops, bls, oids, cids, lengths, attrnames, attrnames2, pbls, psts, pattrvals,
    pattrsets⟩ := t
  rcases cids with _ | ⟨x, cids⟩ <;>
    rcases oids with _ | ⟨x, oids⟩ <;>
    rcases lengths with _ | ⟨x, _ | ⟨y, lengths⟩⟩ <;>
    rcases pbls with _ | ⟨x, pbls⟩ <;>
    first
      | (cases h; done)
      | (cases h; exact ⟨_, rfl, ⟨rfl, Or.inl rfl⟩, rfl⟩)

theorem recorder_dispatch_STAT (ret : List Call → Int) (t t' : Transaction) (s s' : Recorder)
    (h : dispatch_op (recorder ret) OP_STAT t s = .ok (t', s')) :
    ∃ k, s'.log = s.log ++ [k] ∧ k.plain ∧ t'.ops = t.ops := by
  obtain ⟨ops, bls, oids, cids, lengths, attrnames, attrnames2, pbls, psts, pattrvals,
    pattrsets⟩ := t
  rcases cids with _ | ⟨x, cids⟩ <;>
    rcases oids with _ | ⟨x, oids⟩ <;>
    rcases psts with _ | ⟨x, psts⟩ <;>
    first
      | (cases h; done)
      | (cases h; exact ⟨_, rfl, ⟨rfl, Or.inl rfl⟩, rfl⟩)

theorem recorder_dispatch_GETATTR (ret : List Call → Int) (t t' : Transaction) (s s' : Recorder)
    (h : dispatch_op (recorder ret) OP_GETATTR t s = .ok (t', s')) :
    ∃ k, s'.log = s.log ++ [k] ∧ k.plain ∧ t'.ops = t.ops := by
  obtain ⟨ops, bls, oids, cids, lengths, attrnames, attrnames2, pbls, psts, pattrvals,
    pattrsets⟩ := t
  rcases cids with _ | ⟨x, cids⟩ <;>
    rcases oids with _ | ⟨x, oids⟩ <;>
    rcases attrnames with _ | ⟨x, attrnames⟩ <;>
    rcases pattrvals with _ | ⟨x, pattrvals⟩ <;>
    first
      | (cases h; done)
      | (cases h; exact ⟨_, rfl, ⟨rfl, Or.inl rfl⟩, rfl⟩)

theorem recorder_dispatch_GETATTRS (ret : List Call → Int) (t t' : Transaction) (s s' : Recorder)
    (h : dispatch_op (recorder ret) OP_GETATTRS t s = .ok (t', s')) :
    ∃ k, s'.log = s.log ++ [k] ∧ k.plain ∧ t'.ops = t.ops := by
  obtain ⟨ops, bls, oids, cids, lengths, attrnames, attrnames2, pbls, psts, pattrvals,
    pattrsets⟩ := t
  rcases cids with _ | ⟨x, cids⟩ <;>
    rcases oids with _ | ⟨x, oids⟩ <;>
    rcases pattrsets with _ | ⟨x, pattrsets⟩ <;>
    first
      | (cases h; done)
      | (cases h; exact ⟨_, rfl, ⟨rfl, Or.inl rfl⟩, rfl⟩)

theorem recorder_dispatch_WRITE (ret : List Call → Int) (t t' : Transaction) (s s' : Recorder)
    (h : dispatch_op (recorder ret) OP_WRITE t s = .ok (t', s')) :
    ∃ k, s'.log = s.log ++ [k] ∧ k.plain ∧ t'.ops = t.ops := by
  obtain ⟨ops, bls, oids, cids, lengths, attrnames, attrnames2, pbls, psts, pattrvals,
    pattrsets⟩ := t
  rcases cids with _ | ⟨x, cids⟩ <;>
    rcases oids with _ | ⟨x, oids⟩ <;>
    rcases lengths with _ | ⟨x, _ | ⟨y, lengths⟩⟩ <;>
    rcases bls with _ | ⟨x, bls⟩ <;>
    first
      | (cases h; done)
      | (cases h; exact ⟨_, rfl, ⟨rfl, Or.inr rfl⟩, rfl⟩)

theorem recorder_dispatch_ZERO (ret : List Call → Int) (t t' : Transaction) (s s' : Recorder)
    (h : dispatch_op (recorder ret) OP_ZERO t s = .ok (t', s')) :
    ∃ k, s'.log = s.log ++ [k] ∧ k.plain ∧ t'.ops = t.ops := by
  obtain ⟨ops, bls, oids, cids, lengths, attrnames, attrnames2, pbls, psts, pattrvals,
    pattrsets⟩ := t
  rcases cids with _ | ⟨x, cids⟩ <;>
    rcases oids with _ | ⟨x, oids⟩ <;>
    rcases lengths with _ | ⟨x, _ | ⟨y, lengths⟩⟩ <;>
    first
      | (cases h; done)
      | (cases h; exact ⟨_, rfl, ⟨rfl, Or.inr rfl⟩, rfl⟩)

theorem recorder_dispatch_TRIMCACHE (ret : List Call → Int) (t t' : Transaction) (s s' : Recorder)
    (h : dispatch_op (recorder ret) OP_TRIMCACHE t s = .ok (t', s')) :
    ∃ k, s'.log = s.log ++ [k] ∧ k.plain ∧ t'.ops = t.ops := by
  obtain ⟨ops, bls, oids, cids, lengths, attrnames, attrnames2, pbls, psts, pattrvals,
    pattrsets⟩ := t
  rcases cids with _ | ⟨x, cids⟩ <;>
    rcases oids with _ | ⟨x, oids⟩ <;>
    rcases lengths with _ | ⟨x, _ | ⟨y, lengths⟩⟩ <;>
    first
      | (cases h; done)
      | (cases h; exact ⟨_, rfl, ⟨rfl, Or.inl rfl⟩, rfl⟩)

theorem recorder_dispatch_TRUNCATE (ret : List Call → Int) (t t' : Transaction) (s s' : Recorder)
    (h : dispatch_op (recorder ret) OP_TRUNCATE t s = .ok (t', s')) :
    ∃ k, s'.log = s.log ++ [k] ∧ k.plain ∧ t'.ops = t.ops := by
  obtain ⟨ops, bls, oids, cids, lengths, attrnames, attrnames2, pbls, psts, pattrvals,
    pattrsets⟩ := t
  rcases cids with _ | ⟨x, cids⟩ <;>
    rcases oids with _ | ⟨x, oids⟩ <;>
    rcases lengths with _ | ⟨x, lengths⟩ <;>
    first
      | (cases h; done)
      | (cases h; exact ⟨_, rfl, ⟨rfl, Or.inr rfl⟩, rfl⟩)

theorem recorder_dispatch_REMOVE (ret : List Call → Int) (t t' : Transaction) (s s' : Recorder)
    (h : dispatch_op (recorder ret) OP_REMOVE t s = .ok (t', s')) :
    ∃ k, s'.log = s.log ++ [k] ∧ k.plain ∧ t'.ops = t.ops := by
  obtain ⟨ops, bls, oids, cids, lengths, attrnames, attrnames2, pbls, psts, pattrvals,
    pattrsets⟩ := t
  rcases cids with _ | ⟨x, cids⟩ <;>
    rcases oids with _ | ⟨x, oids⟩ <;>
    first
      | (cases h; done)
      | (cases h; exact ⟨_, rfl, ⟨rfl, Or.inr rfl⟩, rfl⟩)

theorem recorder_dispatch_SETATTR (ret : List Call → Int) (t t' : Transaction) (s s' : Recorder)
    (h : dispatch_op (recorder ret) OP_SETATTR t s = .ok (t', s')) :
    ∃ k, s'.log = s.log ++ [k] ∧ k.plain ∧ t'.ops = t.ops := by
  obtain ⟨ops, bls, oids, cids, lengths, attrnames, attrnames2, pbls, psts, pattrvals,
    pattrsets⟩ := t
  rcases cids with _ | ⟨x, cids⟩ <;>
    rcases oids with _ | ⟨x, oids⟩ <;>
    rcases attrnames with _ | ⟨x, attrnames⟩ <;>
    rcases bls with _ | ⟨x, bls⟩ <;>
    first
      | (cases h; done)
      | (cases h; exact ⟨_, rfl, ⟨rfl, Or.inr rfl⟩, rfl⟩)

theorem recorder_dispatch_SETATTRS (ret : List Call → Int) (t t' : Transaction) (s s' : Recorder)
    (h : dispatch_op (recorder ret) OP_SETATTRS t s = .ok (t', s')) :
    ∃ k, s'.log = s.log ++ [k] ∧ k.plain ∧ t'.ops = t.ops := by
  obtain ⟨ops, bls, oids, cids, lengths, attrnames, attrnames2, pbls, psts, pattrvals,
    pattrsets⟩ := t
  rcases cids with _ | ⟨x, cids⟩ <;>
    rcases oids with _ | ⟨x, oids⟩ <;>
    rcases pattrsets with _ | ⟨x, pattrsets⟩ <;>
    first
      | (cases h; done)
      | (cases h; exact ⟨_, rfl, ⟨rfl, Or.inr rfl⟩, rfl⟩)

theorem recorder_dispatch_RMATTR (ret : List Call → Int) (t t' : Transaction) (s s' : Recorder)
    (h : dispatch_op (recorder ret) OP_RMATTR t s = .ok (t', s')) :
    ∃ k, s'.log = s.log ++ [k] ∧ k.plain ∧ t'.ops = t.ops := by
  obtain ⟨ops, bls, oids, cids, lengths, attrnames, attrnames2, pbls, psts, pattrvals,
    pattrsets⟩ := t
  rcases cids with _ | ⟨x, cids⟩ <;>
    rcases oids with _ | ⟨x, oids⟩ <;>
    rcases attrnames with _ | ⟨x, attrnames⟩ <;>
    first
      | (cases h; done)
      | (cases h; exact ⟨_, rfl, ⟨rfl, Or.inr rfl⟩, rfl⟩)

theorem recorder_dispatch_CLONE (ret : List Call → Int) (t t' : Transaction) (s s' : Recorder)
    (h : dispatch_op (recorder ret) OP_CLONE t s = .ok (t', s')) :
    ∃ k, s'.log = s.log ++ [k] ∧ k.plain ∧ t'.ops = t.ops := by
  obtain ⟨ops, bls, oids, cids, lengths, attrnames, attrnames2, pbls, psts, pattrvals,
    pattrsets⟩ := t
  rcases cids with _ | ⟨x, cids⟩ <;>
    rcases oids with _ | ⟨x, _ | ⟨y, oids⟩⟩ <;>
    first
      | (cases h; done)
      | (cases h; exact ⟨_, rfl, ⟨rfl, Or.inl rfl⟩, rfl⟩)

theorem recorder_dispatch_MKCOLL (ret : List Call → Int) (t t' : Transaction) (s s' : Recorder)
    (h : dispatch_op (recorder ret) OP_MKCOLL t s = .ok (t', s')) :
    ∃ k, s'.log = s.log ++ [k] ∧ k.plain ∧ t'.ops = t.ops := by
  obtain ⟨ops, bls, oids, cids, lengths, attrnames, attrnames2, pbls, psts, pattrvals,
    pattrsets⟩ := t
  rcases cids with _ | ⟨x, cids⟩ <;>
    first
      | (cases h; done)
      | (cases h; exact ⟨_, rfl, ⟨rfl, Or.inr rfl⟩, rfl⟩)

theorem recorder_dispatch_RMCOLL (ret : List Call → Int) (t t' : Transaction) (s s' : Recorder)
    (h : dispatch_op (recorder ret) OP_RMCOLL t s = .ok (t', s')) :
    ∃ k, s'.log = s.log ++ [k] ∧ k.plain ∧ t'.ops = t.ops := by
  obtain ⟨ops, bls, oids, cids, lengths, attrnames, attrnames2, pbls, psts, pattrvals,
    pattrsets⟩ := t
  rcases cids with _ | ⟨x, cids⟩ <;>
    first
      | (cases h; done)
      | (cases h; exact ⟨_, rfl, ⟨rfl, Or.inr rfl⟩, rfl⟩)

theorem recorder_dispatch_COLL_ADD (ret : List Call → Int) (t t' : Transaction) (s s' : Recorder)
    (h : dispatch_op (recorder ret) OP_COLL_ADD t s = .ok (t', s')) :
    ∃ k, s'.log = s.log ++ [k] ∧ k.plain ∧ t'.ops = t.ops := by
  obtain ⟨ops, bls, oids, cids, lengths, attrnames, attrnames2, pbls, psts, pattrvals,
    pattrsets⟩ := t
  rcases cids with _ | ⟨x, _ | ⟨y, cids⟩⟩ <;>
    rcases oids with _ | ⟨x, oids⟩ <;>
    first
      | (cases h; done)
      | (cases h; exact ⟨_, rfl, ⟨rfl, Or.inr rfl⟩, rfl⟩)

theorem recorder_dispatch_COLL_REMOVE (ret : List Call → Int) (t t' : Transaction) (s s' : Recorder)
    (h : dispatch_op (recorder ret) OP_COLL_REMOVE t s = .ok (t', s')) :
    ∃ k, s'.log = s.log ++ [k] ∧ k.plain ∧ t'.ops = t.ops := by
  obtain ⟨ops, bls, oids, cids, lengths, attrnames, attrnames2, pbls, psts, pattrvals,
    pattrsets⟩ := t
  rcases cids with _ | ⟨x, cids⟩ <;>
    rcases oids with _ | ⟨x, oids⟩ <;>
    first
      | (cases h; done)
      | (cases h; exact ⟨_, rfl, ⟨rfl, Or.inr rfl⟩, rfl⟩)

theorem recorder_dispatch_COLL_SETATTR (ret : List Call → Int) (t t' : Transaction) (s s' : Recorder)
    (h : dispatch_op (recorder ret) OP_COLL_SETATTR t s = .ok (t', s')) :
    ∃ k, s'.log = s.log ++ [k] ∧ k.plain ∧ t'.ops = t.ops := by
  obtain ⟨ops, bls, oids, cids, lengths, attrnames, attrnames2, pbls, psts, pattrvals,
    pattrsets⟩ := t
  rcases cids with _ | ⟨x, cids⟩ <;>
    rcases attrnames with _ | ⟨x, attrnames⟩ <;>
    rcases bls with _ | ⟨x, bls⟩ <;>
    first
      | (cases h; done)
      | (cases h; exact ⟨_, rfl, ⟨rfl, Or.inr rfl⟩, rfl⟩)

theorem recorder_dispatch_COLL_RMATTR (ret : List Call → Int) (t t' : Transaction) (s s' : Recorder)
    (h : dispatch_op (recorder ret) OP_COLL_RMATTR t s = .ok (t', s')) :
    ∃ k, s'.log = s.log ++ [k] ∧ k.plain ∧ t'.ops = t.ops := by
  obtain ⟨ops, bls, oids, cids, lengths, attrnames, attrnames2, pbls, psts, pattrvals,
    pattrsets⟩ := t
  rcases cids with _ | ⟨x, cids⟩ <;>
    rcases attrnames with _ | ⟨x, attrnames⟩ <;>
    first
      | (cases h; done)
      | (cases h; exact ⟨_, rfl, ⟨rfl, Or.inr rfl⟩, rfl⟩)

/-- Every iteration of the `switch` that completes adds exactly one call to the log of the
recording backend, a per-operation call with no completion or the null one, and leaves the
queued codes alone. -/
theorem recorder_dispatch_op (ret : List Call → Int) (op : Int) (t t' : Transaction)
    (s s' : Recorder) (h : dispatch_op (recorder ret) op t s = .ok (t', s')) :
    ∃ k, s'.log = s.log ++ [k] ∧ k.plain ∧ t'.ops = t.ops := by
  by_cases h0 : op = OP_READ
  · subst h0
    exact recorder_dispatch_READ ret t t' s s' h
  by_cases h1 : op = OP_STAT
  · subst h1
    exact recorder_dispatch_STAT ret t t' s s' h
  by_cases h2 : op = OP_GETATTR
  · subst h2
    exact recorder_dispatch_GETATTR ret t t' s s' h
  by_cases h3 : op = OP_GETATTRS
  · subst h3
    exact recorder_dispatch_GETATTRS ret t t' s s' h
  by_cases h4 : op = OP_WRITE
  · subst h4
    exact recorder_dispatch_WRITE ret t t' s s' h
  by_cases h5 : op = OP_ZERO
  · subst h5
    exact recorder_dispatch_ZERO ret t t' s s' h
  by_cases h6 : op = OP_TRIMCACHE
  · subst h6
    exact recorder_dispatch_TRIMCACHE ret t t' s s' h
  by_cases h7 : op = OP_TRUNCATE
  · subst h7
    exact recorder_dispatch_TRUNCATE ret t t' s s' h
  by_cases h8 : op = OP_REMOVE
  · subst h8
    exact recorder_dispatch_REMOVE ret t t' s s' h
  by_cases h9 : op = OP_SETATTR
  · subst h9
    exact recorder_dispatch_SETATTR ret t t' s s' h
  by_cases h10 : op = OP_SETATTRS
  · subst h10
    exact recorder_dispatch_SETATTRS ret t t' s s' h
  by_cases h11 : op = OP_RMATTR
  · subst h11
    exact recorder_dispatch_RMATTR ret t t' s s' h
  by_cases h12 : op = OP_CLONE
  · subst h12
    exact recorder_dispatch_CLONE ret t t' s s' h
  by_cases h13 : op = OP_MKCOLL
  · subst h13
    exact recorder_dispatch_MKCOLL ret t t' s s' h
  by_cases h14 : op = OP_RMCOLL
  · subst h14
    exact recorder_dispatch_RMCOLL ret t t' s s' h
  by_cases h15 : op = OP_COLL_ADD
  · subst h15
    exact recorder_dispatch_COLL_ADD ret t t' s s' h
  by_cases h16 : op = OP_COLL_REMOVE
  · subst h16
    exact recorder_dispatch_COLL_REMOVE ret t t' s s' h
  by_cases h17 : op = OP_COLL_SETATTR
  · subst h17
    exact recorder_dispatch_COLL_SETATTR ret t t' s s' h
  by_cases h18 : op = OP_COLL_RMATTR
  · subst h18
    exact recorder_dispatch_COLL_RMATTR ret t t' s s' h
  simp only [dispatch_op, h0, h1, h2, h3, h4, h5, h6, h7, h8, h9, h10, h11, h12, h13, h14, h15, h16, h17, h18, if_false] at h
  cases h

/-- A loop that completes has added one such call per code it consumed. -/
theorem recorder_while_have_op (ret : List Call → Int) (n : Nat) (t t' : Transaction)
    (s s' : Recorder) (h : while_have_op (recorder ret) n t s = .ok (t', s')) :
    ∃ calls, s'.log = s.log ++ calls ∧ (∀ k ∈ calls, k.plain)
      ∧ calls.length + t'.ops.length = t.ops.length := by
  induction n generalizing t s with
  | zero =>
    simp only [while_have_op] at h
    split_ifs at h
    cases h
    exact ⟨[], by simp, by simp, by simp⟩
  | succ n ih =>
    rw [while_have_op] at h
    split_ifs at h with hop
    · obtain ⟨ops, bls, oids, cids, lengths, attrnames, attrnames2, pbls, psts, pattrvals,
        pattrsets⟩ := t
      rcases ops with _ | ⟨op, ops⟩
      · simp [have_op] at hop
      · simp only [get_op, pop, Option.map, fetched] at h
        split at h
        · cases h
        · rename_i t1 s1 hd
          obtain ⟨k, hk1, hk2, hk3⟩ := recorder_dispatch_op ret op _ t1 s s1 hd
          obtain ⟨calls, hc1, hc2, hc3⟩ := ih t1 s1 h
          refine ⟨k :: calls, ?_, ?_, ?_⟩
          · rw [hc1, hk1]; simp
          · intro x hx
            rcases List.mem_cons.1 hx with rfl | hx
            · exact hk2
            · exact hc2 x hx
          · simp only [List.length_cons] at hc3 ⊢
            rw [hk3] at hc3
            simp only at hc3
            omega
    · cases h
      exact ⟨[], by simp, by simp, by simp⟩

/-- A loop that completes leaves no code queued. -/
theorem while_have_op_exhausts (S : ObjectStore σ) (n : Nat) (t t' : Transaction) (s s' : σ)
    (h : while_have_op S n t s = .ok (t', s')) : t'.ops = [] := by
  induction n generalizing t s with
  | zero =>
    simp only [while_have_op] at h
    split_ifs at h with hop
    cases h
    cases hq : t'.ops with
    | nil => rfl
    | cons a l => simp [have_op, hq] at hop
  | succ n ih =>
    rw [while_have_op] at h
    split_ifs at h with hop
    · cases hg : t.get_op with
      | none => simp [hg, fetched] at h
      | some p =>
        simp only [hg, fetched] at h
        split at h
        · cases h
        · exact ih _ _ h
    · cases h
      cases hq : t'.ops with
      | nil => rfl
      | cons a l => simp [have_op, hq] at hop

theorem count_sync_of_plain (calls : List Call) (p : Ptr) (h : ∀ k ∈ calls, k.plain) :
    calls.count (Call.sync p) = 0 := by
  rw [List.count_eq_zero]
  intro hmem
  have := (h _ hmem).1
  simp [Call.is_operation] at this

/-- With their operands in the queues, the loop dispatches a run of codes and goes on with
whatever codes follow; what it has done by then does not depend on these. -/
theorem while_have_op_codes (S : ObjectStore σ) (codes : List Int) (q : Transaction) (s : σ)
    (hav : operands_available codes q = true) :
    ∃ (q' : Transaction) (s' : σ), ∀ (rest : List Int) (m : Nat),
      while_have_op S (codes.length + m) { q with ops := codes ++ rest } s
        = while_have_op S m { q' with ops := rest } s' := by
  induction codes generalizing q s with
  | nil =>
    refine ⟨q, s, fun rest m => ?_⟩
    simp
  | cons op codes ih =>
    simp only [operands_available] at hav
    cases ha : arity op with
    | none => simp [ha] at hav
    | some a =>
      simp only [ha, Bool.and_eq_true] at hav
      obtain ⟨q', s', h⟩ := ih (q.drop a) (effect S op q s) hav.2
      refine ⟨q', s', fun rest m => ?_⟩
      have e : (op :: codes).length + m = (codes.length + m) + 1 := by
        simp only [List.length_cons]; omega
      rw [e, while_have_op]
      simp only [have_op, List.cons_append, List.isEmpty_cons, Bool.not_false, if_true, get_op,
        pop, Option.map, fetched]
      have hd := dispatch_op_of_holds S op a { q with ops := codes ++ rest } s ha hav.1
      rw [hd]
      exact h rest m

/-- The whole run on a Transaction built by any builder calls: it replays the calls up to the
first one whose code has no case, and returns if there is none. -/
theorem apply_transaction_build_any (S : ObjectStore σ) (cs : List Builder) (onsafe : Ptr)
    (s : σ) (hw : ∀ c ∈ cs, c.wf) :
    apply_transaction S (build cs) onsafe s
      = if cs.all Builder.has_case = true then
          .ok (0, {},
            let r := S.invoke .transaction_start s
            let s2 := (S.invoke (.transaction_end r.1)
              (direct_all S (cs.takeWhile Builder.has_case) r.2)).2
            if onsafe ≠ 0 then (S.invoke (.sync onsafe) s2).2 else s2)
        else
          .error (Fault.bad_op 26,
            direct_all S (cs.takeWhile Builder.has_case) (S.invoke .transaction_start s).2) := by
  by_cases hall : cs.all Builder.has_case = true
  · have hc : ∀ c ∈ cs, c.has_case = true := by simpa using hall
    have e : cs.takeWhile Builder.has_case = cs := by
      rw [List.takeWhile_eq_self_iff]
      exact hc
    rw [if_pos hall, e]
    have h := apply_transaction_build S cs {} onsafe s rfl hc hw
    rwa [Transaction.append_empty] at h
  · rw [if_neg hall]
    have hsplit := List.takeWhile_append_dropWhile Builder.has_case cs
    cases hd : cs.dropWhile Builder.has_case with
    | nil =>
      exfalso
      apply hall
      rw [hd, List.append_nil] at hsplit
      rw [List.all_eq_true]
      intro c hc
      rw [← hsplit] at hc
      exact List.mem_takeWhile_imp hc
    | cons c post =>
      have hcf : c.has_case = false := by
        have := List.head_dropWhile_not Builder.has_case cs
          (by rw [hd]; exact List.cons_ne_nil _ _)
        simpa [hd] using this
      have hpre : ∀ x ∈ cs.takeWhile Builder.has_case, x.has_case = true :=
        fun x hx => List.mem_takeWhile_imp hx
      have hprew : ∀ x ∈ cs.takeWhile Builder.has_case, x.wf :=
        fun x hx => hw x (List.takeWhile_subset _ hx)
      have eb : build cs = (build (cs.takeWhile Builder.has_case)).append
          ((Builder.apply {} c).append (build post)) := by
        conv_lhs => rw [← hsplit, hd]
        rw [build_append, build_cons]
      have el : (build cs).ops.length
          = (cs.takeWhile Builder.has_case).length + (post.length + 1) := by
        rw [build_ops_length]
        conv_lhs => rw [← hsplit, hd]
        simp
      unfold apply_transaction
      dsimp only
      rw [el, eb, while_have_op_build S _ _ _ _ hpre hprew,
        while_have_op_no_case S c _ _ _ hcf]

theorem erase_size_call (c : Builder) (size : Nat) : (c.call size).erase_size = c.call 0 := by
  cases c <;> rfl

theorem hooks_direct_log (ret : List Call → Int) (c : Builder) (s : Recorder) :
    ∃ size, (direct (default_hooks (recorder ret)) c s).log = s.log ++ [c.call size] := by
  cases c <;> first
    | exact ⟨0, rfl⟩
    | exact ⟨_, rfl⟩

theorem hooks_direct_all_erased (ret : List Call → Int) (cs : List Builder) (s : Recorder) :
    (direct_all (default_hooks (recorder ret)) cs s).log.map Call.erase_size
      = s.log.map Call.erase_size ++ cs.map (fun c => c.call 0) := by
  induction cs generalizing s with
  | nil => simp [direct_all]
  | cons c cs ih =>
    obtain ⟨size, h1⟩ := hooks_direct_log ret c s
    have h2 := ih (direct (default_hooks (recorder ret)) c s)
    simp only [direct_all, List.foldl_cons] at h2 ⊢
    rw [h2, h1]
    simp [erase_size_call]


/-! ## Counting iterations -/

/-- A loop that completes has made one iteration per code that was queued. -/
theorem iterations_of_ok (S : ObjectStore σ) (n : Nat) (t t' : Transaction) (s s' : σ)
    (h : while_have_op S n t s = .ok (t', s')) : iterations S n t s = t.ops.length := by
  induction n generalizing t s with
  | zero =>
    simp only [while_have_op] at h
    split_ifs at h with hop
    cases h
    cases hq : t'.ops with
    | nil => simp [iterations]
    | cons a l => simp [have_op, hq] at hop
  | succ n ih =>
    rw [while_have_op] at h
    rw [iterations]
    split_ifs at h with hop
    · obtain ⟨ops, bls, oids, cids, lengths, attrnames, attrnames2, pbls, psts, pattrvals,
        pattrsets⟩ := t
      rcases ops with _ | ⟨op, ops⟩
      · simp [have_op] at hop
      · simp only [get_op, pop, Option.map, fetched] at h
        simp only [have_op, List.isEmpty_cons, Bool.not_false, if_true, get_op, pop, Option.map,
          List.length_cons]
        rcases dispatch_outcome S op
          { ops := ops, bls := bls, oids := oids, cids := cids, lengths := lengths,
            attrnames := attrnames, attrnames2 := attrnames2, pbls := pbls, psts := psts,
            pattrvals := pattrvals, pattrsets := pattrsets } s with ⟨t1, s1, hd, ho⟩ | hd | hd
        · rw [hd] at h
          rw [hd]
          simp only []
          rw [ih t1 s1 h, ho]
          simp only []
          omega
        · rw [hd] at h
          cases h
        · rw [hd] at h
          cases h
    · cases h
      rw [if_neg hop]
      cases hq : t'.ops with
      | nil => rfl
      | cons a l => simp [have_op, hq] at hop

/-- The loop never makes more iterations than codes are queued. -/
theorem iterations_le (S : ObjectStore σ) (n : Nat) (t : Transaction) (s : σ) :
    iterations S n t s ≤ t.ops.length := by
  induction n generalizing t s with
  | zero => simp [iterations]
  | succ n ih =>
    rw [iterations]
    obtain ⟨ops, bls, oids, cids, lengths, attrnames, attrnames2, pbls, psts, pattrvals,
      pattrsets⟩ := t
    rcases ops with _ | ⟨op, ops⟩
    · simp [have_op]
    · simp only [have_op, List.isEmpty_cons, Bool.not_false, if_true, get_op, pop, Option.map,
        List.length_cons]
      rcases dispatch_outcome S op
        { ops := ops, bls := bls, oids := oids, cids := cids, lengths := lengths,
          attrnames := attrnames, attrnames2 := attrnames2, pbls := pbls, psts := psts,
          pattrvals := pattrvals, pattrsets := pattrsets } s with ⟨t1, s1, hd, ho⟩ | hd | hd
      · rw [hd]
        simp only []
        have := ih t1 s1
        rw [ho] at this
        simp only at this
        omega
      · rw [hd]
        simp
      · rw [hd]
        simp

/-- With the operands of all its codes in the queues, the run returns. -/
theorem apply_transaction_of_available (S : ObjectStore σ) (t : Transaction) (onsafe : Ptr)
    (s : σ) (hav : operands_available t.ops t = true) :
    ∃ r, apply_transaction S t onsafe s = .ok r := by
  obtain ⟨q', s', h⟩ := while_have_op_codes S t.ops t (S.invoke .transaction_start s).2 hav
  have h0 := h [] 0
  simp only [List.append_nil, Nat.add_zero] at h0
  unfold apply_transaction
  dsimp only
  rw [h0]
  exact ⟨_, rfl⟩

/-- The queues hold the operands of `n` `OP_MKCOLL` codes when they hold `n` collection
ids. -/
theorem operands_available_mkcoll (n : Nat) (t : Transaction) (h : n ≤ t.cids.length) :
    operands_available (List.replicate n OP_MKCOLL) t = true := by
  induction n generalizing t with
  | zero => rfl
  | succ n ih =>
    have ha : arity OP_MKCOLL = some { cids := 1 } := rfl
    rw [List.replicate_succ, operands_available, ha]
    simp only [Bool.and_eq_true]
    refine ⟨?_, ih _ ?_⟩
    · simp only [Transaction.holds, Nat.zero_le, decide_True, Bool.true_and, Bool.and_true,
        decide_eq_true_eq]
      omega
    · simp only [Transaction.drop, List.length_drop]
      omega

theorem get_num_ops_of_lt (t : Transaction) (h : t.ops.length < 2147483648) :
    t.get_num_ops = t.ops.length := by
  unfold get_num_ops int_t
  omega

/-- A run that returns has made one iteration per code that was queued. -/
theorem apply_iterations_of_ok (S : ObjectStore σ) (t : Transaction) (onsafe : Ptr) (s : σ)
    (r : Nat × Transaction × σ) (h : apply_transaction S t onsafe s = .ok r) :
    apply_iterations S t s = t.ops.length ∧ r.2.1.ops = [] := by
  unfold apply_transaction at h
  dsimp only at h
  split at h
  · cases h
  · rename_i t1 s1 hw
    cases h
    exact ⟨iterations_of_ok S _ _ _ _ _ hw, while_have_op_exhausts S _ _ _ _ _ hw⟩

/-! ## Builders, codes and signatures -/

theorem apply_ops (c : Builder) : (Builder.apply {} c).ops = [c.code] := by
  cases c <;> rfl

theorem apply_counts (c : Builder) : (Builder.apply {} c).counts = c.signature := by
  cases c <;> rfl

theorem apply_attrnames2 (c : Builder) : (Builder.apply {} c).attrnames2 = [] := by
  cases c <;> rfl

theorem int8_t_code (c : Builder) : int8_t c.code = c.code := by
  cases c <;> rfl

theorem build_ops (cs : List Builder) : (build cs).ops = cs.map Builder.code := by
  induction cs with
  | nil => rfl
  | cons c cs ih =>
    rw [build_cons]
    simp [Transaction.append, apply_ops, ih]

/-- Successive `get_op()` calls return the queued codes, oldest first, and remove nothing
else. -/
theorem get_ops_append (l rest : List Int) (t : Transaction) (h : t.ops = l ++ rest) :
    t.get_ops l.length = some (l, { t with ops := rest }) := by
  induction l generalizing t with
  | nil =>
    simp only [List.nil_append] at h
    simp only [List.length_nil, get_ops, ← h]
  | cons x l ih =>
    simp only [List.length_cons, get_ops, get_op, h, List.cons_append, pop, Option.map]
    rw [ih { t with ops := l ++ rest } rfl]

/-! ## The log of a whole run -/

/-- A run that returns, seen from the recording backend: `transaction_start`, one
per-operation call per queued code, `transaction_end` with the value that
`transaction_start` returned, then `sync` if a completion was given. -/
theorem recorder_apply_transaction (ret : List Call → Int) (t : Transaction) (onsafe : Ptr)
    (s : Recorder) (r : Nat × Transaction × Recorder)
    (h : apply_transaction (recorder ret) t onsafe s = .ok r) :
    ∃ calls,
      r.2.2.log = s.log ++ [Call.transaction_start] ++ calls
          ++ [Call.transaction_end (ret (s.log ++ [Call.transaction_start]))]
          ++ (if onsafe ≠ 0 then [Call.sync onsafe] else [])
      ∧ (∀ k ∈ calls, k.plain) ∧ calls.length = t.ops.length := by
  unfold apply_transaction at h
  dsimp only at h
  split at h
  · cases h
  · rename_i t1 s1 hw
    obtain ⟨calls, hc1, hc2, hc3⟩ := recorder_while_have_op ret _ t t1 _ s1 hw
    have hlen : calls.length = t.ops.length := by
      have e := while_have_op_exhausts _ _ _ _ _ _ hw
      rw [e] at hc3
      simpa using hc3
    cases h
    have hlog : s1.log = s.log ++ [Call.transaction_start] ++ calls := by
      rw [hc1]; rfl
    refine ⟨calls, ?_, hc2, hlen⟩
    by_cases ho : onsafe = 0
    · simp [ho, recorder, hlog]
    · simp [ho, recorder, hlog]

theorem count_of_plain (calls : List Call) (k : Call) (hk : k.is_operation = false)
    (h : ∀ x ∈ calls, x.plain) : calls.count k = 0 := by
  rw [List.count_eq_zero]
  intro hmem
  have := (h _ hmem).1
  rw [hk] at this
  cases this

/-! ## Decoding into a Transaction that is not fresh -/

/-- Decoding into a Transaction `t0` gives what decoding into a fresh one gives, with the
names that `t0` held in front of the decoded names and the output handles of `t0`. -/
theorem decode_into (E : Encoding) (t0 : Transaction) (bl : List Nat) :
    Transaction.decode E t0 bl
      = (Transaction.decode E {} bl).map fun r =>
          ({ r.1 with
             attrnames := t0.attrnames ++ r.1.attrnames
             pbls := t0.pbls
             psts := t0.psts
             pattrvals := t0.pattrvals
             pattrsets := t0.pattrsets }, r.2) := by
  unfold Transaction.decode
  cases E.ops.dec bl with
  | none => rfl
  | some r1 =>
    simp only []
    cases E.bls.dec r1.2 with
    | none => rfl
    | some r2 =>
      simp only []
      cases E.oids.dec r2.2 with
      | none => rfl
      | some r3 =>
        simp only []
        cases E.cids.dec r3.2 with
        | none => rfl
        | some r4 =>
          simp only []
          cases E.lengths.dec r4.2 with
          | none => rfl
          | some r5 =>
            simp only []
            cases E.attrnames.dec r5.2 with
            | none => rfl
            | some r6 => simp
/-! # The claims -/

/-! ## C1 -/

/-- C1: a Transaction built from a fresh one by builder calls whose codes have a dispatcher
case (arguments being values of their C++ types) is replayed by `apply_transaction` as the
matching interface calls, one per builder call, in the order of the builder calls and with
the operands that were given: the run returns with every queue empty and leaves the outside
state that the direct calls `direct_all` leave between `transaction_start` and
`transaction_end`; against the recording backend the calls logged between the two hooks
are, one for one and in order, the calls matching the builder calls; and two writes
followed by a read reach the backend in exactly that order. -/
theorem apply_transaction_replays_builder_calls (cs : List Builder)
    (hcase : ∀ c ∈ cs, c.has_case = true) (hwf : ∀ c ∈ cs, c.wf) :
    (∀ (τ : Type) (S : ObjectStore τ) (onsafe : Ptr) (s : τ),
      apply_transaction S (build cs) onsafe s
        = .ok (0, {},
            let r := S.invoke .transaction_start s
            let s2 := (S.invoke (.transaction_end r.1) (direct_all S cs r.2)).2
            if onsafe ≠ 0 then (S.invoke (.sync onsafe) s2).2 else s2))
    ∧ (∀ (ret : List Call → Int) (s : Recorder), ∃ calls id,
        calls_of (apply_transaction (recorder ret) (build cs) 0 s)
          = s.log ++ [Call.transaction_start] ++ calls ++ [Call.transaction_end id]
        ∧ List.Forall₂ (fun c k => ∃ size, k = c.call size) cs calls)
    ∧ (∀ (ret : List Call → Int),
        calls_of (apply_transaction (recorder ret)
            (build [.write 1 2 0 4 [65, 65, 65, 65], .write 1 2 0 4 [66, 66, 66, 66],
              .read 1 2 0 4 9]) 0 {})
          = [Call.transaction_start, Call.write 1 2 0 4 [65, 65, 65, 65] 0,
              Call.write 1 2 0 4 [66, 66, 66, 66] 0, Call.read 1 2 0 4 9,
              Call.transaction_end (ret [Call.transaction_start])]) := by
  have key : ∀ (τ : Type) (S : ObjectStore τ) (onsafe : Ptr) (s : τ),
      apply_transaction S (build cs) onsafe s
        = .ok (0, {},
            let r := S.invoke .transaction_start s
            let s2 := (S.invoke (.transaction_end r.1) (direct_all S cs r.2)).2
            if onsafe ≠ 0 then (S.invoke (.sync onsafe) s2).2 else s2) := by
    intro τ S onsafe s
    have h := apply_transaction_build S cs {} onsafe s rfl hcase hwf
    rwa [Transaction.append_empty] at h
  refine ⟨key, ?_, ?_⟩
  · intro ret s
    obtain ⟨calls, h1, h2⟩ :=
      recorder_direct_all_log ret cs ((recorder ret).invoke .transaction_start s).2
    refine ⟨calls, ((recorder ret).invoke .transaction_start s).1, ?_, h2⟩
    rw [key]
    simp only [calls_of, ne_eq, not_true_eq_false, if_false]
    show (direct_all (recorder ret) cs _).log ++ [_] = _
    rw [h1]
    rfl
  · intro ret
    rfl

/-- C1 at a concrete script: two writes and a read. -/
theorem apply_transaction_replays_builder_calls_witness :
    (∀ c ∈ [Builder.write 1 2 0 4 [65, 65, 65, 65], Builder.write 1 2 0 4 [66, 66, 66, 66],
        Builder.read 1 2 0 4 9], c.has_case = true)
    ∧ (∀ c ∈ [Builder.write 1 2 0 4 [65, 65, 65, 65], Builder.write 1 2 0 4 [66, 66, 66, 66],
        Builder.read 1 2 0 4 9], c.wf)
    ∧ apply_transaction (recorder fun _ => 0)
        (build [.write 1 2 0 4 [65, 65, 65, 65], .write 1 2 0 4 [66, 66, 66, 66],
          .read 1 2 0 4 9]) 0 {}
      = .ok (0, {},
          { log := [Call.transaction_start, Call.write 1 2 0 4 [65, 65, 65, 65] 0,
              Call.write 1 2 0 4 [66, 66, 66, 66] 0, Call.read 1 2 0 4 9,
              Call.transaction_end 0] }) :=
  ⟨by decide, by decide,
    ((apply_transaction_replays_builder_calls _ (by decide) (by decide)).1 Recorder
      (recorder fun _ => 0) 0 {}).trans rfl⟩

/-! ## C2 -/

/-- C2: the code violates the arity symmetry for `OP_COLL_SETATTRS`: the builder
`collection_setattrs` queues the code, a collection id and an attribute-set handle, and the
dispatcher has no case for the code, so a run on the Transaction built by that one call
stops on the bad-op assertion, right after `transaction_start` and with the two operands
still queued. -/
theorem apply_transaction_collection_setattrs_bad_op (τ : Type) (S : ObjectStore τ)
    (cid : coll_t) (aset : Ptr) (onsafe : Ptr) (s : τ) :
    apply_transaction S (({} : Transaction).collection_setattrs cid aset) onsafe s
        = .error (Fault.bad_op Transaction.OP_COLL_SETATTRS,
            (S.invoke .transaction_start s).2)
    ∧ (({} : Transaction).collection_setattrs cid aset).cids = [cid]
    ∧ (({} : Transaction).collection_setattrs cid aset).pattrsets = [aset]
    ∧ arity Transaction.OP_COLL_SETATTRS = none := by
  refine ⟨?_, rfl, rfl, rfl⟩
  rfl

/-! ## C3 -/

/-- C3, as the code has it: a Transaction built by builder calls whose operands are all
serialized (write, zero, trim_from_cache, truncate, remove, setattr, rmattr, clone,
create_collection, remove_collection, collection_add, collection_remove,
collection_setattr, collection_rmattr; arguments being values of their C++ types), encoded
and decoded by list codecs that read back its queues, is replayed by
`apply_transaction` exactly as the original Transaction is: both runs return `0` and leave
the same outside state on every backend, so the same calls with the same operands in the
same order reach the recording backend. -/
theorem round_trip_replay_of_serialized_builders (E : Encoding) (cs : List Builder)
    (hser : ∀ c ∈ cs, c.serialized = true) (hwf : ∀ c ∈ cs, c.wf)
    (hrt : E.RoundTrips (build cs)) :
    ∃ t', Transaction.from_bufferlist E ((build cs).encode E []) = some t'
      ∧ (∀ (τ : Type) (S : ObjectStore τ) (onsafe : Ptr) (s : τ), ∃ r,
          apply_transaction S (build cs) onsafe s = .ok (0, {}, r)
          ∧ apply_transaction S t' onsafe s = .ok (0, { attrnames2 := t'.attrnames2 }, r))
      ∧ (∀ (ret : List Call → Int) (onsafe : Ptr) (s : Recorder),
          calls_of (apply_transaction (recorder ret) t' onsafe s)
            = calls_of (apply_transaction (recorder ret) (build cs) onsafe s)) := by
  obtain ⟨h1, h2, h3, h4, h5⟩ := build_serialized_handles cs hser
  have hcase : ∀ c ∈ cs, c.has_case = true := fun c hc => serialized_has_case c (hser c hc)
  have hdec := decode_encode E (build cs) {} [] hrt
  rw [List.append_nil] at hdec
  have hdec' : Transaction.decode E {} ((build cs).encode E [])
      = some ((build cs).append { attrnames2 := (build cs).attrnames }, []) := by
    rw [hdec]
    simp [Transaction.append, h1, h2, h3, h4, h5]
  have key : ∀ (τ : Type) (S : ObjectStore τ) (onsafe : Ptr) (s : τ), ∃ r,
      apply_transaction S (build cs) onsafe s = .ok (0, {}, r)
      ∧ apply_transaction S ((build cs).append { attrnames2 := (build cs).attrnames })
          onsafe s = .ok (0, { attrnames2 := (build cs).attrnames }, r) := by
    intro τ S onsafe s
    have a := apply_transaction_build S cs {} onsafe s rfl hcase hwf
    rw [Transaction.append_empty] at a
    exact ⟨_, a, apply_transaction_build S cs _ onsafe s rfl hcase hwf⟩
  refine ⟨(build cs).append { attrnames2 := (build cs).attrnames }, ?_, ?_, ?_⟩
  · simp only [Transaction.from_bufferlist, hdec', Option.map]
  · intro τ S onsafe s
    obtain ⟨r, a, b⟩ := key τ S onsafe s
    exact ⟨r, a, by rw [b]; simp [Transaction.append, h5]⟩
  · intro ret onsafe s
    obtain ⟨r, a, b⟩ := key Recorder (recorder ret) onsafe s
    rw [a, b]
    rfl

/-- C3, as the code has it, at a Transaction holding a write and a setattr under the
reference encoding. -/
theorem round_trip_replay_of_serialized_builders_witness :
    (∀ c ∈ [Builder.write 1 2 0 4 [65, 65, 65, 65], Builder.setattr 1 2 "a" [7, 8] 1],
        c.serialized = true)
    ∧ (∀ c ∈ [Builder.write 1 2 0 4 [65, 65, 65, 65], Builder.setattr 1 2 "a" [7, 8] 1], c.wf)
    ∧ reference_encoding.RoundTrips
        (build [.write 1 2 0 4 [65, 65, 65, 65], .setattr 1 2 "a" [7, 8] 1])
    ∧ ∃ t', Transaction.from_bufferlist reference_encoding
          ((build [.write 1 2 0 4 [65, 65, 65, 65], .setattr 1 2 "a" [7, 8] 1]).encode
            reference_encoding []) = some t'
      ∧ (∀ (τ : Type) (S : ObjectStore τ) (onsafe : Ptr) (s : τ), ∃ r,
          apply_transaction S
              (build [.write 1 2 0 4 [65, 65, 65, 65], .setattr 1 2 "a" [7, 8] 1]) onsafe s
            = .ok (0, {}, r)
          ∧ apply_transaction S t' onsafe s = .ok (0, { attrnames2 := t'.attrnames2 }, r))
      ∧ (∀ (ret : List Call → Int) (onsafe : Ptr) (s : Recorder),
          calls_of (apply_transaction (recorder ret) t' onsafe s)
            = calls_of (apply_transaction (recorder ret)
                (build [.write 1 2 0 4 [65, 65, 65, 65], .setattr 1 2 "a" [7, 8] 1])
                onsafe s)) :=
  ⟨by decide, by decide, reference_encoding_round_trips_example,
    round_trip_replay_of_serialized_builders reference_encoding _ (by decide) (by decide)
      reference_encoding_round_trips_example⟩

/-- C3 fails as stated: a Transaction holding a read, encoded and decoded, has lost the
output handle; replaying it removes from the empty handle queue before any call, while
replaying the original issues the read. -/
theorem round_trip_replay_fails_for_read :
    Transaction.from_bufferlist reference_encoding
        ((build [.read 1 2 0 4 9]).encode reference_encoding [])
      = some { ops := [1], oids := [2], cids := [1], lengths := [0, 4] }
    ∧ apply_transaction (recorder fun _ => 0)
        { ops := [1], oids := [2], cids := [1], lengths := [0, 4] } 0 {}
      = .error (Fault.undefined, { log := [Call.transaction_start] })
    ∧ apply_transaction (recorder fun _ => 0) (build [.read 1 2 0 4 9]) 0 {}
      = .ok (0, {},
          { log := [Call.transaction_start, Call.read 1 2 0 4 9, Call.transaction_end 0] })
    ∧ calls_of (apply_transaction (recorder fun _ => 0)
          { ops := [1], oids := [2], cids := [1], lengths := [0, 4] } 0 {})
      ≠ calls_of (apply_transaction (recorder fun _ => 0) (build [.read 1 2 0 4 9]) 0 {}) := by
  refine ⟨rfl, rfl, rfl, ?_⟩
  decide

/-! ## C4 -/

/-- C4: when the list codecs read back the six serialized queues of `t`, decoding the bytes written by `t.encode` into a freshly constructed
Transaction succeeds, consumes exactly those bytes, and gives the same op-code, byte-block,
object-id, collection-id and length/offset queues and the same attribute names, entry by
entry, as strings. -/
theorem decode_encode_reconstructs_queues (E : Encoding) (t : Transaction) (rest : List Nat)
    (h : E.RoundTrips t) :
    ∃ t', Transaction.decode E {} (t.encode E [] ++ rest) = some (t', rest)
      ∧ Transaction.from_bufferlist E (t.encode E []) = some t'
      ∧ t'.ops = t.ops ∧ t'.bls = t.bls ∧ t'.oids = t.oids ∧ t'.cids = t.cids
      ∧ t'.lengths = t.lengths
      ∧ t'.attrnames.length = t.attrnames.length
      ∧ (∀ i : Nat, t'.attrnames[i]? = t.attrnames[i]?) := by
  refine ⟨_, decode_encode E t {} rest h, ?_, rfl, rfl, rfl, rfl, rfl, ?_, ?_⟩
  · have h0 := decode_encode E t {} [] h
    rw [List.append_nil] at h0
    simp [Transaction.from_bufferlist, h0]
  · simp
  · intro i
    simp

/-- C4 at a Transaction holding a write and a setattr, under the reference encoding. -/
theorem decode_encode_reconstructs_queues_witness :
    reference_encoding.RoundTrips
        (build [.write 1 2 0 4 [65, 65, 65, 65], .setattr 1 2 "a" [7, 8] 1])
    ∧ ∃ t', Transaction.decode reference_encoding {}
          ((build [.write 1 2 0 4 [65, 65, 65, 65], .setattr 1 2 "a" [7, 8] 1]).encode
            reference_encoding [] ++ [])
          = some (t', [])
      ∧ Transaction.from_bufferlist reference_encoding
          ((build [.write 1 2 0 4 [65, 65, 65, 65], .setattr 1 2 "a" [7, 8] 1]).encode
            reference_encoding [])
          = some t'
      ∧ t'.ops = [10, 14] ∧ t'.bls = [[65, 65, 65, 65], [7]] ∧ t'.oids = [2, 2]
      ∧ t'.cids = [1, 1] ∧ t'.lengths = [0, 4]
      ∧ t'.attrnames.length = 1
      ∧ (∀ i : Nat, t'.attrnames[i]? = ["a"][i]?) :=
  ⟨reference_encoding_round_trips_example,
    decode_encode_reconstructs_queues reference_encoding _ []
      reference_encoding_round_trips_example⟩

/-! ## C5 -/

/-- C5: `encode` appends to the buffer the list encodings of the op-code sequence, the
byte-block queue, the object-id queue, the collection-id queue, the length/offset queue and
the attribute-name queue, in this order, and nothing else (with the length-prefixed list
codec each of them is the number of elements followed by the elements); a Transaction that
agrees with `t` on these six queues encodes to the same bytes, whatever its output-handle
queues hold. -/
theorem encode_wire_format (E : Encoding) (t u : Transaction) (b : List Nat)
    (hops : u.ops = t.ops) (hbls : u.bls = t.bls) (hoids : u.oids = t.oids)
    (hcids : u.cids = t.cids) (hlengths : u.lengths = t.lengths)
    (hnames : u.attrnames = t.attrnames) :
    t.encode E b
        = b ++ E.ops.enc t.ops ++ E.bls.enc t.bls ++ E.oids.enc t.oids ++ E.cids.enc t.cids
          ++ E.lengths.enc t.lengths ++ E.attrnames.enc t.attrnames
    ∧ (∀ {α : Type} (n : Codec Nat) (c : Codec α) (ls : List α),
        (length_prefixed n c).enc ls = n.enc ls.length ++ encode_elems c ls)
    ∧ u.encode E b = t.encode E b := by
  refine ⟨?_, fun _ _ _ => rfl, ?_⟩
  · rw [encode_eq]
    simp
  · rw [encode_eq, encode_eq, hops, hbls, hoids, hcids, hlengths, hnames]

/-- C5 at a Transaction holding a read, compared with the same queues without the output
handle. -/
theorem encode_wire_format_witness :
    (build [.read 1 2 0 4 9]).encode reference_encoding [7]
        = [7] ++ [1, 0, 0, 0, 1] ++ [0, 0, 0, 0] ++ [1, 0, 0, 0, 2, 0, 0, 0, 0, 0, 0, 0]
          ++ [1, 0, 0, 0, 1, 0, 0, 0, 0, 0, 0, 0]
          ++ [2, 0, 0, 0, 0, 0, 0, 0, 0, 0, 0, 0, 4, 0, 0, 0, 0, 0, 0, 0] ++ [0, 0, 0, 0]
    ∧ (build [.read 1 2 0 4 9]).pbls = [9]
    ∧ ({ build [.read 1 2 0 4 9] with pbls := [] } : Transaction).encode reference_encoding [7]
        = (build [.read 1 2 0 4 9]).encode reference_encoding [7] :=
  ⟨((encode_wire_format reference_encoding (build [.read 1 2 0 4 9])
      { build [.read 1 2 0 4 9] with pbls := [] } [7] rfl rfl rfl rfl rfl rfl).1).trans rfl,
    rfl,
    (encode_wire_format reference_encoding (build [.read 1 2 0 4 9])
      { build [.read 1 2 0 4 9] with pbls := [] } [7] rfl rfl rfl rfl rfl rfl).2.2⟩

/-! ## C6 -/

/-- C6: the default `zero(cid, oid, offset, len, onsafe)` is one call
`write(cid, oid, offset, len, B, onsafe)` where `B` is `len` zero bytes (the zero-filled
block is the spec's reading of `bufferptr(len)`), and it returns what that call returns; a
backend that keeps the default receives exactly that one call for a `zero`, also when the
`zero` is dispatched from a Transaction; and on the reference backend, whose write
overwrites the byte range, zeroing three bytes at offset 2 of "XXXXXXX" leaves
"XX\0\0\0XX", as the explicit write of three zero bytes at offset 2 does. -/
theorem zero_default_writes_zeros :
    (∀ (τ : Type) (S : ObjectStore τ) (cid : coll_t) (oid : pobject_t) (offset : Int)
        (len : Nat) (onsafe : Ptr) (s : τ),
      zero S cid oid offset len onsafe s
          = S.invoke (.write cid oid offset len (List.replicate len 0) onsafe) s
        ∧ (default_zero S).invoke (.zero cid oid offset len onsafe) s
          = (default_zero S).invoke (.write cid oid offset len (List.replicate len 0) onsafe) s
        ∧ (List.replicate len 0).length = len
        ∧ (List.replicate len 0).all (fun b => b = 0) = true)
    ∧ (∀ (ret : List Call → Int) (cid : coll_t) (oid : pobject_t) (offset : Int) (len : Nat)
        (onsafe : Ptr) (s : Recorder),
      (default_zero (recorder ret)).invoke (.zero cid oid offset len onsafe) s
        = (ret (s.log ++ [Call.write cid oid offset len (List.replicate len 0) onsafe]),
            { s with
              log := s.log ++ [Call.write cid oid offset len (List.replicate len 0) onsafe] }))
    ∧ (∀ (ret : List Call → Int),
      calls_of (apply_transaction (default_zero (recorder ret))
          (({} : Transaction).zero 1 1 2 3) 0 {})
        = [Call.transaction_start, Call.write 1 1 2 3 [0, 0, 0] 0,
            Call.transaction_end (ret [Call.transaction_start])])
    ∧ ((memstore.invoke (.zero 1 1 2 3 0)
          { objects := [((1, 1), [88, 88, 88, 88, 88, 88, 88])] }).2.content 1 1
        = [88, 88, 0, 0, 0, 88, 88])
    ∧ (memstore.invoke (.zero 1 1 2 3 0)
          { objects := [((1, 1), [88, 88, 88, 88, 88, 88, 88])] })
        = (memstore.invoke (.write 1 1 2 3 [0, 0, 0] 0)
          { objects := [((1, 1), [88, 88, 88, 88, 88, 88, 88])] }) := by
  refine ⟨?_, ?_, ?_, rfl, rfl⟩
  · intro τ S cid oid offset len onsafe s
    refine ⟨rfl, rfl, List.length_replicate _ _, ?_⟩
    simp
  · intro ret cid oid offset len onsafe s
    rfl
  · intro ret
    rfl

/-! ## C7 -/

/-- C7, as the code has it: when the queues hold the operands of the codes `codes` that
precede the first code without a case (each of `codes` has a case, `bad` has none), the run
dispatches `codes` in order, exactly as the Transaction cut before `bad` is dispatched, and
stops on the bad-op assertion in the state `s'` reached by then: nothing is called for
`bad` or a later code, `transaction_end` and `sync` are not called (the recording backend
has logged `transaction_start` and one per-operation call per preceding code), and nothing
is undone.  Conversely, when every queued code has a case and the queues hold the operands
of all of them, the run returns. -/
theorem unrecognized_code_stops_the_batch (τ : Type) (S : ObjectStore τ) (t : Transaction)
    (onsafe : Ptr) (s : τ) (codes : List Int) (hav : operands_available codes t = true) :
    (∀ op ∈ codes, recognized op = true)
    ∧ (∀ (bad : Int) (rest : List Int), t.ops = codes ++ bad :: rest → recognized bad = false →
        ∃ t' s',
          while_have_op S codes.length { t with ops := codes }
              (S.invoke .transaction_start s).2 = .ok (t', s')
          ∧ apply_transaction S t onsafe s = .error (Fault.bad_op bad, s'))
    ∧ (∀ (ret : List Call → Int) (s0 : Recorder) (bad : Int) (rest : List Int),
        t.ops = codes ++ bad :: rest → recognized bad = false →
        ∃ calls s', apply_transaction (recorder ret) t onsafe s0 = .error (Fault.bad_op bad, s')
          ∧ s'.log = s0.log ++ [Call.transaction_start] ++ calls
          ∧ calls.length = codes.length ∧ ∀ k ∈ calls, k.is_operation = true)
    ∧ (t.ops = codes → ∃ r, apply_transaction S t onsafe s = .ok r) := by
  have hrec : ∀ (cs : List Int) (q : Transaction), operands_available cs q = true →
      ∀ op ∈ cs, recognized op = true := by
    intro cs
    induction cs with
    | nil => intro q _ op hop; cases hop
    | cons c cs ih =>
      intro q hq op hop
      simp only [operands_available] at hq
      cases ha : arity c with
      | none => simp [ha] at hq
      | some a =>
        simp only [ha, Bool.and_eq_true] at hq
        rcases List.mem_cons.1 hop with rfl | hop
        · simp [recognized, ha]
        · exact ih _ hq.2 op hop
  have part : ∀ (υ : Type) (S : ObjectStore υ) (s : υ) (bad : Int) (rest : List Int),
      t.ops = codes ++ bad :: rest → recognized bad = false →
        ∃ t' s',
          while_have_op S codes.length { t with ops := codes }
              (S.invoke .transaction_start s).2 = .ok (t', s')
          ∧ apply_transaction S t onsafe s = .error (Fault.bad_op bad, s') := by
    intro υ S s bad rest hops hbad
    obtain ⟨q', s', h⟩ := while_have_op_codes S codes t (S.invoke .transaction_start s).2 hav
    refine ⟨{ q' with ops := [] }, s', ?_, ?_⟩
    · have h0 := h [] 0
      simp only [List.append_nil, Nat.add_zero] at h0
      rw [h0]
      rfl
    · have h1 := h (bad :: rest) (rest.length + 1)
      have et : ({ t with ops := codes ++ bad :: rest } : Transaction) = t := by
        rw [← hops]
      have el : t.ops.length = codes.length + (rest.length + 1) := by
        rw [hops]; simp
      rw [et] at h1
      unfold apply_transaction
      dsimp only
      rw [el, h1, while_have_op]
      simp only [have_op, List.isEmpty_cons, Bool.not_false, if_true, get_op, pop, Option.map,
        fetched, dispatch_op_of_unrecognized S bad _ s' hbad]
  refine ⟨hrec codes t hav, part τ S s, ?_, ?_⟩
  · intro ret s0 bad rest hops hbad
    obtain ⟨t', s', h1, h2⟩ := part Recorder (recorder ret) s0 bad rest hops hbad
    obtain ⟨calls, hc1, hc2, hc3⟩ := recorder_while_have_op ret _ _ t' _ s' h1
    have e := while_have_op_exhausts _ _ _ _ _ _ h1
    refine ⟨calls, s', h2, ?_, ?_, fun k hk => (hc2 k hk).1⟩
    · rw [hc1]; rfl
    · rw [e] at hc3
      simpa using hc3
  · intro hops
    obtain ⟨q', s', h⟩ := while_have_op_codes S codes t (S.invoke .transaction_start s).2 hav
    have h0 := h [] 0
    simp only [List.append_nil, Nat.add_zero] at h0
    have et : ({ t with ops := codes } : Transaction) = t := by
      rw [← hops]
    rw [et] at h0
    unfold apply_transaction
    dsimp only
    rw [hops, h0]
    exact ⟨_, rfl⟩

/-- C7, as the code has it, at a write followed by the unknown code 99 and a remove (on the
recording backend), and at two writable codes alone. -/
theorem unrecognized_code_stops_the_batch_witness :
    operands_available [10]
        { ops := [10, 99, 13], bls := [[65]], oids := [2, 2], cids := [1, 1],
          lengths := [0, 1] } = true
    ∧ recognized 99 = false
    ∧ apply_transaction (recorder fun _ => 0)
        { ops := [10, 99, 13], bls := [[65]], oids := [2, 2], cids := [1, 1],
          lengths := [0, 1] } 7 {}
      = .error (Fault.bad_op 99,
          { log := [Call.transaction_start, Call.write 1 2 0 1 [65] 0] })
    ∧ operands_available [10, 13]
        { ops := [10, 13], bls := [[65]], oids := [2, 2], cids := [1, 1],
          lengths := [0, 1] } = true
    ∧ ∃ r, apply_transaction (recorder fun _ => 0)
        { ops := [10, 13], bls := [[65]], oids := [2, 2], cids := [1, 1],
          lengths := [0, 1] } 7 {} = .ok r := by
  refine ⟨by decide, by decide, ?_, by decide, ?_⟩
  · obtain ⟨t', s', h1, h2⟩ :=
      (unrecognized_code_stops_the_batch Recorder (recorder fun _ => 0)
        { ops := [10, 99, 13], bls := [[65]], oids := [2, 2], cids := [1, 1],
          lengths := [0, 1] } 7 {} [10] (by decide)).2.1 99 [13] rfl (by decide)
    rw [h2]
    cases h1
    rfl
  · exact (unrecognized_code_stops_the_batch Recorder (recorder fun _ => 0)
        { ops := [10, 13], bls := [[65]], oids := [2, 2], cids := [1, 1],
          lengths := [0, 1] } 7 {} [10, 13] (by decide)).2.2.2 rfl

/-- C7 fails as stated: the Transaction, decoded from 26 bytes, holds a remove without its
operands and then the unknown code 99; the run stops on the removal from an empty queue
(undefined in the source), before any per-operation call and without reaching the bad-op
assertion. -/
theorem unrecognized_code_not_reached :
    recognized 13 = true ∧ recognized 99 = false
    ∧ Transaction.from_bufferlist reference_encoding
        [2, 0, 0, 0, 13, 99, 0, 0, 0, 0, 0, 0, 0, 0, 0, 0, 0, 0, 0, 0, 0, 0, 0, 0, 0, 0]
      = some { ops := [13, 99] }
    ∧ apply_transaction (recorder fun _ => 0) { ops := [13, 99] } 0 {}
      = .error (Fault.undefined, { log := [Call.transaction_start] })
    ∧ ¬ ∃ s', apply_transaction (recorder fun _ => 0) { ops := [13, 99] } 0 {}
        = .error (Fault.bad_op 99, s') := by
  refine ⟨by decide, by decide, rfl, rfl, ?_⟩
  rintro ⟨s', h⟩
  have e : apply_transaction (recorder fun _ => 0) { ops := [13, 99] } 0 {}
      = .error (Fault.undefined, { log := [Call.transaction_start] }) := rfl
  rw [e] at h
  cases h

/-! ## C8 -/

/-- C8, as the code has it: against a backend that keeps the default atomic-group hooks, the
calls that `apply_transaction` issues for a Transaction built by builder calls are the same
methods in the same order and with the same operands whatever the calls return, apart from
the `size` operand of `getattr`, which is the `int` found behind `plen` at that moment: the
calls matching the builder calls up to the first one whose code has no case, followed by
`sync` when all have one and a completion is given.  So when an operation in the middle
reports a failure, the operations before it and after it are issued all the same. -/
theorem call_sequence_independent_of_results (cs : List Builder) (onsafe : Ptr)
    (hwf : ∀ c ∈ cs, c.wf) :
    (∀ (ret : List Call → Int) (s : Recorder),
      (calls_of (apply_transaction (default_hooks (recorder ret)) (build cs) onsafe s)).map
          Call.erase_size
        = s.log.map Call.erase_size
          ++ (cs.takeWhile Builder.has_case).map (fun c => c.call 0)
          ++ (if cs.all Builder.has_case = true then
                (if onsafe ≠ 0 then [Call.sync onsafe] else [])
              else []))
    ∧ (∀ (ret1 ret2 : List Call → Int) (s : Recorder),
      (calls_of (apply_transaction (default_hooks (recorder ret1)) (build cs) onsafe s)).map
          Call.erase_size
        = (calls_of (apply_transaction (default_hooks (recorder ret2)) (build cs) onsafe
            s)).map Call.erase_size) := by
  have key : ∀ (ret : List Call → Int) (s : Recorder),
      (calls_of (apply_transaction (default_hooks (recorder ret)) (build cs) onsafe s)).map
          Call.erase_size
        = s.log.map Call.erase_size
          ++ (cs.takeWhile Builder.has_case).map (fun c => c.call 0)
          ++ (if cs.all Builder.has_case = true then
                (if onsafe ≠ 0 then [Call.sync onsafe] else [])
              else []) := by
    intro ret s
    rw [apply_transaction_build_any _ cs onsafe s hwf]
    have h := hooks_direct_all_erased ret (cs.takeWhile Builder.has_case) s
    by_cases hall : cs.all Builder.has_case = true
    · rw [if_pos hall, if_pos hall]
      by_cases ho : onsafe = 0
      · simp only [calls_of, ho, ne_eq, not_true_eq_false, if_false, List.append_nil]
        exact h
      · simp only [calls_of, ho, ne_eq, not_false_eq_true, if_true]
        have e : ∀ x : Recorder,
            ((default_hooks (recorder ret)).invoke (Call.sync onsafe) x).2.log
              = x.log ++ [Call.sync onsafe] := fun _ => rfl
        rw [e, List.map_append]
        exact congrArg (fun l => l ++ [Call.sync onsafe]) h
    · rw [if_neg hall, if_neg hall, List.append_nil]
      exact h
  exact ⟨key, fun ret1 ret2 s => (key ret1 s).trans (key ret2 s).symm⟩

/-- C8, as the code has it, at a write, a getattr and a remove, the backend answering every
call with `0` or every call with `-1`. -/
theorem call_sequence_independent_of_results_witness :
    (∀ c ∈ [Builder.write 1 2 0 1 [65], Builder.getattr 1 2 "a" 100 200, Builder.remove 1 2],
        c.wf)
    ∧ (calls_of (apply_transaction (default_hooks (recorder fun _ => 0))
          (build [.write 1 2 0 1 [65], .getattr 1 2 "a" 100 200, .remove 1 2]) 0 {})).map
          Call.erase_size
        = (calls_of (apply_transaction (default_hooks (recorder fun _ => -1))
          (build [.write 1 2 0 1 [65], .getattr 1 2 "a" 100 200, .remove 1 2]) 0 {})).map
          Call.erase_size
    ∧ calls_of (apply_transaction (default_hooks (recorder fun _ => -1))
          (build [.write 1 2 0 1 [65], .getattr 1 2 "a" 100 200, .remove 1 2]) 0 {})
        = [Call.write 1 2 0 1 [65] 0, Call.getattr 1 2 "a" 100 0, Call.remove 1 2 0] :=
  ⟨by decide,
    (call_sequence_independent_of_results
      [.write 1 2 0 1 [65], .getattr 1 2 "a" 100 200, .remove 1 2] 0 (by decide)).2
      (fun _ => 0) (fun _ => -1) {},
    rfl⟩

/-- C8 fails as stated: two getattr calls through the same length cell; the size operand of
the second call is what the backend returned for the first. -/
theorem call_sequence_depends_on_getattr_result :
    calls_of (apply_transaction (default_hooks (recorder fun _ => 5))
        (build [.getattr 1 2 "a" 100 200, .getattr 1 2 "a" 100 200]) 0 {})
      = [Call.getattr 1 2 "a" 100 0, Call.getattr 1 2 "a" 100 5]
    ∧ calls_of (apply_transaction (default_hooks (recorder fun _ => 7))
        (build [.getattr 1 2 "a" 100 200, .getattr 1 2 "a" 100 200]) 0 {})
      = [Call.getattr 1 2 "a" 100 0, Call.getattr 1 2 "a" 100 7]
    ∧ calls_of (apply_transaction (default_hooks (recorder fun _ => 5))
        (build [.getattr 1 2 "a" 100 200, .getattr 1 2 "a" 100 200]) 0 {})
      ≠ calls_of (apply_transaction (default_hooks (recorder fun _ => 7))
        (build [.getattr 1 2 "a" 100 200, .getattr 1 2 "a" 100 200]) 0 {}) := by
  refine ⟨rfl, rfl, ?_⟩
  decide

/-! ## C9 -/

/-- C9: the code does not count failures: whenever `apply_transaction` returns, it returns
`0`; a write that the backend answers with `-1` is an instance. -/
theorem apply_transaction_returns_zero :
    (∀ (τ : Type) (S : ObjectStore τ) (t : Transaction) (onsafe : Ptr) (s : τ),
      match apply_transaction S t onsafe s with
      | .ok r => r.1 = 0
      | .error _ => True)
    ∧ apply_transaction (recorder fun _ => -1) (build [.write 1 2 0 4 [65, 65, 65, 65]]) 0 {}
      = .ok (0, {},
          { log := [Call.transaction_start, Call.write 1 2 0 4 [65, 65, 65, 65] 0,
              Call.transaction_end (-1)] }) := by
  refine ⟨?_, rfl⟩
  intro τ S t onsafe s
  unfold apply_transaction
  dsimp only
  generalize while_have_op S t.ops.length t (S.invoke Call.transaction_start s).2 = w
  cases w with
  | error e => trivial
  | ok r => rfl

/-! ## C10 -/

/-- C10: a run of `apply_transaction` that dispatches the Transaction to the end (seen from
the recording backend) has called `transaction_start`, then per-operation methods only,
one per queued code and each with no completion or the null completion, then
`transaction_end`, and after all of them `sync(onsafe)` exactly once when a completion
`onsafe` was supplied and not at all when none was. -/
theorem sync_once_after_all_operations (ret : List Call → Int) (t : Transaction)
    (onsafe : Ptr) (s : Recorder) (r : Nat × Transaction × Recorder)
    (h : apply_transaction (recorder ret) t onsafe s = .ok r) :
    ∃ calls id,
      r.2.2.log = s.log ++ [Call.transaction_start] ++ calls ++ [Call.transaction_end id]
          ++ (if onsafe ≠ 0 then [Call.sync onsafe] else [])
      ∧ (∀ k ∈ calls, k.is_operation = true
          ∧ (k.completion = none ∨ k.completion = some 0))
      ∧ calls.length = t.ops.length
      ∧ (onsafe ≠ 0 → r.2.2.log.count (Call.sync onsafe) = s.log.count (Call.sync onsafe) + 1)
      ∧ (onsafe = 0 → ∀ p, r.2.2.log.count (Call.sync p) = s.log.count (Call.sync p)) := by
  unfold apply_transaction at h
  dsimp only at h
  split at h
  · cases h
  · rename_i t1 s1 hw
    obtain ⟨calls, hc1, hc2, hc3⟩ := recorder_while_have_op ret _ t t1 _ s1 hw
    have hlen : calls.length = t.ops.length := by
      have e := while_have_op_exhausts _ _ _ _ _ _ hw
      rw [e] at hc3
      simpa using hc3
    have hcount : ∀ p, calls.count (Call.sync p) = 0 := fun p => count_sync_of_plain calls p hc2
    cases h
    have hlog : s1.log = s.log ++ [Call.transaction_start] ++ calls := by
      rw [hc1]; rfl
    refine ⟨calls, ret (s.log ++ [Call.transaction_start]), ?_, hc2, hlen, ?_, ?_⟩
    · by_cases ho : onsafe = 0
      · simp [ho, recorder, hlog]
      · simp [ho, recorder, hlog]
    · intro ho
      simp [ho, recorder, hlog, List.count_append, hcount, List.count_cons]
    · intro ho p
      simp [ho, recorder, hlog, List.count_append, hcount, List.count_cons]

/-- C10 at a Transaction holding a write and a remove, with the completion `5`. -/
theorem sync_once_after_all_operations_witness :
    apply_transaction (recorder fun _ => 0)
        (build [.write 1 2 0 4 [65, 65, 65, 65], .remove 1 2]) 5 {}
      = .ok (0, {},
          { log := [Call.transaction_start, Call.write 1 2 0 4 [65, 65, 65, 65] 0,
              Call.remove 1 2 0, Call.transaction_end 0, Call.sync 5] })
    ∧ ∃ calls id,
      ([Call.transaction_start, Call.write 1 2 0 4 [65, 65, 65, 65] 0,
          Call.remove 1 2 0, Call.transaction_end 0, Call.sync 5] : List Call)
        = [] ++ [Call.transaction_start] ++ calls ++ [Call.transaction_end id]
          ++ (if (5 : Ptr) ≠ 0 then [Call.sync 5] else [])
      ∧ (∀ k ∈ calls, k.is_operation = true
          ∧ (k.completion = none ∨ k.completion = some 0))
      ∧ calls.length = (build [.write 1 2 0 4 [65, 65, 65, 65], .remove 1 2]).ops.length
      ∧ ((5 : Ptr) ≠ 0 →
          ([Call.transaction_start, Call.write 1 2 0 4 [65, 65, 65, 65] 0,
            Call.remove 1 2 0, Call.transaction_end 0, Call.sync 5] : List Call).count
              (Call.sync 5) = ([] : List Call).count (Call.sync 5) + 1)
      ∧ ((5 : Ptr) = 0 → ∀ p,
          ([Call.transaction_start, Call.write 1 2 0 4 [65, 65, 65, 65] 0,
            Call.remove 1 2 0, Call.transaction_end 0, Call.sync 5] : List Call).count
              (Call.sync p) = ([] : List Call).count (Call.sync p)) :=
  ⟨rfl,
    sync_once_after_all_operations (fun _ => 0)
      (build [.write 1 2 0 4 [65, 65, 65, 65], .remove 1 2]) 5 {} _ rfl⟩


/-! ## C11 -/

/-- C11, as the code has it: after a run of `apply_transaction` that returns, `have_op()` is
false and `get_num_ops()` is `0`; the loop has made exactly one iteration per code that was
queued before the call, which is the value `get_num_ops()` had before the call whenever
fewer than 2^31 codes were queued (`get_num_ops()` returns an `int`); and on every
Transaction the loop makes no more iterations than codes are queued, so the run never needs
more fuel than that. -/
theorem dispatch_exhausts_the_log (τ : Type) (S : ObjectStore τ) (t : Transaction)
    (onsafe : Ptr) (s : τ) (r : Nat × Transaction × τ)
    (h : apply_transaction S t onsafe s = .ok r) :
    r.2.1.have_op = false ∧ r.2.1.get_num_ops = 0
    ∧ apply_iterations S t s = t.ops.length
    ∧ (t.ops.length < 2147483648 → (apply_iterations S t s : Int) = t.get_num_ops)
    ∧ (∀ (u : Transaction) (p : Ptr) (s0 : τ),
        apply_iterations S u s0 ≤ u.ops.length
        ∧ ∀ s', apply_transaction S u p s0 ≠ .error (Fault.out_of_fuel, s')) := by
  obtain ⟨hi, e⟩ := apply_iterations_of_ok S t onsafe s r h
  refine ⟨?_, ?_, hi, ?_, ?_⟩
  · simp [have_op, e]
  · simp [get_num_ops, e, int_t]
  · intro hlt
    rw [get_num_ops_of_lt t hlt]
    exact congrArg Nat.cast hi
  · intro u p s0
    exact ⟨iterations_le S _ u _, apply_transaction_fuel S u p s0⟩

/-- C11, as the code has it, at a Transaction holding a write and a remove. -/
theorem dispatch_exhausts_the_log_witness :
    apply_transaction (recorder fun _ => 0)
        (build [.write 1 2 0 4 [65, 65, 65, 65], .remove 1 2]) 0 {}
      = .ok (0, {},
          { log := [Call.transaction_start, Call.write 1 2 0 4 [65, 65, 65, 65] 0,
              Call.remove 1 2 0, Call.transaction_end 0] })
    ∧ ({} : Transaction).have_op = false ∧ ({} : Transaction).get_num_ops = 0
    ∧ apply_iterations (recorder fun _ => 0)
        (build [.write 1 2 0 4 [65, 65, 65, 65], .remove 1 2]) {} = 2
    ∧ (build [.write 1 2 0 4 [65, 65, 65, 65], .remove 1 2]).get_num_ops = 2 := by
  have h := dispatch_exhausts_the_log Recorder (recorder fun _ => 0)
    (build [.write 1 2 0 4 [65, 65, 65, 65], .remove 1 2]) 0 {} _ rfl
  exact ⟨rfl, h.1, h.2.1, h.2.2.1, by decide⟩

/-- C11 fails as stated: on a Transaction holding 2^31 `OP_MKCOLL` codes with their
collection ids the run returns after 2^31 iterations, and `get_num_ops()` before the call
is `-2147483648`. -/
theorem iterations_differ_from_get_num_ops :
    (∃ r, apply_transaction (recorder fun _ => 0)
        { ops := List.replicate 2147483648 Transaction.OP_MKCOLL,
          cids := List.replicate 2147483648 0 } 0 {} = .ok r)
    ∧ apply_iterations (recorder fun _ => 0)
        { ops := List.replicate 2147483648 Transaction.OP_MKCOLL,
          cids := List.replicate 2147483648 0 } {} = 2147483648
    ∧ Transaction.get_num_ops
        { ops := List.replicate 2147483648 Transaction.OP_MKCOLL,
          cids := List.replicate 2147483648 0 } = -2147483648 := by
  have hav : operands_available
      ({ ops := List.replicate 2147483648 OP_MKCOLL,
         cids := List.replicate 2147483648 0 } : Transaction).ops
      { ops := List.replicate 2147483648 OP_MKCOLL,
        cids := List.replicate 2147483648 0 } = true :=
    operands_available_mkcoll 2147483648 _ (by simp only [List.length_replicate]; exact Nat.le_refl _)
  obtain ⟨r, hr⟩ := apply_transaction_of_available (recorder fun _ => 0) _ 0 {} hav
  refine ⟨⟨r, hr⟩, ?_, ?_⟩
  · exact (apply_iterations_of_ok _ _ _ _ _ hr).1.trans (List.length_replicate _ _)
  · simp only [get_num_ops, List.length_replicate, int_t]
    norm_num

/-! ## C12 -/

/-- C12, as the code has it: `encode` is a `const` method that only reads the queues: it
leaves the Transaction as it was, so after serialization `have_op()` is what it was before
(true exactly when the Transaction holds a code), the serialized codes are still queued and
the same bytes can be written again; dispatch, not serialization, consumes the log. -/
theorem encode_leaves_the_log (E : Encoding) (t : Transaction) (bl : List Nat) :
    (t.after_encode E bl).1 = t
    ∧ (t.after_encode E bl).1.have_op = t.have_op
    ∧ ((t.after_encode E bl).1.have_op = true ↔ t.ops ≠ [])
    ∧ (t.after_encode E bl).1.ops = t.ops
    ∧ ((t.after_encode E bl).1.after_encode E bl).2 = (t.after_encode E bl).2 := by
  refine ⟨rfl, rfl, ?_, rfl, rfl⟩
  show t.have_op = true ↔ t.ops ≠ []
  cases h : t.ops <;> simp [have_op, h]

/-- C12 fails as stated: a Transaction holding a remove still has its code after it has been
serialized. -/
theorem have_op_after_encode :
    ((build [.remove 1 2]).after_encode reference_encoding []).2
      = [1, 0, 0, 0, 13, 0, 0, 0, 0, 1, 0, 0, 0, 2, 0, 0, 0, 0, 0, 0, 0,
          1, 0, 0, 0, 1, 0, 0, 0, 0, 0, 0, 0, 0, 0, 0, 0, 0, 0, 0, 0]
    ∧ ((build [.remove 1 2]).after_encode reference_encoding []).1.have_op = true := by
  exact ⟨rfl, rfl⟩

/-! ## C13 -/

/-- C13, as the code has it: each take operation reads `front()` and calls `pop_front()`
without testing `empty()`: on a non-empty queue it returns the oldest entry and removes
exactly that entry, every other queue staying as it was; on an empty queue nothing is
detected and the call is undefined (`none`).  The dispatcher calls `get_op` only after
`have_op()`, which is true exactly when `get_op` is defined. -/
theorem take_removes_the_head (t : Transaction) :
    t.get_op = (match t.ops with
      | [] => none
      | x :: rest => some (x, { t with ops := rest }))
    ∧ t.get_bl = (match t.bls with
      | [] => none
      | x :: rest => some (x, { t with bls := rest }))
    ∧ t.get_oid = (match t.oids with
      | [] => none
      | x :: rest => some (x, { t with oids := rest }))
    ∧ t.get_cid = (match t.cids with
      | [] => none
      | x :: rest => some (x, { t with cids := rest }))
    ∧ t.get_length = (match t.lengths with
      | [] => none
      | x :: rest => some (off_t x, { t with lengths := rest }))
    ∧ t.get_attrname = (match t.attrnames with
      | [] => none
      | x :: rest => some (x, { t with attrnames := rest }))
    ∧ t.get_pbl = (match t.pbls with
      | [] => none
      | x :: rest => some (x, { t with pbls := rest }))
    ∧ t.get_pstat = (match t.psts with
      | [] => none
      | x :: rest => some (x, { t with psts := rest }))
    ∧ t.get_pattrval = (match t.pattrvals with
      | [] => none
      | x :: rest => some (x, { t with pattrvals := rest }))
    ∧ t.get_pattrset = (match t.pattrsets with
      | [] => none
      | x :: rest => some (x, { t with pattrsets := rest }))
    ∧ t.have_op = t.get_op.isSome := by
  obtain ⟨ops, bls, oids, cids, lengths, attrnames, attrnames2, pbls, psts, pattrvals,
    pattrsets⟩ := t
  refine ⟨?_, ?_, ?_, ?_, ?_, ?_, ?_, ?_, ?_, ?_, ?_⟩
  · cases ops <;> rfl
  · cases bls <;> rfl
  · cases oids <;> rfl
  · cases cids <;> rfl
  · cases lengths <;> rfl
  · cases attrnames <;> rfl
  · cases pbls <;> rfl
  · cases psts <;> rfl
  · cases pattrvals <;> rfl
  · cases pattrsets <;> rfl
  · cases ops <;> rfl

/-- C13 fails as stated: no take operation detects an empty queue; each of them is
undefined (`none`) on the freshly constructed Transaction, and a run that dispatches a
remove without operands stops in that undefined removal, not on an assertion like the one
that an unknown code meets. -/
theorem empty_queue_is_not_detected :
    ({} : Transaction).get_op = none ∧ ({} : Transaction).get_bl = none
    ∧ ({} : Transaction).get_oid = none ∧ ({} : Transaction).get_cid = none
    ∧ ({} : Transaction).get_length = none ∧ ({} : Transaction).get_attrname = none
    ∧ ({} : Transaction).get_pbl = none ∧ ({} : Transaction).get_pstat = none
    ∧ ({} : Transaction).get_pattrval = none ∧ ({} : Transaction).get_pattrset = none
    ∧ apply_transaction (recorder fun _ => 0) { ops := [13] } 0 {}
      = .error (Fault.undefined, { log := [Call.transaction_start] })
    ∧ apply_transaction (recorder fun _ => 0) { ops := [99] } 0 {}
      = .error (Fault.bad_op 99, { log := [Call.transaction_start] })
    ∧ Fault.undefined ≠ Fault.bad_op 13 := by
  refine ⟨rfl, rfl, rfl, rfl, rfl, rfl, rfl, rfl, rfl, rfl, rfl, rfl, ?_⟩
  decide

/-! ## C14 -/

/-- C14, as the code has it: a Transaction keeps no record of having been serialized or
iterated: in every state a builder call is accepted and appends its code and its operands
at the tails of the queues (the previous content staying in front), so afterwards
`have_op()` is true, also on a Transaction that has been serialized, on one whose iteration
has begun and on an exhausted one. -/
theorem builders_are_accepted_in_every_state (t : Transaction) (c : Builder) :
    Builder.apply t c = t.append (Builder.apply {} c)
    ∧ (Builder.apply t c).ops = t.ops ++ [c.code]
    ∧ (Builder.apply t c).have_op = true
    ∧ (∀ (E : Encoding) (bl : List Nat),
        (Builder.apply (t.after_encode E bl).1 c).ops = t.ops ++ [c.code])
    ∧ (Builder.apply { t with ops := t.ops.tail } c).ops = t.ops.tail ++ [c.code]
    ∧ (Builder.apply { t with ops := [] } c).ops = [c.code]
    ∧ (Builder.apply { t with ops := [] } c).have_op = true := by
  have h1 : ∀ u : Transaction, (Builder.apply u c).ops = u.ops ++ [c.code] := by
    intro u
    rw [apply_eq_append u c]
    simp [Transaction.append, apply_ops]
  have h2 : ∀ u : Transaction, (Builder.apply u c).have_op = true := by
    intro u
    simp [have_op, h1 u]
  exact ⟨apply_eq_append t c, h1 t, h2 t, fun _ _ => h1 t, h1 _, h1 _, h2 _⟩

/-- C14 fails as stated: a write is accepted after iteration has begun with `get_op()`, and
after a run of `apply_transaction` has exhausted the Transaction. -/
theorem builder_accepted_after_get_op :
    (build [.remove 1 2]).get_op = some (13, { oids := [2], cids := [1] })
    ∧ (({ oids := [2], cids := [1] } : Transaction).write 3 4 0 1 [65])
      = { ops := [10], bls := [[65]], oids := [2, 4], cids := [1, 3], lengths := [0, 1] }
    ∧ apply_transaction (recorder fun _ => 0) (build [.remove 1 2]) 0 {}
      = .ok (0, {}, { log := [Call.transaction_start, Call.remove 1 2 0,
          Call.transaction_end 0] })
    ∧ (({} : Transaction).write 3 4 0 1 [65]).ops = [10]
    ∧ (({} : Transaction).write 3 4 0 1 [65]).have_op = true := by
  exact ⟨rfl, rfl, rfl, rfl, rfl⟩

/-! ## C15 -/

/-- C15: in a run of `apply_transaction` that dispatches the whole Transaction (seen from the
recording backend), `transaction_start` is called exactly once and before the first
per-operation call, and `transaction_end` exactly once, after the last per-operation call
and with exactly the value that `transaction_start` returned; the hooks as `ObjectStore`
defines them do nothing: `transaction_start` returns `0` and `transaction_end` leaves the
state as it is. -/
theorem atomic_group_bracket (ret : List Call → Int) (t : Transaction) (onsafe : Ptr)
    (s : Recorder) (r : Nat × Transaction × Recorder)
    (h : apply_transaction (recorder ret) t onsafe s = .ok r) :
    (∃ calls,
      r.2.2.log = s.log ++ [Call.transaction_start] ++ calls
          ++ [Call.transaction_end ((recorder ret).invoke Call.transaction_start s).1]
          ++ (if onsafe ≠ 0 then [Call.sync onsafe] else [])
      ∧ (∀ k ∈ calls, k.is_operation = true) ∧ calls.length = t.ops.length)
    ∧ r.2.2.log.count Call.transaction_start = s.log.count Call.transaction_start + 1
    ∧ (∀ id, r.2.2.log.count (Call.transaction_end id)
        = s.log.count (Call.transaction_end id)
          + (if id = ((recorder ret).invoke Call.transaction_start s).1 then 1 else 0))
    ∧ (∀ (τ : Type) (S : ObjectStore τ) (id : Int) (x : τ),
        transaction_start S x = (0, x) ∧ transaction_end S id x = (0, x)
        ∧ (default_hooks S).invoke Call.transaction_start x = (0, x)
        ∧ (default_hooks S).invoke (Call.transaction_end id) x = (0, x)) := by
  obtain ⟨calls, hlog, hplain, hlen⟩ := recorder_apply_transaction ret t onsafe s r h
  have hid : ((recorder ret).invoke Call.transaction_start s).1
      = ret (s.log ++ [Call.transaction_start]) := rfl
  have c1 : calls.count Call.transaction_start = 0 := count_of_plain calls _ rfl hplain
  have c2 : ∀ id, calls.count (Call.transaction_end id) = 0 :=
    fun id => count_of_plain calls _ rfl hplain
  refine ⟨⟨calls, ?_, fun k hk => (hplain k hk).1, hlen⟩, ?_, ?_, ?_⟩
  · rw [hid]; exact hlog
  · rw [hlog]
    by_cases ho : onsafe = 0
    · simp [ho, List.count_append, List.count_cons, c1]
    · simp [ho, List.count_append, List.count_cons, c1]
  · intro id
    rw [hlog, hid]
    by_cases ho : onsafe = 0
    · by_cases hi : id = ret (s.log ++ [Call.transaction_start])
      · simp [ho, hi, List.count_append, List.count_cons, c2]
      · have hi' : ¬ ret (s.log ++ [Call.transaction_start]) = id := fun e => hi e.symm
        simp [ho, hi, hi', List.count_append, List.count_cons, c2]
    · by_cases hi : id = ret (s.log ++ [Call.transaction_start])
      · simp [ho, hi, List.count_append, List.count_cons, c2]
      · have hi' : ¬ ret (s.log ++ [Call.transaction_start]) = id := fun e => hi e.symm
        simp [ho, hi, hi', List.count_append, List.count_cons, c2]
  · intro τ S id x
    exact ⟨rfl, rfl, rfl, rfl⟩

/-- C15 at a Transaction holding a write and a remove, on a backend whose
`transaction_start` returns 7. -/
theorem atomic_group_bracket_witness :
    apply_transaction (recorder fun _ => 7)
        (build [.write 1 2 0 4 [65, 65, 65, 65], .remove 1 2]) 0 {}
      = .ok (0, {},
          { log := [Call.transaction_start, Call.write 1 2 0 4 [65, 65, 65, 65] 0,
              Call.remove 1 2 0, Call.transaction_end 7] })
    ∧ ([Call.transaction_start, Call.write 1 2 0 4 [65, 65, 65, 65] 0,
          Call.remove 1 2 0, Call.transaction_end 7] : List Call).count Call.transaction_start
        = 1
    ∧ ([Call.transaction_start, Call.write 1 2 0 4 [65, 65, 65, 65] 0,
          Call.remove 1 2 0, Call.transaction_end 7] : List Call).count
          (Call.transaction_end 7) = 1 := by
  have h := atomic_group_bracket (fun _ => 7)
    (build [.write 1 2 0 4 [65, 65, 65, 65], .remove 1 2]) 0 {} _ rfl
  exact ⟨rfl, h.2.1, h.2.2.1 7⟩

/-! ## C16 -/

/-- C16, as the code has it: `have_op()` is true exactly when a code remains;
`get_num_ops()` is the number of remaining codes when that number is below 2^31 (it is
returned as an `int`); on a non-empty log `get_op()` returns the oldest remaining code and
removes exactly that code, the other codes and every operand queue staying as they were;
so after the builder calls `cs` on a fresh Transaction, as many successive `get_op()` calls
return the `OP_*` constants of these builders in call order, none of the 20 constants being
changed by its storage as an `int8_t`. -/
theorem iteration_contract (t : Transaction) (cs : List Builder)
    (hlt : t.ops.length < 2147483648) :
    (t.have_op = true ↔ 0 < t.ops.length)
    ∧ t.get_num_ops = t.ops.length
    ∧ (∀ (op : Int) (rest : List Int), t.ops = op :: rest →
        t.get_op = some (op, { t with ops := rest }))
    ∧ (build cs).get_ops cs.length
        = some (cs.map Builder.code, { build cs with ops := [] })
    ∧ (∀ c : Builder, int8_t c.code = c.code ∧ (Builder.apply {} c).ops = [c.code]) := by
  refine ⟨?_, get_num_ops_of_lt t hlt, ?_, ?_, fun c => ⟨int8_t_code c, apply_ops c⟩⟩
  · cases h : t.ops <;> simp [have_op, h]
  · intro op rest h
    simp [get_op, pop, h]
  · have h := get_ops_append (cs.map Builder.code) [] (build cs)
      (by rw [build_ops, List.append_nil])
    rwa [List.length_map] at h

/-- C16, as the code has it, at a Transaction holding a write and a remove. -/
theorem iteration_contract_witness :
    (build [.write 1 2 0 4 [65, 65, 65, 65], .remove 1 2]).ops.length < 2147483648
    ∧ (build [.write 1 2 0 4 [65, 65, 65, 65], .remove 1 2]).have_op = true
    ∧ (build [.write 1 2 0 4 [65, 65, 65, 65], .remove 1 2]).get_num_ops = 2
    ∧ (build [.write 1 2 0 4 [65, 65, 65, 65], .remove 1 2]).get_ops 2
        = some ([10, 13],
            { bls := [[65, 65, 65, 65]], oids := [2, 2], cids := [1, 1],
              lengths := [0, 4] }) := by
  have h := iteration_contract (build [.write 1 2 0 4 [65, 65, 65, 65], .remove 1 2])
    [.write 1 2 0 4 [65, 65, 65, 65], .remove 1 2] (by decide)
  exact ⟨by decide, h.1.2 (by decide), h.2.1, h.2.2.2.1⟩

/-- C16 fails as stated: with 2^31 codes queued, `get_num_ops()` is `-2147483648`. -/
theorem get_num_ops_wraps :
    ({ ops := List.replicate 2147483648 Transaction.OP_REMOVE } : Transaction).ops.length
      = 2147483648
    ∧ Transaction.get_num_ops { ops := List.replicate 2147483648 Transaction.OP_REMOVE }
      = -2147483648 := by
  refine ⟨List.length_replicate _ _, ?_⟩
  simp only [get_num_ops, List.length_replicate, int_t]
  norm_num

/-! ## C17 -/

/-- C17: in every state of the Transaction, `write(cid, oid, off, len, bl)` appends the code
`OP_WRITE`, `cid`, `oid`, the two lengths `off` then `len` (as `int64_t`, from which the
dispatcher reads `len` back) and `bl` at the tails of their queues, and `read` appends
`OP_READ`, `cid`, `oid`, `off` then `len` and registers `pbl` in the output-handle queue;
the collection-level builders append no object id; every builder leaves the previous
content of every queue in front of what it appends, and appends its code and exactly the
operands of its signature, nothing to any other queue. -/
theorem builders_append_their_signature (t : Transaction) (cid : coll_t) (oid : pobject_t)
    (off : Int) (len : Nat) (bl : bufferlist) (pbl : Ptr)
    (hoff : Builder.off_ok off) (hlen : Builder.len_ok len) :
    t.write cid oid off len bl
        = { t with
            ops := t.ops ++ [OP_WRITE]
            cids := t.cids ++ [cid]
            oids := t.oids ++ [oid]
            lengths := t.lengths ++ [off, int64_t len]
            bls := t.bls ++ [bl] }
    ∧ t.read cid oid off len pbl
        = { t with
            ops := t.ops ++ [OP_READ]
            cids := t.cids ++ [cid]
            oids := t.oids ++ [oid]
            lengths := t.lengths ++ [off, int64_t len]
            pbls := t.pbls ++ [pbl] }
    ∧ size_t (off_t (int64_t len)) = len
    ∧ (len < 9223372036854775808 → int64_t len = len)
    ∧ (∀ (name : String) (val : List Nat) (n : Int) (aset : Ptr),
        (t.collection_setattr cid name val n).oids = t.oids
        ∧ (t.collection_rmattr cid name).oids = t.oids
        ∧ (t.collection_setattrs cid aset).oids = t.oids)
    ∧ (∀ c : Builder,
        Builder.apply t c = t.append (Builder.apply {} c)
        ∧ (Builder.apply {} c).ops = [c.code]
        ∧ (Builder.apply {} c).counts = c.signature
        ∧ (Builder.apply {} c).attrnames2 = []) := by
  refine ⟨?_, ?_, ?_, ?_, fun _ _ _ _ => ⟨rfl, rfl, rfl⟩,
    fun c => ⟨apply_eq_append t c, apply_ops c, apply_counts c, apply_attrnames2 c⟩⟩
  · simp [Transaction.write, int64_t_of_ok off hoff]
    rfl
  · simp [Transaction.read, int64_t_of_ok off hoff]
    rfl
  · rw [off_t, int64_t_idem, size_t_int64_t len hlen]
  · intro h
    unfold int64_t
    omega

/-- C17 at a write appended to a Transaction that holds a remove. -/
theorem builders_append_their_signature_witness :
    Builder.off_ok 0 ∧ Builder.len_ok 4
    ∧ (build [.remove 1 2]).write 3 4 0 4 [65, 65, 65, 65]
      = { ops := [13, 10], bls := [[65, 65, 65, 65]], oids := [2, 4], cids := [1, 3],
          lengths := [0, 4] }
    ∧ (build [.remove 1 2]).read 3 4 0 4 9
      = { ops := [13, 1], oids := [2, 4], cids := [1, 3], lengths := [0, 4], pbls := [9] } := by
  have h := builders_append_their_signature (build [.remove 1 2]) 3 4 0 4 [65, 65, 65, 65] 9
    (by decide) (by decide)
  exact ⟨by decide, by decide, h.1.trans rfl, h.2.1.trans rfl⟩

/-! ## C18 -/

/-- C18: the `clone` that `ObjectStore` defines returns `-1` (not zero) and leaves the state
as it is, invoking no interface method: a backend that keeps it records nothing for a
clone; and a Transaction built by builder calls whose codes have a dispatcher case, clones
among them, is dispatched to the end against such a backend: the run returns and the
operations queued after a clone are issued. -/
theorem default_clone_fails_without_aborting (cs : List Builder) (onsafe : Ptr)
    (hcase : ∀ c ∈ cs, c.has_case = true) (hwf : ∀ c ∈ cs, c.wf) :
    (∀ (τ : Type) (S : ObjectStore τ) (cid : coll_t) (oid noid : pobject_t) (s : τ),
      clone S cid oid noid s = (-1, s)
      ∧ (default_clone S).invoke (.clone cid oid noid) s = (-1, s)
      ∧ direct (default_clone S) (.clone cid oid noid) s = s)
    ∧ (-1 : Int) ≠ 0
    ∧ (∀ (ret : List Call → Int) (cid : coll_t) (oid noid : pobject_t) (s : Recorder),
      ((default_clone (recorder ret)).invoke (.clone cid oid noid) s).2.log = s.log)
    ∧ (∀ (τ : Type) (S : ObjectStore τ) (s : τ),
      apply_transaction (default_clone S) (build cs) onsafe s
        = .ok (0, {},
            let r := (default_clone S).invoke .transaction_start s
            let s2 := ((default_clone S).invoke (.transaction_end r.1)
              (direct_all (default_clone S) cs r.2)).2
            if onsafe ≠ 0 then ((default_clone S).invoke (.sync onsafe) s2).2 else s2))
    ∧ apply_transaction (default_clone (recorder fun _ => 0))
        (build [.write 1 2 0 1 [65], .clone 1 2 3, .remove 1 2]) 0 {}
      = .ok (0, {},
          { log := [Call.transaction_start, Call.write 1 2 0 1 [65] 0, Call.remove 1 2 0,
              Call.transaction_end 0] }) := by
  refine ⟨fun _ _ _ _ _ _ => ⟨rfl, rfl, rfl⟩, by decide, fun _ _ _ _ _ => rfl, ?_, rfl⟩
  intro τ S s
  have h := apply_transaction_build (default_clone S) cs {} onsafe s rfl hcase hwf
  rwa [Transaction.append_empty] at h

/-- C18 at a clone between a write and a remove. -/
theorem default_clone_fails_without_aborting_witness :
    (∀ c ∈ [Builder.write 1 2 0 1 [65], Builder.clone 1 2 3, Builder.remove 1 2],
        c.has_case = true)
    ∧ (∀ c ∈ [Builder.write 1 2 0 1 [65], Builder.clone 1 2 3, Builder.remove 1 2], c.wf)
    ∧ clone (recorder fun _ => 0) 1 2 3 {} = (-1, {})
    ∧ apply_transaction (default_clone (recorder fun _ => 0))
        (build [.write 1 2 0 1 [65], .clone 1 2 3, .remove 1 2]) 5 {}
      = .ok (0, {},
          { log := [Call.transaction_start, Call.write 1 2 0 1 [65] 0, Call.remove 1 2 0,
              Call.transaction_end 0, Call.sync 5] }) := by
  have h := default_clone_fails_without_aborting
    [.write 1 2 0 1 [65], .clone 1 2 3, .remove 1 2] 5 (by decide) (by decide)
  exact ⟨by decide, by decide, (h.1 Recorder (recorder fun _ => 0) 1 2 3 {}).1,
    (h.2.2.2.1 Recorder (recorder fun _ => 0) {}).trans rfl⟩

/-! ## C19 -/

/-- C19: the code does not determine the attribute-name queue from the bytes alone: `decode`
gives the op-code, byte-block, object-id, collection-id and length queues (and
`attrnames2`) the decoded content, and then appends the decoded names to `attrnames`
without emptying it.  Decoding into a Transaction on which `rmattr(1, 2, "x")` was called the bytes of
a Transaction holding `rmattr(3, 4, "a")` leaves the names "x", "a" for the single decoded
code, where decoding into a fresh Transaction leaves "a"; the replay then removes the
attribute "x" of object 4. -/
theorem decode_keeps_old_attrnames :
    (∀ (E : Encoding) (t0 : Transaction) (bl : List Nat),
      Transaction.decode E t0 bl
        = (Transaction.decode E {} bl).map fun r =>
            ({ r.1 with
               attrnames := t0.attrnames ++ r.1.attrnames
               pbls := t0.pbls
               psts := t0.psts
               pattrvals := t0.pattrvals
               pattrsets := t0.pattrsets }, r.2))
    ∧ build [.rmattr 1 2 "x"] = { ops := [16], oids := [2], cids := [1], attrnames := ["x"] }
    ∧ Transaction.decode reference_encoding (build [.rmattr 1 2 "x"])
        ((build [.rmattr 3 4 "a"]).encode reference_encoding [])
      = some ({ ops := [16], oids := [4], cids := [3], attrnames := ["x", "a"],
                attrnames2 := ["a"] }, [])
    ∧ Transaction.decode reference_encoding {}
        ((build [.rmattr 3 4 "a"]).encode reference_encoding [])
      = some ({ ops := [16], oids := [4], cids := [3], attrnames := ["a"],
                attrnames2 := ["a"] }, [])
    ∧ apply_transaction (recorder fun _ => 0)
        { ops := [16], oids := [4], cids := [3], attrnames := ["x", "a"],
          attrnames2 := ["a"] } 0 {}
      = .ok (0, { attrnames := ["a"], attrnames2 := ["a"] },
          { log := [Call.transaction_start, Call.rmattr 3 4 "x" 0, Call.transaction_end 0] })
    ∧ apply_transaction (recorder fun _ => 0) (build [.rmattr 3 4 "a"]) 0 {}
      = .ok (0, {},
          { log := [Call.transaction_start, Call.rmattr 3 4 "a" 0,
              Call.transaction_end 0] }) := by
  exact ⟨decode_into, rfl, rfl, rfl, rfl, rfl⟩
end ObjectStore
